import Mathlib

/-!
# beng-proxy: a verification development

Shallow embedding of parts of the beng-proxy sources and theorems about them.

Conventions used throughout:

* machine integers are `Nat`/`Int` with explicit wrap-around (`% 2 ^ w`);
* pointers into a buffer are offsets into a `List`;
* heap objects linked by pointers live in a `List` arena and are addressed by
  their index, `none` is the null pointer;
* loops carry a fuel argument, the result `none` means that the fuel ran out;
* callbacks into a handler are functions on an explicit handler state.
-/

namespace BengProxy

/-! ## Session ids: `src/bp/session/Id.cxx` -/

/-- The session id, a `std::array` of 32-bit words; `back` is `data.back()`,
`front` holds the words before it. -/
structure SessionId where
  front : List Nat
  back : Nat
  deriving DecidableEq, Repr

/-- The words of the id in order. -/
def SessionId.data (id : SessionId) : List Nat := id.front ++ [id.back]

/-- `SessionId::GetClusterHash`: the last word of the id. -/
def SessionId.GetClusterHash (id : SessionId) : Nat := id.back

/-- `ToClusterNode` on `uint32_t`: `id -= id % cluster_size; id += cluster_node`,
each operation wrapping modulo `2 ^ 32`. -/
def ToClusterNode (id cluster_size cluster_node : Nat) : Nat :=
  let remainder := id % (cluster_size % 2 ^ 32)
  let id1 := (id + 2 ^ 32 - remainder) % 2 ^ 32
  (id1 + cluster_node) % 2 ^ 32

/-- `SessionId::SetClusterNode`. -/
def SessionId.SetClusterNode (id : SessionId) (cluster_size cluster_node : Nat) : SessionId :=
  let old_hash := id.GetClusterHash
  let new_hash := ToClusterNode old_hash cluster_size cluster_node
  { id with back := new_hash }

/-- The fields of `SessionManager` that `AdjustNewSessionId` reads. -/
structure SessionManager where
  cluster_size : Nat
  cluster_node : Nat
  deriving DecidableEq, Repr

/-- `SessionManager::AdjustNewSessionId`. -/
def SessionManager.AdjustNewSessionId (m : SessionManager) (id : SessionId) : SessionId :=
  if m.cluster_size > 0 then id.SetClusterNode m.cluster_size m.cluster_node else id

/-! ## Session manager: `src/bp/session/Manager.cxx` -/

/-- A session in the container: its identity and the result of
`Session::GetPurgeScore()`, whose code is elsewhere. -/
structure Session where
  id : Nat
  purge_score : Nat
  deriving DecidableEq, Repr

/-- `Session::GetPurgeScore`. -/
def Session.GetPurgeScore (s : Session) : Nat := s.purge_score

/-- `SHM_NUM_PAGES`. -/
def SHM_NUM_PAGES : Nat := 65536

/-- `StaticArray<Session *, 256>::checked_append`: nothing is appended to a
full array. -/
def checked_append (a : List Session) (s : Session) : List Session :=
  if a.length < 256 then a ++ [s] else a

/-- The body of the first loop of `SessionContainer::Purge`, on the locals
`purge_sessions` and `highest_score`. -/
def purge_collect_step (l : List Session × Nat) (session : Session) : List Session × Nat :=
  let score := session.GetPurgeScore
  let l1 : List Session × Nat := if score > l.2 then ([], score) else l
  if score = l1.2 then (checked_append l1.1 session, l1.2) else l1

/-- The first loop of `SessionContainer::Purge` over the sessions in the
order of the iteration. -/
def purge_collect (sessions : List Session) : List Session × Nat :=
  sessions.foldl purge_collect_step ([], 0)

/-- The second loop of `SessionContainer::Purge`: `EraseAndDispose` of each
collected session. -/
def purge_erase (sessions purge_sessions : List Session) : List Session :=
  purge_sessions.foldl (fun c s => c.erase s) sessions

/-- `SessionContainer::Purge` on the sessions of the container in the order
of the iteration.  The result is the return value, the sessions left and the
sessions removed in each pass; `none` when the recursion does not end within
the fuel. -/
def SessionContainer.Purge : Nat → List Session → Option (Bool × List Session × List (List Session))
  | 0, _ => none
  | fuel + 1, sessions =>
    let purge_sessions := (purge_collect sessions).1
    if purge_sessions.isEmpty then some (false, sessions, [])
    else
      let sessions1 := purge_erase sessions purge_sessions
      let again := decide (purge_sessions.length < 16) &&
        decide (sessions1.length > SHM_NUM_PAGES - 256)
      if again then
        match SessionContainer.Purge fuel sessions1 with
        | none => none
        | some r => some (true, r.2.1, purge_sessions :: r.2.2)
      else some (true, sessions1, [purge_sessions])

/-- What the claim says of the passes of a purge that starts with the
sessions `c`: the sessions removed in a pass are sessions of the container at
the start of the pass, there is at least one, and none of the container has a
higher score; the next pass starts with what is left. -/
def purge_passes_ok : List Session → List (List Session) → Prop
  | _, [] => True
  | c, pass :: rest =>
    pass ≠ [] ∧ (∀ s ∈ pass, s ∈ c ∧ ∀ t ∈ c, t.purge_score ≤ s.purge_score) ∧
      purge_passes_ok (purge_erase c pass) rest

/-! ## String substitution: `src/istream-subst.c` -/

/-- Bytes of an ASCII string as C `char` values. -/
def cstr (s : String) : List Int := s.toList.map (fun c => Int.ofNat c.toNat)

/-- The leaf payload of a `subst_node`: the keyword `a` and its replacement `b`
(`b_length` is the length of `b`). -/
structure subst_leaf where
  a : List Int
  b : List Int
  deriving DecidableEq, Repr

/-- Node of the ternary search tree.  The pointers `parent`, `left`, `right`
and `equals` are indices into the arena `istream_subst.nodes`.  Only leaf
nodes (`ch = 0`) are allocated with the `leaf` member, hence the option. -/
structure subst_node where
  parent : Option Nat
  left : Option Nat
  right : Option Nat
  equals : Option Nat
  ch : Int
  leaf : Option subst_leaf
  deriving DecidableEq, Repr

/-- The state enumeration of `struct istream_subst`. -/
inductive subst_state where
  | STATE_NONE
  | STATE_CLOSED
  | STATE_MATCH
  | STATE_INSERT
  | STATE_MISMATCH
  deriving DecidableEq, Repr

open subst_state

/-- The `struct istream_subst`; `nodes` is the arena holding the tree nodes
allocated from the pool, `input` tells whether `subst->input != NULL`. -/
structure istream_subst where
  nodes : List subst_node
  root : Option Nat
  match_ : Option Nat
  state : subst_state
  a_match : Nat
  a_sent : Nat
  b_sent : Nat
  had_input : Bool
  had_output : Bool
  input : Bool
  deriving DecidableEq, Repr

/-- The handler attached to an istream, as a transition system on a handler
state `σ`.  `data` gets the offered bytes and answers with its new state, the
number of bytes it consumed and whether it closed the stream during the call. -/
structure istream_handler (σ : Type) where
  data : σ → List Int → σ × Nat × Bool
  eof : σ → σ
  abort : σ → σ

/-- `istream_invoke_data` on the output of the subst stream: a handler that
closes the stream (`istream_subst_close`) leaves it in `STATE_CLOSED` with the
input released. -/
def subst_invoke_data {σ : Type} (h : istream_handler σ) (s : istream_subst) (out : σ)
    (bytes : List Int) : istream_subst × σ × Nat :=
  let r := h.data out bytes
  (if r.2.2 then { s with state := STATE_CLOSED, input := false } else s, r.1, r.2.1)

/-- Is the pointer non-null and its node not a leaf (`p != NULL && p->ch != 0`)? -/
def subst_is_non_leaf (nodes : List subst_node) (p : Option Nat) : Bool :=
  match p with
  | none => false
  | some i =>
    match nodes[i]? with
    | none => false
    | some n => n.ch != 0

/-- The `while (1)` loop of `subst_next_non_leaf_node` ("this subtree is
finished, go up").  The outer option is `none` when the fuel runs out or a
pointer is invalid, the inner option is the returned pointer. -/
def subst_next_non_leaf_node_up (nodes : List subst_node) (root : Nat) :
    Nat → Nat → Option (Option Nat)
  | 0, _ => none
  | fuel + 1, node =>
    if node = root then some none
    else
      match nodes[node]? with
      | none => none
      | some n =>
        match n.parent with
        | none => none
        | some par =>
          match nodes[par]? with
          | none => none
          | some pn =>
            if pn.left = some node then
              if subst_is_non_leaf nodes pn.right then some (some par)
              else subst_next_non_leaf_node_up nodes root fuel par
            else subst_next_non_leaf_node_up nodes root fuel par

/-- `subst_next_non_leaf_node`: iterates over the current depth. -/
def subst_next_non_leaf_node (nodes : List subst_node) (node root : Nat) :
    Option (Option Nat) :=
  match nodes[node]? with
  | none => none
  | some n =>
    if subst_is_non_leaf nodes n.left then some n.left
    else if subst_is_non_leaf nodes n.right then some n.right
    else subst_next_non_leaf_node_up nodes root (nodes.length + 1) node

/-- `memchr`: offset of the first occurrence of `c`. -/
def memchr : List Int → Int → Option Nat
  | [], _ => none
  | x :: xs, c => if x = c then some 0 else (memchr xs c).map (· + 1)

/-- The `while (node != NULL)` loop of `subst_find_first_char`; the result is
the final `subst->match` and `min`. -/
def subst_find_first_char_loop (nodes : List subst_node) (root : Nat) (data : List Int) :
    Nat → Option Nat → Option Nat → Option Nat → Option (Option Nat × Option Nat)
  | 0, _, _, _ => none
  | _ + 1, none, m, min => some (m, min)
  | fuel + 1, some node, m, min =>
    match nodes[node]? with
    | none => none
    | some n =>
      let p := memchr data n.ch
      let better : Bool :=
        match p, min with
        | none, _ => false
        | some _, none => true
        | some i, some j => i < j
      let m1 := if better then n.equals else m
      let min1 := if better then p else min
      match subst_next_non_leaf_node nodes node root with
      | none => none
      | some next => subst_find_first_char_loop nodes root data fuel next m1 min1

/-- `subst_find_first_char`: find the first occurence of a "first character"
in the buffer.  Returns the new `subst->match` and the offset found; `none`
when the loop does not come to an end. -/
def subst_find_first_char (s : istream_subst) (data : List Int) :
    Option (Option Nat × Option Nat) :=
  match s.root with
  | none => some (s.match_, none)
  | some root =>
    subst_find_first_char_loop s.nodes root data (s.nodes.length + 2) (some root) s.match_ none

/-- `subst_find_char`: find a character in the tree. -/
def subst_find_char (nodes : List subst_node) : Nat → Option Nat → Int → Option (Option Nat)
  | 0, _, _ => none
  | _ + 1, none, _ => some none
  | fuel + 1, some node, ch =>
    match nodes[node]? with
    | none => none
    | some n =>
      if n.ch = ch then some n.equals
      else if ch < n.ch then subst_find_char nodes fuel n.left ch
      else subst_find_char nodes fuel n.right ch

/-- `subst_find_leaf`: find the leaf ending the current search word. -/
def subst_find_leaf (nodes : List subst_node) : Nat → Option Nat → Option (Option Nat)
  | 0, _ => none
  | _ + 1, none => some none
  | fuel + 1, some node =>
    match nodes[node]? with
    | none => none
    | some n =>
      if n.ch = 0 then some (some node)
      else if 0 < n.ch then subst_find_leaf nodes fuel n.left
      else subst_find_leaf nodes fuel n.right

/-- `subst_find_any_leaf`: find any leaf which begins with the current
partial match. -/
def subst_find_any_leaf (nodes : List subst_node) : Nat → Option Nat → Option Nat
  | 0, _ => none
  | _ + 1, none => none
  | fuel + 1, some node =>
    match nodes[node]? with
    | none => none
    | some n =>
      if n.ch = 0 then some node
      else subst_find_any_leaf nodes fuel n.equals

/-- The leaf payload `subst->match->leaf`; undefined (`none`) when `match` is
not a leaf node. -/
def subst_match_leaf (s : istream_subst) : Option subst_leaf :=
  match s.match_ with
  | none => none
  | some i =>
    match s.nodes[i]? with
    | none => none
    | some n => n.leaf

/-- `subst_try_write_b`: write data from `subst->b`. -/
def subst_try_write_b {σ : Type} (h : istream_handler σ) (s : istream_subst) (out : σ) :
    Option (istream_subst × σ × Nat) :=
  match subst_match_leaf s with
  | none => none
  | some leaf =>
    let length := leaf.b.length - s.b_sent
    if length = 0 then some ({ s with state := STATE_NONE }, out, 0)
    else
      let r := subst_invoke_data h s out (leaf.b.drop s.b_sent)
      let s1 := { r.1 with b_sent := r.1.b_sent + r.2.2 }
      let s2 := if r.2.2 = length then { s1 with state := STATE_NONE } else s1
      some (s2, r.2.1, r.2.2)

/-- `subst_try_write_a`: write data from `subst->a` (mismatch after a
partial match). -/
def subst_try_write_a {σ : Type} (h : istream_handler σ) (s : istream_subst) (out : σ) :
    Option (istream_subst × σ × Nat) :=
  match subst_match_leaf s with
  | none => none
  | some leaf =>
    let length := s.a_match - s.a_sent
    if length = 0 then some ({ s with state := STATE_NONE }, out, 0)
    else
      let r := subst_invoke_data h s out ((leaf.a.drop s.a_sent).take length)
      let s1 := { r.1 with a_sent := r.1.a_sent + r.2.2 }
      let s2 := if r.2.2 = length then { s1 with state := STATE_NONE } else s1
      some (s2, r.2.1, r.2.2)

/-- The local variables of `subst_source_data` that live across the loop:
`data`, `p` and `first` are offsets from `data0`. -/
structure subst_locals (σ : Type) where
  subst : istream_subst
  out : σ
  data : Nat
  p : Nat
  first : Option Nat

/-- Outcome of a piece of `subst_source_data`: `ret` is a `return` statement
with its value, `cont` falls through to the code that follows, `stuck` is a
violated assertion, an invalid pointer or a loop that does not end. -/
inductive subst_step (σ : Type) where
  | ret (subst : istream_subst) (out : σ) (n : Nat)
  | cont (l : subst_locals σ)
  | stuck

/-- The block "write the data chunk before the (mis-)match", which occurs
twice in `subst_source_data`. -/
def subst_write_before {σ : Type} (h : istream_handler σ) (input : List Int)
    (l : subst_locals σ) : subst_step σ :=
  match l.first with
  | none => .cont l
  | some first =>
    if first > l.data then
      let s1 := { l.subst with had_output := true }
      let chunk_length := first - l.data
      let r := subst_invoke_data h s1 l.out ((input.drop l.data).take chunk_length)
      let nbytes := r.2.2
      if nbytes = 0 ∧ r.1.state = STATE_CLOSED then .ret r.1 r.2.1 0
      else if nbytes < chunk_length then
        .ret { r.1 with state := STATE_NONE } r.2.1 (l.data + nbytes)
      else .cont { l with subst := r.1, out := r.2.1 }
    else .cont l

/-- One pass through the body of the `do ... while` loop of
`subst_source_data`. -/
def subst_source_data_body {σ : Type} (h : istream_handler σ) (input : List Int)
    (l : subst_locals σ) : subst_step σ :=
  match l.subst.state with
  | STATE_NONE =>
    match subst_find_first_char l.subst (input.drop l.p) with
    | none => .stuck
    | some (m, none) =>
      let s1 := { l.subst with match_ := m, had_output := true }
      let r := subst_invoke_data h s1 l.out (input.drop l.data)
      let nbytes := r.2.2
      if nbytes = 0 ∧ r.1.state = STATE_CLOSED then .ret r.1 r.2.1 0
      else .ret r.1 r.2.1 (l.data + nbytes)
    | some (m, some off) =>
      .cont { l with
        subst := { l.subst with match_ := m, state := STATE_MATCH, a_match := 1 }
        first := some (l.p + off)
        p := l.p + off + 1 }
  | STATE_CLOSED => .stuck
  | STATE_MATCH =>
    match subst_find_char l.subst.nodes (l.subst.nodes.length + 1) l.subst.match_
        (input.getD l.p 0) with
    | none => .stuck
    | some (some node) =>
      let s1 := { l.subst with a_match := l.subst.a_match + 1, match_ := some node }
      let l1 := { l with subst := s1, p := l.p + 1 }
      match subst_find_leaf s1.nodes (s1.nodes.length + 1) (some node) with
      | none => .stuck
      | some none => .cont l1
      | some (some leaf) =>
        match subst_write_before h input
            { l1 with subst := { s1 with match_ := some leaf } } with
        | .cont l2 =>
          .cont { l2 with
            data := l2.p
            first := none
            subst := { l2.subst with state := STATE_INSERT, b_sent := 0 } }
        | r => r
    | some none =>
      match subst_write_before h input l with
      | .cont l2 =>
        .cont { l2 with
          data := l2.p
          first := none
          subst := { l2.subst with
            state := STATE_MISMATCH
            a_sent := 0
            match_ := subst_find_any_leaf l2.subst.nodes (l2.subst.nodes.length + 1)
              l2.subst.match_ } }
      | r => r
  | STATE_INSERT =>
    match subst_try_write_b h l.subst l.out with
    | none => .stuck
    | some r =>
      if r.1.state = STATE_CLOSED then .ret r.1 r.2.1 0
      else if r.1.state = STATE_INSERT then .ret r.1 r.2.1 l.data
      else .cont { l with subst := r.1, out := r.2.1 }
  | STATE_MISMATCH =>
    match subst_try_write_a h l.subst l.out with
    | none => .stuck
    | some r =>
      if r.1.state = STATE_CLOSED then .ret r.1 r.2.1 0
      else if r.1.state = STATE_MISMATCH then .ret r.1 r.2.1 l.data
      else .cont { l with subst := r.1, out := r.2.1 }

/-- The `do ... while (p < end || state == INSERT || state == MISMATCH)` loop
of `subst_source_data`; `cont` is the normal exit of the loop. -/
def subst_source_data_loop {σ : Type} (h : istream_handler σ) (input : List Int) :
    Nat → subst_locals σ → subst_step σ
  | 0, _ => .stuck
  | fuel + 1, l =>
    match subst_source_data_body h input l with
    | .cont l1 =>
      if l1.p < input.length ∨ l1.subst.state = STATE_INSERT ∨
          l1.subst.state = STATE_MISMATCH then
        subst_source_data_loop h input fuel l1
      else .cont l1
    | r => r

/-- The code of `subst_source_data` after the loop. -/
def subst_source_data_tail {σ : Type} (h : istream_handler σ) (input : List Int)
    (l : subst_locals σ) : subst_step σ :=
  let chunk_length :=
    match l.first with
    | some first => first - l.data
    | none =>
      if l.subst.state = STATE_INSERT ∨ l.subst.state = STATE_MISMATCH then 0
      else input.length - l.data
  if chunk_length > 0 then
    let s1 := { l.subst with had_output := true }
    let r := subst_invoke_data h s1 l.out ((input.drop l.data).take chunk_length)
    let nbytes := r.2.2
    if nbytes = 0 ∧ r.1.state = STATE_CLOSED then .ret r.1 r.2.1 0
    else
      let data := l.data + nbytes
      if nbytes < chunk_length then
        .ret { r.1 with state := STATE_NONE } r.2.1 (data + nbytes)
      else .ret r.1 r.2.1 l.p
  else .ret l.subst l.out l.p

/-- `subst_source_data`: the data callback of the subst stream on its input.
The result is the new stream, the new handler state and the number of bytes
consumed; `none` when the call does not return. -/
def subst_source_data {σ : Type} (h : istream_handler σ) (s : istream_subst) (out : σ)
    (input : List Int) : Option (istream_subst × σ × Nat) :=
  let l : subst_locals σ :=
    { subst := { s with had_input := true }, out := out, data := 0, p := 0, first := none }
  match subst_source_data_loop h input (4 * input.length + 8) l with
  | .ret s1 out1 n => some (s1, out1, n)
  | .cont l1 =>
    match subst_source_data_tail h input l1 with
    | .ret s1 out1 n => some (s1, out1, n)
    | _ => none
  | .stuck => none

/-- `subst_source_eof`: the end-of-file callback of the subst stream on its
input. -/
def subst_source_eof {σ : Type} (h : istream_handler σ) (s : istream_subst) (out : σ) :
    Option (istream_subst × σ) :=
  let s0 := { s with input := false }
  let r : Option (istream_subst × σ) :=
    match s0.state with
    | STATE_NONE => some (s0, out)
    | STATE_CLOSED => none
    | STATE_MATCH =>
      (subst_try_write_a h { s0 with state := STATE_MISMATCH, a_sent := 0 } out).map
        (fun r => (r.1, r.2.1))
    | STATE_MISMATCH => (subst_try_write_a h s0 out).map (fun r => (r.1, r.2.1))
    | STATE_INSERT => (subst_try_write_b h s0 out).map (fun r => (r.1, r.2.1))
  match r with
  | none => none
  | some (s1, out1) =>
    if s1.state = STATE_NONE then some ({ s1 with state := STATE_CLOSED }, h.eof out1)
    else some (s1, out1)

/-- `istream_subst_new`: a subst stream with an empty tree. -/
def istream_subst_new : istream_subst :=
  { nodes := [], root := none, match_ := none, state := STATE_NONE,
    a_match := 0, a_sent := 0, b_sent := 0,
    had_input := false, had_output := false, input := true }

/-- The places a `struct subst_node **` can point to in `istream_subst_add`. -/
inductive subst_slot where
  | root
  | left (i : Nat)
  | right (i : Nat)
  | equals (i : Nat)
  deriving DecidableEq, Repr

/-- Read through a `struct subst_node **`. -/
def subst_slot_get (s : istream_subst) : subst_slot → Option Nat
  | .root => s.root
  | .left i => (s.nodes[i]?).bind (·.left)
  | .right i => (s.nodes[i]?).bind (·.right)
  | .equals i => (s.nodes[i]?).bind (·.equals)

/-- Write through a `struct subst_node **`. -/
def subst_slot_set (s : istream_subst) (slot : subst_slot) (v : Nat) : istream_subst :=
  match slot with
  | .root => { s with root := some v }
  | .left i => { s with nodes := s.nodes.modify (fun n => { n with left := some v }) i }
  | .right i => { s with nodes := s.nodes.modify (fun n => { n with right := some v }) i }
  | .equals i => { s with nodes := s.nodes.modify (fun n => { n with equals := some v }) i }

/-- The `do ... while (*a)` loop of `istream_subst_add`; `a` is the rest of the
keyword, the result is the stream, `pp` and `parent` at the exit. -/
def istream_subst_add_loop :
    Nat → istream_subst → subst_slot → Option Nat → List Int →
    Option (istream_subst × subst_slot × Option Nat)
  | 0, _, _, _, _ => none
  | fuel + 1, s, pp, parent, a =>
    let c := a.headD 0
    let r : Option (istream_subst × subst_slot × Option Nat × List Int) :=
      match subst_slot_get s pp with
      | none =>
        let p := s.nodes.length
        let n : subst_node :=
          { parent := parent, left := none, right := none, equals := none,
            ch := c, leaf := none }
        some (subst_slot_set { s with nodes := s.nodes ++ [n] } pp p,
          .equals p, some p, a.tail)
      | some p =>
        match s.nodes[p]? with
        | none => none
        | some pn =>
          if c < pn.ch then some (s, .left p, some p, a)
          else if c > pn.ch then some (s, .right p, some p, a)
          else some (s, .equals p, some p, a.tail)
    match r with
    | none => none
    | some (s1, pp1, parent1, a1) =>
      if a1.headD 0 ≠ 0 then istream_subst_add_loop fuel s1 pp1 parent1 a1
      else some (s1, pp1, parent1)

/-- `istream_subst_add`: register the keyword `a0` with the replacement `b`
(`none` is the null pointer).  Returns the stream and the `int` result. -/
def istream_subst_add (s : istream_subst) (a0 : List Int) (b : Option (List Int)) :
    Option (istream_subst × Nat) :=
  match istream_subst_add_loop ((s.nodes.length + 2) * (a0.length + 2)) s .root none a0 with
  | none => none
  | some (s1, pp, parent) =>
    match subst_slot_get s1 pp with
    | some _ => some (s1, 0)
    | none =>
      let p := s1.nodes.length
      let n : subst_node :=
        { parent := parent, left := none, right := none, equals := none, ch := 0,
          leaf := some { a := a0, b := b.getD [] } }
      some (subst_slot_set { s1 with nodes := s1.nodes ++ [n] } pp p, 1)

/-- Register a list of keywords in order, ignoring the results. -/
def istream_subst_add_all (s : istream_subst) :
    List (List Int × Option (List Int)) → Option istream_subst
  | [] => some s
  | (a, b) :: rest =>
    match istream_subst_add s a b with
    | none => none
    | some r => istream_subst_add_all r.1 rest

/-- What an output handler has seen: the bytes, the number of end-of-file
events and of aborts. -/
structure istream_sink where
  bytes : List Int
  eof : Nat
  aborted : Nat
  deriving DecidableEq, Repr

/-- The handler that always consumes everything it is offered. -/
def sink_handler : istream_handler istream_sink :=
  { data := fun k bytes => ({ k with bytes := k.bytes ++ bytes }, bytes.length, false)
    eof := fun k => { k with eof := k.eof + 1 }
    abort := fun k => { k with aborted := k.aborted + 1 } }

/-- Feed chunks one after another to `subst_source_data`.  The input offers the
next chunk once the previous one has been consumed entirely; the run is
undefined (`none`) when a call consumes less. -/
def subst_feed_chunks {σ : Type} (h : istream_handler σ) :
    istream_subst → σ → List (List Int) → Option (istream_subst × σ)
  | s, out, [] => some (s, out)
  | s, out, c :: cs =>
    match subst_source_data h s out c with
    | none => none
    | some r => if r.2.2 = c.length then subst_feed_chunks h r.1 r.2.1 cs else none

/-- Feed the chunks, then end-of-file, to a subst stream with the given
keywords and the all-consuming handler; the result is what the handler saw. -/
def subst_run (keywords : List (List Int × Option (List Int))) (chunks : List (List Int)) :
    Option istream_sink :=
  match istream_subst_add_all istream_subst_new keywords with
  | none => none
  | some s =>
    match subst_feed_chunks sink_handler s { bytes := [], eof := 0, aborted := 0 } chunks with
    | none => none
    | some r => (subst_source_eof sink_handler r.1 r.2).map (·.2)

/-- The handler that consumes at most `k` bytes of what it is offered in one
call. -/
def limited_handler (k : Nat) : istream_handler istream_sink :=
  { data := fun s bytes => ({ s with bytes := s.bytes ++ bytes.take k }, min k bytes.length, false)
    eof := fun s => { s with eof := s.eof + 1 }
    abort := fun s => { s with aborted := s.aborted + 1 } }

/-! ## AJPv13 client, response side: `src/ajp/ajp_client.cxx` -/

/-- A `struct strmap`: header names with their values. -/
abbrev strmap := List (String × String)

/-- Modelled from the spec: the packet codes of `enum ajp_code` of the AJPv13
protocol (`ajp_protocol.hxx` is not among the sources at hand). -/
def AJP_CODE_FORWARD_REQUEST : Nat := 2

/-- Modelled from the spec: packet code of a response body chunk. -/
def AJP_CODE_SEND_BODY_CHUNK : Nat := 3

/-- Modelled from the spec: packet code of the response headers. -/
def AJP_CODE_SEND_HEADERS : Nat := 4

/-- Modelled from the spec: packet code of the end of the response. -/
def AJP_CODE_END_RESPONSE : Nat := 5

/-- Modelled from the spec: packet code of a pull request for the request body. -/
def AJP_CODE_GET_BODY_CHUNK : Nat := 6

/-- Modelled from the spec: packet code of the shutdown request. -/
def AJP_CODE_SHUTDOWN : Nat := 7

/-- Modelled from the spec: packet code of the reply to a ping. -/
def AJP_CODE_CPONG_REPLY : Nat := 9

/-- Modelled from the spec: packet code of a ping. -/
def AJP_CODE_CPING : Nat := 10

/-- `FromBE16` of two consecutive bytes. -/
def FromBE16 (hi lo : Nat) : Nat := hi * 256 + lo

/-- `AjpClient::Response::read_state`. -/
inductive ajp_read_state where
  | READ_BEGIN
  | READ_NO_BODY
  | READ_BODY
  | READ_END
  deriving DecidableEq, Repr

open ajp_read_state

/-- `BufferedResult`, the result of the socket data callback. -/
inductive BufferedResult where
  | MORE
  | PARTIAL
  | BLOCKING
  | CLOSED
  deriving DecidableEq, Repr

/-- The effects of the client that its environment can observe, in the order
in which they happen. -/
inductive ajp_event where
  /-- `istream_invoke_data` on the response body: the bytes offered and the
  number of bytes the handler consumed -/
  | body_data (offered : List Nat) (nbytes : Nat)
  /-- `istream_invoke_eof` on the response body -/
  | body_eof
  /-- `istream_invoke_abort` on the response body -/
  | body_abort (msg : String)
  /-- `request.handler.InvokeResponse`; `body` tells whether a body stream is
  passed (false is the null pointer) -/
  | response (status : Nat) (headers : Option strmap) (body : Bool)
  /-- `request.handler.InvokeAbort` -/
  | handler_abort (msg : String)
  /-- the socket lease is released -/
  | lease_release (reuse : Bool)
  /-- the request body is closed without having been used -/
  | request_body_close_unused
  /-- `istream_ajp_body_request` -/
  | body_request (length : Nat)
  /-- an `assert()` of the source does not hold -/
  | assertion (place : String)
  deriving DecidableEq, Repr

/-- The `AjpClient` object: the `response` members, what the model needs to
know of the socket and of the request, and the trace of observable effects. -/
structure AjpClient where
  read_state : ajp_read_state
  no_body : Bool
  in_handler : Bool
  status : Nat
  headers : Option strmap
  chunk_length : Nat
  junk_length : Nat
  remaining : Int
  socket_valid : Bool
  socket_connected : Bool
  request_istream : Bool
  request_ajp_body : Bool
  trace : List ajp_event
  deriving DecidableEq, Repr

/-- The decisions of the handlers of a response, as functions on a handler
state `σ`.  `body_data` answers an offer of body bytes with the number of
bytes consumed and whether the handler closed the body stream during the
call; `response` tells whether the response handler closed the body stream
during `InvokeResponse`. -/
structure ajp_handler (σ : Type) where
  body_data : σ → List Nat → σ × Nat × Bool
  response : σ → Nat → Option strmap → σ × Bool

/-- The functions which `ConsumeSendHeaders` calls and which are not among the
sources at hand, taken as parameters.  `deserialize` stands for the sequence
`deserialize_uint16`, `deserialize_ajp_string`, `deserialize_uint16`,
`deserialize_ajp_response_headers`: it yields the status and the header map
(null when there is no header), or `none` when `packet.IsNull()` afterwards. -/
structure ajp_env where
  deserialize : List Nat → Option (Nat × Option strmap)
  http_status_is_valid : Nat → Bool
  http_status_is_empty : Nat → Bool

/-- Append an event to the trace. -/
def AjpClient.emit (c : AjpClient) (e : ajp_event) : AjpClient :=
  { c with trace := c.trace ++ [e] }

/-- Check an `assert()`: a violation is recorded in the trace. -/
def AjpClient.check (c : AjpClient) (ok : Bool) (place : String) : AjpClient :=
  if ok then c else c.emit (.assertion place)

/-- `AjpClient::ReleaseSocket`. -/
def AjpClient.ReleaseSocket (c : AjpClient) (reuse : Bool) : AjpClient :=
  let c1 := c.check (c.socket_connected &&
    (c.read_state == READ_BODY || c.read_state == READ_END)) "ReleaseSocket"
  ({ c1 with socket_connected := false }).emit (.lease_release reuse)

/-- `AjpClient::Release`: release the socket lease, destroy the socket and
free the request body. -/
def AjpClient.Release (c : AjpClient) (reuse : Bool) : AjpClient :=
  let c1 := c.check (c.socket_valid && c.read_state == READ_END) "Release"
  let c2 := if c1.socket_connected then c1.ReleaseSocket reuse else c1
  { c2 with socket_valid := false, request_istream := false }

/-- `AjpClient::AbortResponseHeaders`. -/
def AjpClient.AbortResponseHeaders (c : AjpClient) (msg : String) : AjpClient :=
  let c1 := c.check (c.read_state == READ_BEGIN || c.read_state == READ_NO_BODY)
    "AbortResponseHeaders"
  let c2 := ({ c1 with read_state := READ_END }).emit (.handler_abort msg)
  c2.Release false

/-- `AjpClient::AbortResponseBody`. -/
def AjpClient.AbortResponseBody (c : AjpClient) (msg : String) : AjpClient :=
  let c1 := c.check (c.read_state == READ_BODY) "AbortResponseBody"
  let c2 := ({ c1 with read_state := READ_END }).emit (.body_abort msg)
  c2.Release false

/-- `AjpClient::AbortResponse`. -/
def AjpClient.AbortResponse (c : AjpClient) (msg : String) : AjpClient :=
  match c.read_state with
  | READ_BEGIN => c.AbortResponseHeaders msg
  | READ_NO_BODY => c.AbortResponseHeaders msg
  | READ_BODY => c.AbortResponseBody msg
  | READ_END => c.emit (.assertion "AbortResponse")

/-- `istream_ajp_close`: the handler closes the response body. -/
def AjpClient.istream_ajp_close (c : AjpClient) : AjpClient :=
  let c1 := c.check (c.read_state == READ_BODY) "istream_ajp_close"
  ({ c1 with read_state := READ_END }).Release false

/-- Modelled from the spec: `strmap_remove_checked` (`strmap.hxx` is not among
the sources at hand) removes the first entry with the given key from the map
and returns its value; the result is null when the map is null or has no
such entry. -/
def strmap_remove_checked (headers : Option strmap) (key : String) :
    Option strmap × Option String :=
  match headers with
  | none => (none, none)
  | some m =>
    match m.find? (fun kv => kv.1 == key) with
    | none => (some m, none)
    | some kv => (some (m.eraseP (fun kv => kv.1 == key)), some kv.2)

/-- The `isspace` of the C locale. -/
def c_isspace (c : Char) : Bool :=
  c == ' ' || c == '\t' || c == '\n' || c == '\x0b' || c == '\x0c' || c == '\r'

/-- Value of the leading decimal digits of a string, starting from `acc`, and
the number of digits read. -/
def strtoul_digits : List Char → Nat → Nat × Nat
  | [], acc => (acc, 0)
  | c :: cs, acc =>
    if c.isDigit then
      let r := strtoul_digits cs (acc * 10 + (c.toNat - '0'.toNat))
      (r.1, r.2 + 1)
    else (acc, 0)

/-- The C library's `strtoul(s, &endptr, 10)` for a 64-bit `unsigned long`:
white space is skipped, a sign is accepted, a value out of range yields
`ULONG_MAX`, a minus sign negates the value modulo `2 ^ 64`.  The result is
the value and the offset of `endptr`, which is `0` when no digit was found. -/
def strtoul (s : List Char) : Nat × Nat :=
  let ws := s.takeWhile c_isspace
  let s1 := s.dropWhile c_isspace
  let neg := s1.head? == some '-'
  let signed := s1.head? == some '-' || s1.head? == some '+'
  let s2 := if signed then s1.tail else s1
  let r := strtoul_digits s2 0
  if r.2 = 0 then (0, 0)
  else
    let v := if r.1 ≥ 2 ^ 64 then 2 ^ 64 - 1
      else if neg then (2 ^ 64 - r.1) % 2 ^ 64 else r.1
    (v, ws.length + (if signed then 1 else 0) + r.2)

/-- Conversion of an `unsigned long` to the signed 64-bit `off_t`. -/
def to_off_t (n : Nat) : Int :=
  if n % 2 ^ 64 < 2 ^ 63 then (n % 2 ^ 64 : Nat) else (n % 2 ^ 64 : Nat) - 2 ^ 64

/-- The end of `AjpClient::ConsumeSendHeaders`, once `response.remaining` has
been set: the response is passed to the response handler. -/
def AjpClient.ConsumeSendHeadersBody {σ : Type} (h : ajp_handler σ)
    (c : AjpClient) (hs : σ) (status : Nat) (headers : Option strmap) :
    Bool × AjpClient × σ :=
  let c1 := { c with
    read_state := READ_BODY, chunk_length := 0, junk_length := 0, in_handler := true }
  let c2 := c1.emit (.response status headers true)
  let d := h.response hs status headers
  let c3 := if d.2 then c2.istream_ajp_close else c2
  let c4 := { c3 with in_handler := false }
  (c4.socket_valid, c4, d.1)

/-- `AjpClient::ConsumeSendHeaders`; the result tells whether the client is
still alive. -/
def AjpClient.ConsumeSendHeaders {σ : Type} (env : ajp_env) (h : ajp_handler σ)
    (c : AjpClient) (hs : σ) (data : List Nat) : Bool × AjpClient × σ :=
  if c.read_state ≠ READ_BEGIN then
    (false, c.AbortResponseBody "unexpected SEND_HEADERS packet from AJP server", hs)
  else
    match env.deserialize data with
    | none =>
      (false, c.AbortResponseHeaders "malformed SEND_HEADERS packet from AJP server", hs)
    | some (status, headers) =>
      if !env.http_status_is_valid status then
        (false, c.AbortResponseHeaders
          ("invalid status " ++ toString status ++ " from AJP server"), hs)
      else if c.no_body || env.http_status_is_empty status then
        (true, { c with
          read_state := READ_NO_BODY, status := status, headers := headers
          chunk_length := 0, junk_length := 0 }, hs)
      else
        let r := strmap_remove_checked headers "content-length"
        match r.2 with
        | some content_length =>
          let p := strtoul content_length.toList
          let c1 := { c with remaining := to_off_t p.1 }
          if p.2 = 0 ∨ p.2 ≠ content_length.length then
            (false, c1.AbortResponseHeaders "Malformed Content-Length from AJP server", hs)
          else c1.ConsumeSendHeadersBody h hs status r.1
        | none => ({ c with remaining := -1 }).ConsumeSendHeadersBody h hs status r.1

/-- `AjpClient::ConsumePacket`; `data` is the payload after the code byte,
`socket_empty` is `socket.IsEmpty()`.  The result tells whether the client is
still alive. -/
def AjpClient.ConsumePacket {σ : Type} (env : ajp_env) (h : ajp_handler σ)
    (c : AjpClient) (hs : σ) (code : Nat) (data : List Nat) (socket_empty : Bool) :
    Bool × AjpClient × σ :=
  if code = AJP_CODE_FORWARD_REQUEST ∨ code = AJP_CODE_SHUTDOWN ∨ code = AJP_CODE_CPING then
    (false, c.AbortResponse "unexpected request packet from AJP server", hs)
  else if code = AJP_CODE_SEND_BODY_CHUNK then
    (false, c.emit (.assertion "ConsumePacket"), hs)
  else if code = AJP_CODE_SEND_HEADERS then
    c.ConsumeSendHeaders env h hs data
  else if code = AJP_CODE_END_RESPONSE then
    if c.read_state = READ_BODY then
      if c.remaining > 0 then
        (false, c.AbortResponse "premature end of response AJP server", hs)
      else
        (false, ((({ c with read_state := READ_END }).emit .body_eof).Release true), hs)
    else if c.read_state = READ_NO_BODY then
      let c1 := ({ c with read_state := READ_END }).Release socket_empty
      (false, c1.emit (.response c1.status c1.headers false), hs)
    else
      (false, c.Release true, hs)
  else if code = AJP_CODE_GET_BODY_CHUNK then
    if data.length < 2 then
      (false, c.AbortResponse "malformed AJP GET_BODY_CHUNK packet", hs)
    else if !c.request_istream || !c.request_ajp_body then
      (true, c, hs)
    else
      (true, c.emit (.body_request (FromBE16 (data.getD 0 0) (data.getD 1 0))), hs)
  else
    (false, c.AbortResponse "unknown packet from AJP server", hs)

/-- `AjpClient::ConsumeBodyChunk`: offer body bytes to the handler of the
response body; returns the number of bytes consumed. -/
def AjpClient.ConsumeBodyChunk {σ : Type} (h : ajp_handler σ) (c : AjpClient) (hs : σ)
    (data : List Nat) : Nat × AjpClient × σ :=
  let length := if data.length > c.chunk_length then c.chunk_length else data.length
  let offered := data.take length
  let d := h.body_data hs offered
  let nbytes := d.2.1
  let c1 := c.emit (.body_data offered nbytes)
  let c2 := if d.2.2 then c1.istream_ajp_close else c1
  let c3 :=
    if nbytes > 0 then
      { c2 with chunk_length := c2.chunk_length - nbytes, remaining := c2.remaining - nbytes }
    else c2
  (nbytes, c3, d.1)

/-- `AjpClient::ConsumeBodyJunk`: discard junk after a body chunk; returns the
number of bytes consumed. -/
def AjpClient.ConsumeBodyJunk (c : AjpClient) (length : Nat) : Nat × AjpClient :=
  let length1 := if length > c.junk_length then c.junk_length else length
  (length1, { c with junk_length := c.junk_length - length1 })

/-- The variables of `AjpClient::Feed` that live across its loop: the client,
the handler state, the unconsumed rest `[data, end)` of the buffer and the
number of bytes reported to `socket.Consumed`. -/
structure ajp_feed_locals (σ : Type) where
  client : AjpClient
  hs : σ
  data : List Nat
  consumed : Nat

/-- Outcome of one pass through the loop of `AjpClient::Feed`: a `return`, or
the end of the loop body (also reached by `continue`). -/
inductive ajp_feed_step (σ : Type) where
  | ret (result : BufferedResult) (l : ajp_feed_locals σ)
  | next (l : ajp_feed_locals σ)

/-- The second half of the loop body of `AjpClient::Feed`: a packet header is
expected at `data`. -/
def AjpClient.FeedPacket {σ : Type} (env : ajp_env) (h : ajp_handler σ)
    (l : ajp_feed_locals σ) : ajp_feed_step σ :=
  let c := l.client
  let data := l.data
  if data.length < 4 + 1 then .ret .MORE l
  else
    let header_length := FromBE16 (data.getD 2 0) (data.getD 3 0)
    if data.getD 0 0 ≠ 65 ∨ data.getD 1 0 ≠ 66 ∨ header_length = 0 then
      .ret .CLOSED { l with client := c.AbortResponse "malformed AJP response packet" }
    else
      let code := data.getD 4 0
      if code = AJP_CODE_SEND_BODY_CHUNK then
        if c.read_state ≠ READ_BODY ∧ c.read_state ≠ READ_NO_BODY then
          .ret .CLOSED { l with
            client := c.AbortResponse "unexpected SEND_BODY_CHUNK packet from AJP server" }
        else
          let nbytes := 4 + 3
          if data.length < nbytes then .ret .MORE l
          else
            let c1 := { c with chunk_length := FromBE16 (data.getD 5 0) (data.getD 6 0) }
            if 3 + c1.chunk_length > header_length then
              .ret .CLOSED { l with
                client := c1.AbortResponse "malformed AJP SEND_BODY_CHUNK packet" }
            else
              let c2 := { c1 with junk_length := header_length - 3 - c1.chunk_length }
              let c3 :=
                if c2.read_state = READ_NO_BODY then
                  { c2 with junk_length := c2.junk_length + c2.chunk_length, chunk_length := 0 }
                else c2
              if c3.remaining ≥ 0 ∧ (c3.chunk_length : Int) > c3.remaining then
                .ret .CLOSED { l with
                  client := c3.AbortResponse
                    "excess chunk length in AJP SEND_BODY_CHUNK packet" }
              else
                .next { l with
                  client := c3, data := data.drop nbytes, consumed := l.consumed + nbytes }
      else
        let nbytes := 4 + header_length
        if data.length < nbytes then .ret .MORE l
        else
          let r := c.ConsumePacket env h l.hs code ((data.drop 5).take (header_length - 1))
            (data.length == nbytes)
          let l1 : ajp_feed_locals σ :=
            { client := r.2.1, hs := r.2.2, data := data.drop nbytes,
              consumed := l.consumed + nbytes }
          if !r.1 then .ret .CLOSED l1 else .next l1

/-- The junk part of the loop body of `AjpClient::Feed`, followed by the
packet part. -/
def AjpClient.FeedJunk {σ : Type} (env : ajp_env) (h : ajp_handler σ)
    (l : ajp_feed_locals σ) : ajp_feed_step σ :=
  if l.client.junk_length > 0 then
    let r := l.client.ConsumeBodyJunk l.data.length
    let l1 := { l with
      client := r.2, data := l.data.drop r.1, consumed := l.consumed + r.1 }
    if l1.data = [] ∨ l1.client.chunk_length > 0 then .ret .MORE l1
    else AjpClient.FeedPacket env h l1
  else AjpClient.FeedPacket env h l

/-- One pass through the body of the `do ... while` loop of
`AjpClient::Feed`. -/
def AjpClient.FeedBody {σ : Type} (env : ajp_env) (h : ajp_handler σ)
    (l : ajp_feed_locals σ) : ajp_feed_step σ :=
  if l.client.read_state = READ_BODY ∨ l.client.read_state = READ_NO_BODY then
    if l.client.chunk_length > 0 then
      let remaining := l.data.length
      let r := l.client.ConsumeBodyChunk h l.hs l.data
      let nbytes := r.1
      if nbytes = 0 then
        .ret (if r.2.1.socket_valid then .BLOCKING else .CLOSED)
          { l with client := r.2.1, hs := r.2.2 }
      else
        let l1 : ajp_feed_locals σ :=
          { client := r.2.1, hs := r.2.2, data := l.data.drop nbytes,
            consumed := l.consumed + nbytes }
        if l1.data = [] ∨ l1.client.chunk_length > 0 then
          .ret (if nbytes < remaining then .PARTIAL else .MORE) l1
        else AjpClient.FeedJunk env h l1
    else AjpClient.FeedJunk env h l
  else AjpClient.FeedPacket env h l

/-- The `do ... while (data != end)` loop of `AjpClient::Feed`. -/
def AjpClient.FeedLoop {σ : Type} (env : ajp_env) (h : ajp_handler σ) :
    Nat → ajp_feed_locals σ → Option (BufferedResult × ajp_feed_locals σ)
  | 0, _ => none
  | fuel + 1, l =>
    match AjpClient.FeedBody env h l with
    | .ret result l1 => some (result, l1)
    | .next l1 =>
      if l1.data ≠ [] then AjpClient.FeedLoop env h fuel l1
      else some (.MORE, l1)

/-- `AjpClient::Feed`: handle the data in the input buffer.  The result is
the `BufferedResult` and the locals at the return, among them the client and
the number of bytes consumed; `none` when the loop does not end. -/
def AjpClient.Feed {σ : Type} (env : ajp_env) (h : ajp_handler σ) (c : AjpClient) (hs : σ)
    (data : List Nat) : Option (BufferedResult × ajp_feed_locals σ) :=
  let c1 := c.check (c.read_state != READ_END && data != []) "Feed"
  AjpClient.FeedLoop env h (data.length + 1)
    { client := c1, hs := hs, data := data, consumed := 0 }

/-- A sequence of calls of `AjpClient::Feed`, each with an arbitrary non-empty
buffer, for as long as the client exists (it is gone in `READ_END`). -/
def AjpClient.FeedAll {σ : Type} (env : ajp_env) (h : ajp_handler σ) :
    AjpClient → σ → List (List Nat) → Option (AjpClient × σ)
  | c, hs, [] => some (c, hs)
  | c, hs, x :: xs =>
    if c.read_state = READ_END then some (c, hs)
    else if x = [] then AjpClient.FeedAll env h c hs xs
    else
      match AjpClient.Feed env h c hs x with
      | none => none
      | some r => AjpClient.FeedAll env h r.2.client r.2.hs xs

/-- Modelled from the spec: the socket's input buffer (`BufferedSocket` is not
among the sources at hand).  Incoming data is appended to the buffer, the
buffer is passed to `AjpClient::Feed`, and the bytes reported as consumed are
removed from its front.  The result is the client, the handler state and the
bytes left in the buffer. -/
def AjpClient.Receive {σ : Type} (env : ajp_env) (h : ajp_handler σ) :
    AjpClient → σ → List Nat → List (List Nat) → Option (AjpClient × σ × List Nat)
  | c, hs, buffer, [] => some (c, hs, buffer)
  | c, hs, buffer, x :: xs =>
    if c.read_state = READ_END then some (c, hs, buffer)
    else if buffer ++ x = [] then AjpClient.Receive env h c hs buffer xs
    else
      match AjpClient.Feed env h c hs (buffer ++ x) with
      | none => none
      | some r =>
        AjpClient.Receive env h r.2.client r.2.hs ((buffer ++ x).drop r.2.consumed) xs

/-- The body bytes delivered to the handler of the response body according
to a trace: of each offer, the bytes that the handler consumed. -/
def ajp_delivered : List ajp_event → List Nat
  | [] => []
  | .body_data offered nbytes :: t => offered.take nbytes ++ ajp_delivered t
  | _ :: t => ajp_delivered t

/-- The handlers that consume every body byte offered and never close the
body. -/
def ajp_consume_all : ajp_handler Unit :=
  { body_data := fun _ bytes => ((), bytes.length, false)
    response := fun _ _ _ => ((), false) }

/-- A client right after `ajp_client_request`: nothing received yet. -/
def AjpClient.start (no_body : Bool) : AjpClient :=
  { read_state := READ_BEGIN, no_body := no_body, in_handler := false,
    status := 0, headers := none, chunk_length := 0, junk_length := 0, remaining := 0,
    socket_valid := true, socket_connected := true,
    request_istream := false, request_ajp_body := false, trace := [] }

/-! ## AJPv13 client, request side: `ajp_client_request` -/

/-- `ToBE16` of a value converted to `uint16_t`: the two bytes, high first. -/
def ToBE16 (n : Nat) : List Nat := [(n % 65536) / 256, (n % 65536) % 256]

/-- Modelled from the spec: `serialize_ajp_string_n` (`ajp_serialize.cxx` is
not among the sources at hand), the counterpart of `read_string` and
`write_string` of the test: a 16-bit big-endian length, the bytes, and a
null byte; a string longer than `0xfffe` is cut off. -/
def serialize_ajp_string_n (s : List Nat) (length : Nat) : List Nat :=
  let length1 := if length > 0xfffe then 0xfffe else length
  ToBE16 length1 ++ s.take length1 ++ [0]

/-- Modelled from the spec: `serialize_ajp_string`; the null pointer is
written as the length `0xffff`. -/
def serialize_ajp_string (s : Option (List Nat)) : List Nat :=
  match s with
  | none => [0xff, 0xff]
  | some str => serialize_ajp_string_n str str.length

/-- Modelled from the spec: `serialize_ajp_integer`, a 16-bit big-endian
integer. -/
def serialize_ajp_integer (i : Nat) : List Nat := ToBE16 i

/-- Modelled from the spec: `serialize_ajp_bool`, one byte. -/
def serialize_ajp_bool (b : Bool) : List Nat := [if b then 1 else 0]

/-- Modelled from the spec: `format_uint64`, the decimal digits of the
number. -/
def format_uint64 (n : Nat) : List Nat := (Nat.toDigits 10 n).map Char.toNat

/-- Modelled from the spec: the code of the `Content-Length` request header
in AJPv13. -/
def AJP_HEADER_CONTENT_LENGTH : Nat := 0xA008

/-- Modelled from the spec: the code of the query string attribute in
AJPv13. -/
def AJP_ATTRIBUTE_QUERY_STRING : Nat := 0x05

/-- Modelled from the spec: the "no method" value of `enum ajp_method`. -/
def AJP_METHOD_NULL : Nat := 0

/-- The functions which `ajp_client_request` calls and which are not among
the sources at hand, taken as parameters.  `serialize_ajp_headers` yields the
bytes it writes and the number of headers. -/
structure ajp_request_env where
  uri_path_verify_quick : List Nat → Bool
  to_ajp_method : Nat → Nat
  http_method_is_empty : Nat → Bool
  serialize_ajp_headers : strmap → List Nat × Nat

/-- The request body stream, as far as `ajp_client_request` looks at it:
`available` is the result of `istream_available(body, false)`, `-1` when the
length is not known. -/
structure ajp_request_body where
  available : Int
  deriving DecidableEq, Repr

/-- The arguments of `ajp_client_request`; strings are lists of bytes, `none`
is the null pointer. -/
structure ajp_request_args where
  protocol : List Nat
  remote_addr : Option (List Nat)
  remote_host : Option (List Nat)
  server_name : Option (List Nat)
  server_port : Nat
  is_ssl : Bool
  method : Nat
  uri : List Nat
  headers : Option strmap
  body : Option ajp_request_body

/-- What `ajp_client_request` has done when it returns.  `failed`: the
request was refused, with the effects in order; no request stream exists, so
nothing is written to the socket.  `started`: the request stream was handed
to the socket; it begins with `packet`, the contents of the growing buffer,
followed when `body` is set by the framed request body (of which `requested`
bytes are requested at once) and the empty body chunk. -/
inductive ajp_request_result where
  | failed (events : List ajp_event)
  | started (client : AjpClient) (packet : List Nat) (body : Bool) (requested : Nat)

/-- `strchr(uri, '?')`: offset of the first question mark. -/
def strchr_question (uri : List Nat) : Option Nat :=
  let i := uri.indexOf 63
  if i < uri.length then some i else none

/-- The bytes which `ajp_client_request` appends to the growing buffer after
the 4-byte header, for a request that is accepted: from the code
`FORWARD_REQUEST` to the terminator `0xff`.  `available` is `-1` when there
is no body. -/
def ajp_request_payload (env : ajp_request_env) (a : ajp_request_args) (ajp_method : Nat)
    (available : Int) : List Nat :=
  let query_string := strchr_question a.uri
  let uri_length := match query_string with
    | some q => q
    | none => a.uri.length
  let hdrs : List Nat × Nat := match a.headers with
    | some m => env.serialize_ajp_headers m
    | none => ([], 0)
  let num_headers := if a.body.isSome then hdrs.2 + 1 else hdrs.2
  [AJP_CODE_FORWARD_REQUEST, ajp_method % 256]
    ++ serialize_ajp_string (some a.protocol)
    ++ serialize_ajp_string_n a.uri uri_length
    ++ serialize_ajp_string a.remote_addr
    ++ serialize_ajp_string a.remote_host
    ++ serialize_ajp_string a.server_name
    ++ serialize_ajp_integer a.server_port
    ++ serialize_ajp_bool a.is_ssl
    ++ serialize_ajp_integer num_headers
    ++ hdrs.1
    ++ (if available ≥ 0 then
          serialize_ajp_integer AJP_HEADER_CONTENT_LENGTH
            ++ serialize_ajp_string (some (format_uint64 available.toNat))
        else [])
    ++ (match query_string with
        | some q => [AJP_ATTRIBUTE_QUERY_STRING] ++ serialize_ajp_string (some (a.uri.drop (q + 1)))
        | none => [])
    ++ [0xff]

/-- `ajp_client_request`: serialize the request and hand it to the socket, or
refuse it. -/
def ajp_client_request (env : ajp_request_env) (a : ajp_request_args) : ajp_request_result :=
  if !env.uri_path_verify_quick a.uri then
    .failed ([.lease_release true]
      ++ (if a.body.isSome then [.request_body_close_unused] else [])
      ++ [.handler_abort
        ("malformed request URI '" ++ String.mk (a.uri.map Char.ofNat) ++ "'")])
  else
    let ajp_method := env.to_ajp_method a.method
    if ajp_method = AJP_METHOD_NULL then
      .failed ([.lease_release true]
        ++ (if a.body.isSome then [.request_body_close_unused] else [])
        ++ [.handler_abort "unknown request method"])
    else
      let available : Int := match a.body with
        | some b => b.available
        | none => -1
      if a.body.isSome ∧ available = -1 then
        .failed [.lease_release true, .request_body_close_unused,
          .handler_abort "AJPv13 does not support chunked request bodies"]
      else
        let body := a.body.isSome && available != 0
        let payload := ajp_request_payload env a ajp_method available
        let packet := [0x12, 0x34] ++ ToBE16 payload.length ++ payload
        let client : AjpClient :=
          { read_state := READ_BEGIN, no_body := env.http_method_is_empty a.method
            in_handler := false, status := 0, headers := none
            chunk_length := 0, junk_length := 0, remaining := 0
            socket_valid := true, socket_connected := true
            request_istream := true, request_ajp_body := body, trace := [] }
        .started client packet body (if body then 1024 else 0)

/-- A URI of `0xfffe` bytes: a slash followed by 65533 times the letter `a`. -/
def ajp_long_uri : List Nat := 47 :: List.replicate 65533 97

/-- A request for `ajp_long_uri` without headers and without a body. -/
def ajp_long_request (method : Nat) : ajp_request_args :=
  { protocol := [104, 116, 116, 112], remote_addr := none, remote_host := none,
    server_name := none, server_port := 80, is_ssl := false, method := method,
    uri := ajp_long_uri, headers := none, body := none }

/-- The packet in the growing buffer of a request that was started. -/
def ajp_request_result.packet : ajp_request_result → Option (List Nat)
  | .failed _ => none
  | .started _ packet _ _ => some packet

/-! ## WAS input: `src/was/was_input.cxx` -/

/-- The effects of a `WasInput` that its environment can observe. -/
inductive was_event where
  /-- `handler->abort` -/
  | handler_abort
  /-- `handler->eof` -/
  | handler_eof
  /-- `handler->premature` -/
  | handler_premature
  /-- `DestroyEof`: the stream reports end-of-file to its handler -/
  | destroy_eof
  /-- `DestroyError`: the stream fails with an error -/
  | destroy_error (msg : String)
  /-- an `assert()` of the source does not hold -/
  | assertion (place : String)
  deriving DecidableEq, Repr

/-- The `WasInput` object: the counters are `uint64_t`, `buffer` is the
content of the `SliceFifoBuffer`, `trace` the observable effects in order. -/
structure WasInput where
  received : Nat
  guaranteed : Nat
  length : Nat
  closed : Bool
  timeout : Bool
  known_length : Bool
  premature : Bool
  buffer : List Nat
  trace : List was_event
  deriving DecidableEq, Repr

/-- Append an event to the trace. -/
def WasInput.emit (i : WasInput) (e : was_event) : WasInput :=
  { i with trace := i.trace ++ [e] }

/-- `WasInput::AbortError`. -/
def WasInput.AbortError (i : WasInput) (msg : String) : WasInput :=
  (({ i with closed := true }).emit .handler_abort).emit (.destroy_error msg)

/-- `WasInput::Eof`; a violated assertion is recorded, the code then goes on
as it does when assertions are compiled out. -/
def WasInput.Eof (i : WasInput) : WasInput :=
  let i1 := if i.known_length then i else i.emit (.assertion "Eof: known_length")
  let i2 := if i1.received = i1.length then i1
    else i1.emit (.assertion "Eof: received == length")
  if i2.premature then
    (i2.emit .handler_premature).emit (.destroy_error "premature end of WAS response")
  else
    (i2.emit .handler_eof).emit .destroy_eof

/-- `WasInput::CheckEof`. -/
def WasInput.CheckEof (i : WasInput) : Bool × WasInput :=
  if i.known_length ∧ i.received ≥ i.length ∧ i.buffer = [] then (true, i.Eof)
  else (false, i)

/-- `was_input_set_length`. -/
def was_input_set_length (input : WasInput) (length : Nat) : Bool × WasInput :=
  if input.known_length then
    if length = input.length then (true, input)
    else (false, input.AbortError "wrong input length announced")
  else
    let i1 := { input with length := length, known_length := true, premature := false }
    let r := i1.CheckEof
    if r.1 then (false, r.2) else (true, r.2)

/-- `was_input_premature`. -/
def was_input_premature (input : WasInput) (length : Nat) : Bool × WasInput :=
  if input.known_length ∧ length > input.length then
    (false, input.AbortError "announced premature length is too large")
  else if input.guaranteed > length ∨ input.received > length then
    (false, input.AbortError "announced premature length is too small")
  else
    let i1 := { input with
      guaranteed := length, length := length, known_length := true, premature := true }
    let r := i1.CheckEof
    if r.1 then (false, r.2) else (true, r.2)

/-- A `WasInput` that has received `r` bytes, `pending` of which are still in
its buffer, and whose length has not been announced yet. -/
def WasInput.receiving (r : Nat) (pending : List Nat) : WasInput :=
  { received := r, guaranteed := 0, length := 0, closed := false, timeout := false,
    known_length := false, premature := false, buffer := pending, trace := [] }

/-! ## Replacing ranges of a stream: `src/replace.c` -/

/-- The operations of the growing buffer which `replace.c` calls and which are
not among the sources at hand, taken as parameters on a buffer type `β`:
`growing_buffer_new`, `growing_buffer_write_buffer`, `growing_buffer_read`
(the contiguous data at the read position, `none` is the null pointer) and
`growing_buffer_consume`. -/
structure growing_buffer_ops (β : Type) where
  new : Nat → β
  write_buffer : β → List Int → β
  read : β → Option (List Int)
  consume : β → Nat → β

/-- A `struct substitution` without its links; `istream` holds the bytes which
the replacement stream has yet to deliver, `none` is the null pointer. -/
structure substitution where
  start : Nat
  end_ : Nat
  istream : Option (List Int)
  deriving DecidableEq, Repr

/-- The `struct replace`.  `substitutions` is the list that starts at
`first_substitution` and is linked by `next`; `output` tells whether
`replace->output != NULL`. -/
structure replace (β : Type) where
  output : Bool
  quiet : Bool
  reading_source : Bool
  source_length : Nat
  buffer : Option β
  position : Nat
  substitutions : List substitution
  read_locked : Bool
  last_substitution_end : Nat

/-- `replace_init`. -/
def replace_init {β : Type} (ops : growing_buffer_ops β) (quiet : Bool) : replace β :=
  { output := true, quiet := quiet, reading_source := !quiet, source_length := 0,
    buffer := if !quiet then some (ops.new 8192) else none,
    position := 0, substitutions := [], read_locked := false, last_substitution_end := 0 }

/-- `replace_feed`; returns the number of bytes consumed. -/
def replace_feed {β : Type} (ops : growing_buffer_ops β) (r : replace β) (data : List Int) :
    replace β × Nat :=
  let r1 := if !r.quiet then { r with buffer := r.buffer.map (ops.write_buffer · data) } else r
  ({ r1 with source_length := r1.source_length + data.length }, data.length)

/-- `replace_add`. -/
def replace_add {β : Type} (r : replace β) (start end_ : Nat) (istream : Option (List Int)) :
    replace β :=
  { r with
    substitutions := r.substitutions ++ [{ start := start, end_ := end_, istream := istream }]
    last_substitution_end := end_ }

/-- `istream_invoke_data` on the output of the replace object: a handler that
closes the output runs `replace_destroy`. -/
def replace_invoke_data {β σ : Type} (h : istream_handler σ) (r : replace β) (out : σ)
    (bytes : List Int) : replace β × σ × Nat :=
  let d := h.data out bytes
  (if d.2.2 then { r with substitutions := [], quiet := false, output := false } else r,
    d.1, d.2.1)

/-- `replace_to_next_substitution`: activate the next substitution object
after the first one.  `read` stands for the call of `replace_read`. -/
def replace_to_next_substitution {β σ : Type} (ops : growing_buffer_ops β)
    (read : replace β → σ → Option (replace β × σ)) (r : replace β) (out : σ) :
    Option (replace β × σ) :=
  match r.substitutions with
  | [] => none
  | s :: rest =>
    let r1 :=
      if !r.quiet then
        { r with buffer := r.buffer.map (ops.consume · (s.end_ - s.start)), position := s.end_ }
      else r
    let r2 := { r1 with substitutions := rest }
    if !r2.read_locked then read r2 out else some (r2, out)

/-- `replace_substitution_free` for the first substitution: its stream has
ended. -/
def replace_substitution_free {β σ : Type} (ops : growing_buffer_ops β)
    (read : replace β → σ → Option (replace β × σ)) (r : replace β) (out : σ) :
    Option (replace β × σ) :=
  match r.substitutions with
  | [] => none
  | s :: rest =>
    let r1 := { r with substitutions := { s with istream := none } :: rest }
    if r1.reading_source ∨ (!r1.quiet ∧ r1.position < s.start) then some (r1, out)
    else replace_to_next_substitution ops read r1 out

/-- `replace_substitution_data` for the first substitution: its stream offers
data. -/
def replace_substitution_data {β σ : Type} (h : istream_handler σ) (r : replace β) (out : σ)
    (data : List Int) : replace β × σ × Nat :=
  match r.substitutions with
  | [] => (r, out, 0)
  | s :: _ =>
    if r.reading_source then (r, out, 0)
    else if !r.quiet ∧ r.position < s.start then (r, out, 0)
    else replace_invoke_data h r out data

/-- Modelled from the spec: `istream_read` on the replacement stream of the
first substitution, a stream that delivers a finite byte string: it offers all
the bytes it still has, drops those that were consumed, and reports its end
once none is left. -/
def replace_istream_read {β σ : Type} (ops : growing_buffer_ops β) (h : istream_handler σ)
    (read : replace β → σ → Option (replace β × σ)) (r : replace β) (out : σ)
    (pending : List Int) : Option (replace β × σ) :=
  if pending = [] then replace_substitution_free ops read r out
  else
    let d := replace_substitution_data h r out pending
    match d.1.substitutions with
    | [] => some (d.1, d.2.1)
    | s :: rest =>
      let left := pending.drop d.2.2
      let r1 := { d.1 with substitutions := { s with istream := some left } :: rest }
      if left = [] then replace_substitution_free ops read r1 d.2.1
      else some (r1, d.2.1)

/-- `replace_read_substitution`: read data from substitution objects; the
result tells whether a substitution is blocking. -/
def replace_read_substitution {β σ : Type} (ops : growing_buffer_ops β) (h : istream_handler σ)
    (read : replace β → σ → Option (replace β × σ)) :
    Nat → replace β → σ → Option (Bool × replace β × σ)
  | 0, _, _ => none
  | fuel + 1, r, out =>
    match r.substitutions with
    | [] => some (false, r, out)
    | s :: _ =>
      if r.quiet ∨ r.position = s.start then
        let r1 := { r with read_locked := true }
        let res :=
          match s.istream with
          | none => replace_to_next_substitution ops read r1 out
          | some pending => replace_istream_read ops h read r1 out pending
        match res with
        | none => none
        | some (r2, out2) =>
          let r3 := { r2 with read_locked := false }
          if r3.substitutions.length = r.substitutions.length then some (true, r3, out2)
          else replace_read_substitution ops h read fuel r3 out2
      else some (false, r, out)

/-- `replace_read_from_buffer`: copy data from the source buffer to the
istream handler; returns the number of bytes that were offered and not
consumed. -/
def replace_read_from_buffer {β σ : Type} (ops : growing_buffer_ops β) (h : istream_handler σ)
    (r : replace β) (out : σ) (max_length : Nat) : Option (Nat × replace β × σ) :=
  match r.buffer with
  | none => none
  | some b =>
    match ops.read b with
    | none => none
    | some data =>
      let length := if data.length > max_length then max_length else data.length
      let d := replace_invoke_data h r out (data.take length)
      let nbytes := d.2.2
      some (length - nbytes,
        { d.1 with buffer := d.1.buffer.map (ops.consume · nbytes),
                   position := d.1.position + nbytes },
        d.2.1)

/-- `replace_try_read_from_buffer`: copy the next chunk from the source buffer
to the istream handler. -/
def replace_try_read_from_buffer {β σ : Type} (ops : growing_buffer_ops β)
    (h : istream_handler σ) (r : replace β) (out : σ) : Option (Nat × replace β × σ) :=
  if r.quiet then some (0, r, out)
  else
    let max_length :=
      match r.substitutions with
      | [] => r.source_length - r.position
      | s :: _ => if r.position < s.start then s.start - r.position else 0
    if max_length = 0 then some (0, r, out)
    else replace_read_from_buffer ops h r out max_length

/-- The `while (1)` loop of `replace_read`: read until someone (input or
output) blocks. -/
def replace_read_loop {β σ : Type} (ops : growing_buffer_ops β) (h : istream_handler σ)
    (read : replace β → σ → Option (replace β × σ)) :
    Nat → replace β → σ → Option (replace β × σ)
  | 0, _, _ => none
  | fuel + 1, r, out =>
    match replace_read_substitution ops h read (r.substitutions.length + 1) r out with
    | none => none
    | some (blocking, r1, out1) =>
      if !r1.output ∨ blocking then some (r1, out1)
      else
        match replace_try_read_from_buffer ops h r1 out1 with
        | none => none
        | some (rest, r2, out2) =>
          if !r2.output ∨ rest > 0 then some (r2, out2)
          else if r2.substitutions = [] then
            let r3 := if !r2.quiet then { r2 with buffer := none } else r2
            some (r3, h.eof out2)
          else replace_read_loop ops h read fuel r2 out2

/-- `replace_read`; the first argument bounds the depth of the calls of
`replace_read` from within `replace_to_next_substitution`. -/
def replace_read {β σ : Type} (ops : growing_buffer_ops β) (h : istream_handler σ) :
    Nat → replace β → σ → Option (replace β × σ)
  | 0, _, _ => none
  | depth + 1, r, out =>
    if r.reading_source then some (r, out)
    else
      replace_read_loop ops h (replace_read ops h depth)
        (r.source_length + r.substitutions.length + 2) r out

/-- `replace_eof`: the source has ended, start to write the output. -/
def replace_eof {β σ : Type} (ops : growing_buffer_ops β) (h : istream_handler σ)
    (r : replace β) (out : σ) : Option (replace β × σ) :=
  let r1 := if !r.quiet then { r with reading_source := false, position := 0 } else r
  replace_read ops h (r1.substitutions.length + 2) r1 out

/-- Modelled from the spec: a chunk of the growing buffer (`growing-buffer.c`
is not among the sources at hand): the bytes written to it and the read
position. -/
structure growing_buffer_chunk where
  data : List Int
  position : Nat
  deriving DecidableEq, Repr

/-- Modelled from the spec: the growing buffer, a list of chunks each of which
holds up to `size` bytes. -/
structure growing_buffer where
  size : Nat
  chunks : List growing_buffer_chunk
  deriving DecidableEq, Repr

/-- Modelled from the spec: `growing_buffer_new`, a buffer with one empty
chunk of the given size. -/
def growing_buffer_new (initial_size : Nat) : growing_buffer :=
  { size := initial_size, chunks := [{ data := [], position := 0 }] }

/-- Modelled from the spec: `growing_buffer_write_buffer`: the data goes to
the last chunk when it fits there, else to a new chunk. -/
def growing_buffer_write_buffer (gb : growing_buffer) (data : List Int) : growing_buffer :=
  match gb.chunks.getLast? with
  | none => { size := max gb.size data.length, chunks := [{ data := data, position := 0 }] }
  | some last =>
    if last.data.length + data.length ≤ gb.size then
      { gb with chunks := gb.chunks.dropLast ++ [{ last with data := last.data ++ data }] }
    else
      { size := max gb.size data.length,
        chunks := gb.chunks ++ [{ data := data, position := 0 }] }

/-- Modelled from the spec: `growing_buffer_read`: the unread part of the
first chunk that has unread data. -/
def growing_buffer_read (gb : growing_buffer) : Option (List Int) :=
  (gb.chunks.find? (fun c => c.position < c.data.length)).map (fun c => c.data.drop c.position)

/-- Advance the read position by `n` bytes, chunk after chunk. -/
def growing_buffer_consume_chunks : List growing_buffer_chunk → Nat → List growing_buffer_chunk
  | [], _ => []
  | c :: cs, n =>
    if n ≤ c.data.length - c.position then { c with position := c.position + n } :: cs
    else { c with position := c.data.length } ::
      growing_buffer_consume_chunks cs (n - (c.data.length - c.position))

/-- Modelled from the spec: `growing_buffer_consume`. -/
def growing_buffer_consume (gb : growing_buffer) (n : Nat) : growing_buffer :=
  { gb with chunks := growing_buffer_consume_chunks gb.chunks n }

/-- The growing buffer made of chunks. -/
def chunked_growing_buffer : growing_buffer_ops growing_buffer :=
  { new := growing_buffer_new, write_buffer := growing_buffer_write_buffer,
    read := growing_buffer_read, consume := growing_buffer_consume }

/-- Feed the source in pieces, register the substitutions (all the source
being fed before), then signal the end of the source, in non-quiet mode with
the all-consuming handler; the result is what the handler saw. -/
def replace_run {β : Type} (ops : growing_buffer_ops β) (feeds : List (List Int))
    (subs : List substitution) : Option istream_sink :=
  let r0 : replace β := replace_init ops false
  let r1 := feeds.foldl (fun r d => (replace_feed ops r d).1) r0
  let r2 := subs.foldl (fun r s => replace_add r s.start s.end_ s.istream) r1
  (replace_eof ops sink_handler r2 { bytes := [], eof := 0, aborted := 0 }).map (·.2)

/-! ## Reading the trace of an AJP client -/

/-- Is the event an offer of body data? -/
def ajp_event.is_body_data : ajp_event → Bool
  | .body_data _ _ => true
  | _ => false

/-- Is the event a call of the response callback of the handler? -/
def ajp_event.is_response : ajp_event → Bool
  | .response _ _ _ => true
  | _ => false

/-- Events other than body data, end of the body and the response callback. -/
def ajp_event.quiet : ajp_event → Bool
  | .body_data _ _ => false
  | .body_eof => false
  | .response _ _ _ => false
  | _ => true

/-- The calls of the response callback recorded in a trace. -/
def ajp_responses (t : List ajp_event) : List ajp_event := t.filter ajp_event.is_response

/-- The client `c'` differs from `c` in its trace by quiet events only. -/
def AjpClient.quiet_step (c c' : AjpClient) : Prop :=
  ∃ evs, c'.trace = c.trace ++ evs ∧ ∀ e ∈ evs, e.quiet = true

/-- An AJP packet: the header `'A' 'B'` with the 16-bit length, then the
payload, whose first byte is the packet code. -/
def ajp_packet (length : Nat) (payload : List Nat) : List Nat :=
  [65, 66, length / 256, length % 256] ++ payload

/-- A `SEND_BODY_CHUNK` packet with header length field `h` and chunk length
field `c`, followed by `rest`. -/
def ajp_body_chunk_packet (h c : Nat) (rest : List Nat) : List Nat :=
  ajp_packet h ([AJP_CODE_SEND_BODY_CHUNK, c / 256, c % 256] ++ rest)

/-- The `END_RESPONSE` packet. -/
def ajp_end_response_packet : List Nat := ajp_packet 1 [AJP_CODE_END_RESPONSE]

/-- State of a client that waits for the end of a response without body: the
status and the headers are stored, no chunk is open, and neither body data
nor a response has been passed on. -/
def AjpClient.head_waiting (status : Nat) (headers : Option strmap) (c : AjpClient) : Prop :=
  c.read_state = READ_NO_BODY ∧ c.chunk_length = 0 ∧ c.status = status ∧
  c.headers = headers ∧ (∀ e ∈ c.trace, e.is_body_data = false) ∧ ajp_responses c.trace = []

/-- State of a client that is gone after a response without body: no body
data has been passed on, and the response callback was invoked not at all, or
once with the stored status and headers and a null body. -/
def AjpClient.head_done (status : Nat) (headers : Option strmap) (c : AjpClient) : Prop :=
  c.read_state = READ_END ∧ (∀ e ∈ c.trace, e.is_body_data = false) ∧
  (ajp_responses c.trace = [] ∨ ajp_responses c.trace = [.response status headers false])

/-- A property of the outcome of one pass through the loop of `Feed`: `P` for
the locals when the loop goes on, `R` for the locals at a `return`. -/
def ajp_feed_step.holds {σ : Type} (P R : ajp_feed_locals σ → Prop) : ajp_feed_step σ → Prop
  | .next l1 => P l1
  | .ret _ l1 => R l1

/-- The clients during and after a response without body. -/
def AjpClient.head_any (status : Nat) (headers : Option strmap) (c : AjpClient) : Prop :=
  c.head_waiting status headers ∨ c.head_done status headers

/-- What a client in `READ_BODY` is expected to be after it has been fed the
bytes `d`, all of which belong to the open chunk and its junk, when the
handler consumes everything: used to state what `Feed` computes. -/
def AjpClient.after_chunk_data (c : AjpClient) (d : List Nat) : AjpClient :=
  { c with
    chunk_length := c.chunk_length - min d.length c.chunk_length
    junk_length := c.junk_length - (d.length - min d.length c.chunk_length)
    remaining := c.remaining - (min d.length c.chunk_length : Nat)
    trace :=
      if 0 < min d.length c.chunk_length then
        c.trace ++ [.body_data (d.take (min d.length c.chunk_length)) (min d.length c.chunk_length)]
      else c.trace }

/-- The client after the header of a body chunk with chunk length `clen` and
`junk` bytes of junk has been read. -/
def AjpClient.open_chunk (c : AjpClient) (clen junk : Nat) : AjpClient :=
  { c with chunk_length := clen, junk_length := junk }

/-- State of a client that has received `k` bytes of the payload `payload` of
a body chunk of `clen` bytes followed by `junk` bytes of junk, relative to the
client `c0` before the packet. -/
def AjpClient.in_chunk (c0 : AjpClient) (payload : List Nat) (clen junk k : Nat)
    (c : AjpClient) : Prop :=
  c.read_state = READ_BODY ∧ c.chunk_length = clen - min k clen ∧
  c.junk_length = junk - (k - min k clen) ∧
  c.remaining = c0.remaining - (min k clen : Nat) ∧
  ajp_delivered c.trace = ajp_delivered c0.trace ++ payload.take (min k clen) ∧
  ∃ evs, c.trace = c0.trace ++ evs ∧ ∀ e ∈ evs, e.is_body_data = true

/-- An environment for concrete runs: a deserializer that reads the status
from the first two bytes and yields no headers, the valid status codes
`100 .. 599`, and the status codes without body. -/
def ajp_plain_env : ajp_env :=
  { deserialize := fun d =>
      if d.length < 2 then none else some (FromBE16 (d.getD 0 0) (d.getD 1 0), none)
    http_status_is_valid := fun s => decide (100 ≤ s) && decide (s < 600)
    http_status_is_empty := fun s => decide (s < 200) || s == 204 || s == 304 }

/-- A client in `READ_BODY` at a packet boundary, with the given rest of the
announced length (`-1` when no length was announced). -/
def AjpClient.reading_body (remaining : Int) : AjpClient :=
  { read_state := READ_BODY, no_body := false, in_handler := false,
    status := 0, headers := none, chunk_length := 0, junk_length := 0,
    remaining := remaining, socket_valid := true, socket_connected := true,
    request_istream := false, request_ajp_body := false, trace := [] }

/-- The client after a `SEND_HEADERS` packet that announces a response
without body: status and headers are stored. -/
def AjpClient.wait_no_body (c : AjpClient) (status : Nat) (headers : Option strmap) :
    AjpClient :=
  { c with
    read_state := READ_NO_BODY
    status := status
    headers := headers
    chunk_length := 0
    junk_length := 0 }

/-- State of a client that reads a response body of announced length `N`: no
end-of-file has been signalled, the bytes delivered and the bytes remaining
add up to `N`, and the open chunk fits into what remains. -/
def AjpClient.body_reading (N : Nat) (c : AjpClient) : Prop :=
  c.read_state = READ_BODY ∧ .body_eof ∉ c.trace ∧
  ((ajp_delivered c.trace).length : Int) + c.remaining = N ∧
  (c.chunk_length : Int) ≤ c.remaining

/-- State of a client that is gone after a response body of announced length
`N`: if end-of-file was signalled, then `N` bytes had been delivered. -/
def AjpClient.body_done (N : Nat) (c : AjpClient) : Prop :=
  c.read_state = READ_END ∧ (.body_eof ∈ c.trace → (ajp_delivered c.trace).length = N)

/-- The clients during and after a response body of announced length `N`. -/
def AjpClient.body_any (N : Nat) (c : AjpClient) : Prop :=
  c.body_reading N ∨ c.body_done N

/-- The contract of an istream handler: it consumes at most what it is
offered, and it consumes nothing when it closes the stream. -/
def ajp_handler.contract {σ : Type} (h : ajp_handler σ) : Prop :=
  ∀ (s : σ) (bytes : List Nat),
    (h.body_data s bytes).2.1 ≤ bytes.length ∧
    ((h.body_data s bytes).2.2 = true → (h.body_data s bytes).2.1 = 0)

/-- An environment for concrete runs whose deserializer yields the status 200
and one header, `content-length`, with the payload as its value. -/
def ajp_length_env : ajp_env :=
  { deserialize := fun d => some (200, some [("content-length", String.mk (d.map Char.ofNat))])
    http_status_is_valid := fun s => decide (100 ≤ s) && decide (s < 600)
    http_status_is_empty := fun s => decide (s < 200) || s == 204 || s == 304 }

/-! ## NFS connection manager: `src/nfs_stock.cxx` -/

/-- What the NFS stock does to the outside: the callbacks of a
`NfsStockGetHandler` (identified by its context) and the start of a new
client. -/
inductive nfs_event where
  | ready (client : Nat) (ctx : Nat)
  | error (err : Nat) (ctx : Nat)
  | nfs_client_new (server export_name : String)
  | assertion (place : String)
  deriving DecidableEq, Repr

/-- A waiting request: `NfsStockRequest`, the handler with its context. -/
structure NfsStockRequest where
  handler_ctx : Nat
  deriving DecidableEq, Repr

/-- The connection to one export: `NfsStockConnection`.  `requests` is the
intrusive list, front first; `client` is `none` while connecting. -/
structure NfsStockConnection where
  key : String
  client : Option Nat
  requests : List NfsStockRequest
  deriving DecidableEq, Repr

/-- The stock: `NfsStock`, with the connections by key and the calls made so
far. -/
structure NfsStock where
  connections : List NfsStockConnection
  trace : List nfs_event
  deriving DecidableEq, Repr

/-- `nfs_stock_new`. -/
def nfs_stock_new : NfsStock := { connections := [], trace := [] }

/-- `requests.clear_and_dispose(...)`: the disposer is called for each
element from the front of the list to its back. -/
def clear_and_dispose (requests : List NfsStockRequest) (f : NfsStockRequest → nfs_event) :
    List nfs_event :=
  requests.map f

/-- `NfsStock::Get`; the handler is identified by `ctx`. -/
def NfsStock.Get (s : NfsStock) (server export_name : String) (ctx : Nat) : NfsStock :=
  let key := server ++ ":" ++ export_name
  match s.connections.find? (fun c => c.key == key) with
  | none =>
    let connection : NfsStockConnection :=
      { key := key, client := none, requests := [{ handler_ctx := ctx }] }
    { connections := s.connections ++ [connection],
      trace := s.trace ++ [.nfs_client_new server export_name] }
  | some connection =>
    match connection.client with
    | some client => { s with trace := s.trace ++ [.ready client ctx] }
    | none =>
      { s with connections := s.connections.map (fun c =>
          if c.key == key then { c with requests := { handler_ctx := ctx } :: c.requests }
          else c) }

/-- `NfsStockConnection::OnNfsClientReady` of the connection with the given
key. -/
def NfsStock.OnNfsClientReady (s : NfsStock) (key : String) (client : Nat) : NfsStock :=
  match s.connections.find? (fun c => c.key == key) with
  | none => s
  | some connection =>
    let t0 := if connection.client.isSome then [nfs_event.assertion "OnNfsClientReady"] else []
    { connections := s.connections.map (fun c =>
        if c.key == key then { c with client := some client, requests := [] } else c),
      trace := s.trace ++ t0 ++
        clear_and_dispose connection.requests (fun r => .ready client r.handler_ctx) }

/-- `NfsStockConnection::OnNfsMountError` of the connection with the given
key. -/
def NfsStock.OnNfsMountError (s : NfsStock) (key : String) (err : Nat) : NfsStock :=
  match s.connections.find? (fun c => c.key == key) with
  | none => s
  | some connection =>
    { connections := s.connections.filter (fun c => !(c.key == key)),
      trace := s.trace ++
        clear_and_dispose connection.requests (fun r => .error err r.handler_ctx) }

/-- `NfsStockRequest::Cancel` of the request with the given context. -/
def NfsStock.Cancel (s : NfsStock) (key : String) (ctx : Nat) : NfsStock :=
  { s with connections := s.connections.map (fun c =>
      if c.key == key then { c with requests := c.requests.erase { handler_ctx := ctx } }
      else c) }

/-- A sequence of `NfsStock::Get` calls for the same server and export, in the
order of the list of handler contexts. -/
def NfsStock.GetAll (s : NfsStock) (server export_name : String) (ctxs : List Nat) : NfsStock :=
  ctxs.foldl (fun s ctx => s.Get server export_name ctx) s

/-- The contexts of the `ready` callbacks in a trace, in the order of the
calls. -/
def nfs_ready_order : List nfs_event → List Nat
  | [] => []
  | .ready _ ctx :: t => ctx :: nfs_ready_order t
  | _ :: t => nfs_ready_order t

/-! ## High level HTTP client: `src/http_request.cxx` -/

/-- `enum class WidgetErrorCode`. -/
inductive WidgetErrorCode where
  | UNSPECIFIED
  | WRONG_TYPE
  | UNSUPPORTED_ENCODING
  | NO_SUCH_VIEW
  | NOT_A_CONTAINER
  | FORBIDDEN
  deriving DecidableEq, Repr

/-- `WidgetError`: the code and the message. -/
structure WidgetError where
  code : WidgetErrorCode
  msg : String
  deriving DecidableEq, Repr

/-- `StringStartsWith` on C strings. -/
def StringStartsWith (haystack needle : String) : Bool :=
  needle.toList.isPrefixOf haystack.toList

/-- The streams that `widget_response_format` builds around the body. -/
inductive Istream where
  | input
  | iconv (body : Istream) (tocode fromcode : String)
  | html_escape (body : Istream)
  | string (s : String)
  | cat (parts : List Istream)
  deriving Repr

/-- The functions that `widget_response_format` calls and whose code is
elsewhere: `http_header_param(content_type, "charset")`, `none` for a null
result, and whether `istream_iconv_new` knows a charset. -/
structure widget_format_env where
  http_header_param : String → String → Option String
  iconv_known : String → Bool

/-- `StringView::EqualsIgnoreCase` for ASCII strings. -/
def EqualsIgnoreCase (a b : String) : Bool :=
  a.toList.map Char.toLower == b.toList.map Char.toLower

/-- The result of `widget_response_format`: the stream returned, or the
`WidgetError` thrown; `closed` tells whether `body->CloseUnused()` was
called. -/
structure widget_format_result where
  body : Except WidgetError Istream
  closed : Bool

/-- `widget_response_format`; `headers` is the `StringMap` of the response,
`Get` yields the first value of a key. -/
def widget_response_format (env : widget_format_env) (headers : strmap) (plain_text : Bool) :
    widget_format_result :=
  let p := headers.lookup "content-encoding"
  if p.isSome ∧ p ≠ some "identity" then
    { body := .error { code := .UNSUPPORTED_ENCODING,
                       msg := "widget sent non-identity response, cannot embed" },
      closed := true }
  else
    match headers.lookup "content-type" with
    | none =>
      { body := .error { code := .UNSUPPORTED_ENCODING,
                         msg := if plain_text then "widget sent non-text/plain response"
                           else "widget sent non-text response" },
        closed := true }
    | some content_type =>
      if plain_text then
        if !StringStartsWith content_type "text/plain" then
          { body := .error { code := .UNSUPPORTED_ENCODING,
                             msg := "widget sent non-text/plain response" },
            closed := true }
        else { body := .ok .input, closed := false }
      else if !StringStartsWith content_type "text/" &&
          !StringStartsWith content_type "application/xml" &&
          !StringStartsWith content_type "application/xhtml+xml" then
        { body := .error { code := .UNSUPPORTED_ENCODING, msg := "widget sent non-text response" },
          closed := true }
      else
        let charset := env.http_header_param content_type "charset"
        let convert :=
          match charset with
          | none => none
          | some cs =>
            if !EqualsIgnoreCase cs "utf-8" && !EqualsIgnoreCase cs "utf8" then some cs else none
        let escape (body : Istream) : Istream :=
          if StringStartsWith content_type "text/" &&
              !StringStartsWith (String.mk (content_type.toList.drop 5)) "html" &&
              !StringStartsWith (String.mk (content_type.toList.drop 5)) "xml" then
            .cat [.string "<pre class=\"beng_text_widget\">", .html_escape body,
                  .string "</pre>"]
          else body
        match convert with
        | some charset2 =>
          if !env.iconv_known charset2 then
            { body := .error { code := .UNSUPPORTED_ENCODING,
                               msg := "widget sent unknown charset '" ++ charset2 ++ "'" },
              closed := true }
          else { body := .ok (escape (.iconv .input "utf-8" charset2)), closed := false }
        | none => { body := .ok (escape .input), closed := false }

/-- Follows the spec's words: the media type of a `Content-Type` value, the
part before the parameters with the white space around it removed. -/
def content_type_media_type (content_type : String) : String :=
  String.mk (((content_type.toList.takeWhile (fun c => c != ';')).dropWhile
    (fun c => c == ' ')).reverse.dropWhile (fun c => c == ' ')).reverse

/-- Follows the spec's words: the media type is `text/*`, `application/xml`
or `application/xhtml+xml`. -/
def media_type_embeddable (media_type : String) : Bool :=
  StringStartsWith media_type "text/" || media_type == "application/xml" ||
    media_type == "application/xhtml+xml"

/-- What `InlineWidget::SendRequest` does to the outside. -/
inductive inline_widget_event where
  | widget_cancel
  | fail (code : WidgetErrorCode) (msg : String)
  | load_from_session
  | header_timeout_add
  | widget_http_request
  | resolve_widget
  deriving DecidableEq, Repr

/-- The state of the widget that `InlineWidget` reads, with the results of
the functions whose code is elsewhere: `widget_check_approval(&widget)`,
whether `widget.CheckHost(...)` throws, `widget.HasDefaultView()` and whether
`env.GetRealmSession()` yields a session. -/
structure Widget where
  cls : Option Nat
  class_name : String
  view_name : String
  check_approval : Bool
  check_host_throws : Bool
  has_default_view : Bool
  session_sync_pending : Bool
  realm_session : Bool
  deriving DecidableEq, Repr

/-- `InlineWidget::SendRequest`: the widget afterwards and the calls made. -/
def InlineWidget.SendRequest (widget : Widget) : Widget × List inline_widget_event :=
  if !widget.check_approval then
    (widget, [.widget_cancel,
      .fail .FORBIDDEN ("not allowed to embed widget class '" ++ widget.class_name ++ "'")])
  else if widget.check_host_throws then
    (widget, [.widget_cancel, .fail .FORBIDDEN "Untrusted host"])
  else if !widget.has_default_view then
    (widget, [.widget_cancel, .fail .NO_SUCH_VIEW ("No such view: " ++ widget.view_name)])
  else
    let r : Widget × List inline_widget_event :=
      if widget.session_sync_pending then
        if widget.realm_session then (widget, [.load_from_session])
        else ({ widget with session_sync_pending := false }, [])
      else (widget, [])
    (r.1, r.2 ++ [.header_timeout_add, .widget_http_request])

/-- `InlineWidget::ResolverCallback`. -/
def InlineWidget.ResolverCallback (widget : Widget) : Widget × List inline_widget_event :=
  if widget.cls.isSome then InlineWidget.SendRequest widget
  else (widget, [.widget_cancel, .fail .UNSPECIFIED "Failed to look up widget class"])

/-- `InlineWidget::Start`; `resolved` is the widget as the resolver leaves it
when the class has to be looked up. -/
def InlineWidget.Start (widget resolved : Widget) : Widget × List inline_widget_event :=
  if widget.cls.isNone then
    let r := InlineWidget.ResolverCallback resolved
    (r.1, .resolve_widget :: r.2)
  else InlineWidget.SendRequest widget

/-- Whether `widget_response_format` returned a stream. -/
def widget_format_result.returned (r : widget_format_result) : Bool :=
  match r.body with
  | .ok _ => true
  | .error _ => false

/-- The code of the `WidgetError` thrown by `widget_response_format`, if
any. -/
def widget_format_result.thrown (r : widget_format_result) : Option WidgetErrorCode :=
  match r.body with
  | .ok _ => none
  | .error e => some e.code

/-- An environment for concrete runs: no `Content-Type` value has a `charset`
parameter. -/
def widget_no_charset_env : widget_format_env :=
  { http_header_param := fun _ _ => none, iconv_known := fun _ => true }

/-- An environment for concrete runs: every `Content-Type` value has the
parameter `charset=iso-8859-1`, which `istream_iconv_new` knows. -/
def widget_latin1_env : widget_format_env :=
  { http_header_param := fun _ _ => some "iso-8859-1", iconv_known := fun _ => true }

/-- A widget for concrete runs: its class is resolved and approved, but
`CheckHost` throws. -/
def widget_untrusted_host : Widget :=
  { cls := some 1, class_name := "foo", view_name := "", check_approval := true,
    check_host_throws := true, has_default_view := true,
    session_sync_pending := false, realm_session := false }

/-! ## URI rewriting: `src/rewrite-uri.c` -/

/-- The character at an offset of a C string; the terminating null character
is `'\x00'`. -/
def cstr_at (s : List Char) (i : Nat) : Char := s.getD i '\x00'

/-- `strchr(s, c)` for a character other than the null character: the offset
of its first occurrence. -/
def strchr (s : List Char) (c : Char) : Option Nat :=
  if s.indexOf c < s.length then some (s.indexOf c) else none

/-- The loop of `uri_replace_hostname` that looks for the end of the host:
the offset of the first `':'` or `'/'` at or after `start`, or the length of
the string. -/
def uri_hostname_end (uri : List Char) (start : Nat) : Nat :=
  start + ((uri.drop start).takeWhile (fun c => c != ':' && c != '/')).length

/-- `generate_widget_hostname`: the widget's name part, a dot and the
domain. -/
def generate_widget_hostname (widget_name domain : List Char) : List Char :=
  widget_name ++ '.' :: domain

/-- `uri_replace_hostname`. -/
def uri_replace_hostname (uri hostname : List Char) : List Char :=
  if cstr_at uri 0 = '/' then "http://".toList ++ hostname ++ uri
  else
    match strchr uri ':' with
    | none => uri
    | some start =>
      if cstr_at uri (start + 1) ≠ '/' ∨ cstr_at uri (start + 1) ≠ '/' ∨
          cstr_at uri (start + 2) = '/' then uri
      else
        let start2 := start + 2
        let end_ := uri_hostname_end uri start2
        uri.take start2 ++ hostname ++ uri.drop end_

/-! ## Access log: the real remote host, `src/access_log/Glue.cxx` -/

/-- Modelled from the spec: `StringView::Strip`, which removes the white
space at both ends of the view; which characters count as white space is the
parameter `ws`. -/
def StringViewStrip (ws : Char → Bool) (s : List Char) : List Char :=
  ((s.dropWhile ws).reverse.dropWhile ws).reverse

/-- `memrchr(data, c, size)`: the offset of the last occurrence of `c`. -/
def memrchr (c : Char) : List Char → Option Nat
  | [] => none
  | x :: xs =>
    match memrchr c xs with
    | some i => some (i + 1)
    | none => if x = c then some 0 else none

/-- `StringView::IsEmpty`, true also for the null view (`none`). -/
def StringViewIsEmpty (s : Option (List Char)) : Bool :=
  match s with
  | none => true
  | some l => l.isEmpty

/-- `LastListItem`: the remaining list and the right-most item; `none` is the
null `StringView`. -/
def LastListItem (ws : Char → Bool) (list : List Char) :
    Option (List Char) × Option (List Char) :=
  match memrchr ',' list with
  | none =>
    let list1 := StringViewStrip ws list
    if list1.isEmpty then (none, none) else (some [], some list1)
  | some comma =>
    (some (list.take comma), some (StringViewStrip ws (list.drop (comma + 1))))

/-- The loop of `GetRealRemoteHost`; `none` when the fuel runs out. -/
def GetRealRemoteHost_loop (ws : Char → Bool) (trust : List (List Char)) :
    Nat → List Char → Option (List Char) → Option (Option (List Char))
  | 0, _, _ => none
  | fuel + 1, list, result =>
    let l := LastListItem ws list
    if StringViewIsEmpty l.2 then some result
    else
      let result1 := l.2
      if !trust.contains (result1.getD []) then some result1
      else GetRealRemoteHost_loop ws trust fuel (l.1.getD []) result1

/-- `GetRealRemoteHost`: `trust` is the set of trusted proxies; the inner
`none` is the null `StringView`. -/
def GetRealRemoteHost (ws : Char → Bool) (xff : List Char) (trust : List (List Char)) :
    Option (Option (List Char)) :=
  GetRealRemoteHost_loop ws trust (xff.length + 2) xff none

/-- Follows the spec's words: the comma-separated items of a value, from left
to right. -/
def comma_items : List Char → List (List Char)
  | [] => [[]]
  | c :: cs =>
    if c = ',' then [] :: comma_items cs
    else
      match comma_items cs with
      | [] => [[c]]
      | h :: t => (c :: h) :: t

/-- Follows the spec's words: the right-most stripped item that is not in the
trusted set, or the left-most item when every item is trusted. -/
def real_remote_host_spec (ws : Char → Bool) (xff : List Char) (trust : List (List Char)) :
    List Char :=
  let items := (comma_items xff).map (StringViewStrip ws)
  match items.reverse.find? (fun x => !trust.contains x) with
  | some x => x
  | none => items.headD []

/-! ## HTML parser: `src/parser.c` -/

/-- The states of the parser. -/
inductive parser_state where
  | PARSER_NONE
  | PARSER_ELEMENT_NAME
  | PARSER_ELEMENT_TAG
  | PARSER_ATTR_NAME
  | PARSER_AFTER_ATTR_NAME
  | PARSER_BEFORE_ATTR_VALUE
  | PARSER_ATTR_VALUE
  | PARSER_ATTR_VALUE_COMPAT
  | PARSER_SHORT
  | PARSER_INSIDE
  | PARSER_DECLARATION_NAME
  | PARSER_CDATA_SECTION
  deriving DecidableEq, Repr

open parser_state

/-- The type of a tag. -/
inductive parser_tag_type where
  | TAG_OPEN
  | TAG_CLOSE
  | TAG_SHORT
  deriving DecidableEq, Repr

/-- The callbacks of the parser: `parser_cdata`, `parser_element_start`,
`parser_attr_finished` and `parser_element_finished`. -/
inductive parser_event where
  | cdata (data : List Char) (escaped : Bool)
  | element_start (name : List Char)
  | attr_finished
  | element_finished (offset : Nat)
  deriving DecidableEq, Repr

/-- The `struct parser`: the buffers `tag_name`, `attr_name` and
`attr_value` hold the characters stored so far, their lengths are
`tag_name_length`, `attr_name_length` and `attr_value_length`; `trace` lists
the callbacks invoked, which leave the parser alone. -/
structure parser where
  state : parser_state
  position : Nat
  tag_offset : Nat
  tag_type : parser_tag_type
  tag_name : List Char
  attr_name : List Char
  attr_value : List Char
  attr_value_delimiter : Char
  attr_value_start : Nat
  attr_value_end : Nat
  cdend_match : Nat
  trace : List parser_event
  deriving DecidableEq, Repr

/-- The sizes of the three buffers of `struct parser` and the character
functions of `strutil.h`, which are not part of `parser.c`. -/
structure parser_env where
  tag_name_size : Nat
  attr_name_size : Nat
  attr_value_size : Nat
  char_is_alphanumeric : Char → Bool
  char_is_letter : Char → Bool
  char_is_whitespace : Char → Bool
  char_to_lower : Char → Char

/-- Invoke a callback. -/
def parser.emit (p : parser) (e : parser_event) : parser :=
  { p with trace := p.trace ++ [e] }

/-- `case PARSER_NONE`; `total` is the length of the data passed to
`parser_feed`, `buffer` the part of it from the pointer `buffer` on.  The
third component tells whether the function has returned. -/
def parser_none (total : Nat) (p : parser) (buffer : List Char) : parser × List Char × Bool :=
  let i := buffer.indexOf '<'
  if i ≥ buffer.length then (p.emit (.cdata buffer true), [], true)
  else
    let p1 := if i > 0 then p.emit (.cdata (buffer.take i) true) else p
    ({ p1 with
        tag_offset := p1.position + (total - buffer.length + i), state := PARSER_ELEMENT_NAME,
        tag_name := [], tag_type := .TAG_OPEN },
      buffer.drop (i + 1), false)

/-- The loop of `case PARSER_ELEMENT_NAME`. -/
def parser_element_name (env : parser_env) : parser → List Char → parser × List Char
  | p, [] => (p, [])
  | p, c :: cs =>
    if env.char_is_alphanumeric c ∨ c = ':' ∨ c = '-' ∨ c = '_' then
      if p.tag_name.length = env.tag_name_size then ({ p with state := PARSER_NONE }, c :: cs)
      else
        parser_element_name env { p with tag_name := p.tag_name ++ [env.char_to_lower c] } cs
    else if c = '/' ∧ p.tag_name.length = 0 then
      parser_element_name env { p with tag_type := .TAG_CLOSE } cs
    else if (env.char_is_whitespace c ∨ c = '/' ∨ c = '>') ∧ p.tag_name.length > 0 then
      ({ p.emit (.element_start p.tag_name) with state := PARSER_ELEMENT_TAG }, c :: cs)
    else if c = '!' ∧ p.tag_name.length = 0 then
      ({ p with state := PARSER_DECLARATION_NAME }, cs)
    else ({ p with state := PARSER_NONE }, c :: cs)

/-- The loop of `case PARSER_ELEMENT_TAG`; a `do ... while (buffer < end)`
loop, entered with `buffer < end`. -/
def parser_element_tag (env : parser_env) (total : Nat) : parser → List Char → parser × List Char
  | p, [] => (p, [])
  | p, c :: cs =>
    if env.char_is_whitespace c then parser_element_tag env total p cs
    else if c = '/' then ({ p with tag_type := .TAG_SHORT, state := PARSER_SHORT }, cs)
    else if c = '>' then
      (({ p with state := PARSER_INSIDE }).emit
        (.element_finished (p.position + (total - cs.length))), cs)
    else if env.char_is_letter c then
      ({ p with state := PARSER_ATTR_NAME, attr_name := [], attr_value := [] }, c :: cs)
    else ({ p with state := PARSER_NONE }, c :: cs)

/-- The loop of `case PARSER_ATTR_NAME`. -/
def parser_attr_name (env : parser_env) : parser → List Char → parser × List Char
  | p, [] => (p, [])
  | p, c :: cs =>
    if env.char_is_alphanumeric c ∨ c = ':' then
      if p.attr_name.length = env.attr_name_size then
        ({ p with state := PARSER_ELEMENT_TAG }, c :: cs)
      else parser_attr_name env { p with attr_name := p.attr_name ++ [env.char_to_lower c] } cs
    else if c = '=' ∨ env.char_is_whitespace c then
      ({ p with state := PARSER_AFTER_ATTR_NAME }, c :: cs)
    else ({ p.emit .attr_finished with state := PARSER_ELEMENT_TAG }, c :: cs)

/-- The loop of `case PARSER_AFTER_ATTR_NAME`. -/
def parser_after_attr_name (env : parser_env) : parser → List Char → parser × List Char
  | p, [] => (p, [])
  | p, c :: cs =>
    if c = '=' then ({ p with state := PARSER_BEFORE_ATTR_VALUE }, cs)
    else if env.char_is_whitespace c then parser_after_attr_name env p cs
    else ({ p.emit .attr_finished with state := PARSER_ELEMENT_TAG }, c :: cs)

/-- The loop of `case PARSER_BEFORE_ATTR_VALUE`. -/
def parser_before_attr_value (env : parser_env) (total : Nat) :
    parser → List Char → parser × List Char
  | p, [] => (p, [])
  | p, c :: cs =>
    if c = '"' ∨ c = '\'' then
      ({ p with
          state := PARSER_ATTR_VALUE, attr_value_delimiter := c,
          attr_value_start := p.position + (total - cs.length) }, cs)
    else if env.char_is_whitespace c then parser_before_attr_value env total p cs
    else
      ({ p with
          state := PARSER_ATTR_VALUE_COMPAT,
          attr_value_start := p.position + (total - (c :: cs).length) }, c :: cs)

/-- The loop of `case PARSER_ATTR_VALUE`. -/
def parser_attr_value (env : parser_env) (total : Nat) : parser → List Char → parser × List Char
  | p, [] => (p, [])
  | p, c :: cs =>
    if c = p.attr_value_delimiter then
      ({ ({ p with attr_value_end := p.position + (total - (c :: cs).length) }).emit
            .attr_finished with state := PARSER_ELEMENT_TAG }, cs)
    else if p.attr_value.length = env.attr_value_size then
      ({ p with state := PARSER_ELEMENT_TAG }, c :: cs)
    else parser_attr_value env total { p with attr_value := p.attr_value ++ [c] } cs

/-- The loop of `case PARSER_ATTR_VALUE_COMPAT`. -/
def parser_attr_value_compat (env : parser_env) (total : Nat) :
    parser → List Char → parser × List Char
  | p, [] => (p, [])
  | p, c :: cs =>
    if !env.char_is_whitespace c ∧ c ≠ '>' then
      if p.attr_value.length = env.attr_value_size then
        ({ p with state := PARSER_ELEMENT_TAG }, c :: cs)
      else parser_attr_value_compat env total { p with attr_value := p.attr_value ++ [c] } cs
    else
      ({ ({ p with attr_value_end := p.position + (total - (c :: cs).length) }).emit
            .attr_finished with state := PARSER_ELEMENT_TAG }, c :: cs)

/-- The loop of `case PARSER_SHORT`. -/
def parser_short (env : parser_env) (total : Nat) : parser → List Char → parser × List Char
  | p, [] => (p, [])
  | p, c :: cs =>
    if env.char_is_whitespace c then parser_short env total p cs
    else if c = '>' then
      (({ p with state := PARSER_NONE }).emit
        (.element_finished (p.position + (total - cs.length))), cs)
    else
      ({ p.emit (.element_finished (p.position + (total - (c :: cs).length))) with
          state := PARSER_NONE }, c :: cs)

/-- The loop of `case PARSER_DECLARATION_NAME`. -/
def parser_declaration_name (env : parser_env) : parser → List Char → parser × List Char
  | p, [] => (p, [])
  | p, c :: cs =>
    if env.char_is_alphanumeric c ∨ c = ':' ∨ c = '-' ∨ c = '_' ∨ c = '[' then
      if p.tag_name.length = env.tag_name_size then ({ p with state := PARSER_NONE }, c :: cs)
      else
        let p1 := { p with tag_name := p.tag_name ++ [env.char_to_lower c] }
        if p1.tag_name.length = 7 ∧ p1.tag_name = "[cdata[".toList then
          ({ p1 with state := PARSER_CDATA_SECTION, cdend_match := 0 }, cs)
        else parser_declaration_name env p1 cs
    else ({ p with state := PARSER_NONE }, c :: cs)

/-- The loop of `case PARSER_CDATA_SECTION` with the flush after it;
`pending` holds the bytes between the local pointer `p` and `buffer`. -/
def parser_cdata_section : parser → List Char → List Char → parser × List Char
  | p, pending, [] => (if pending ≠ [] then p.emit (.cdata pending false) else p, [])
  | p, pending, c :: cs =>
    if c = ']' ∧ p.cdend_match < 2 then
      let p1 := if pending ≠ [] then p.emit (.cdata pending false) else p
      parser_cdata_section { p1 with cdend_match := p1.cdend_match + 1 } [] cs
    else if c = '>' ∧ p.cdend_match = 2 then ({ p with state := PARSER_NONE }, cs)
    else if p.cdend_match > 0 then
      parser_cdata_section
        { p.emit (.cdata ("]]".toList.take p.cdend_match) false) with cdend_match := 0 } [c] cs
    else parser_cdata_section p (pending ++ [c]) cs

/-- One pass through the body of the outer loop of `parser_feed`: the
parser, the rest of the buffer, and whether the function has returned. -/
def parser_pass (env : parser_env) (total : Nat) (p : parser) (buffer : List Char) :
    parser × List Char × Bool :=
  match p.state with
  | PARSER_NONE => parser_none total p buffer
  | PARSER_ELEMENT_NAME =>
    ((parser_element_name env p buffer).1, (parser_element_name env p buffer).2, false)
  | PARSER_ELEMENT_TAG =>
    ((parser_element_tag env total p buffer).1, (parser_element_tag env total p buffer).2, false)
  | PARSER_ATTR_NAME =>
    ((parser_attr_name env p buffer).1, (parser_attr_name env p buffer).2, false)
  | PARSER_AFTER_ATTR_NAME =>
    ((parser_after_attr_name env p buffer).1, (parser_after_attr_name env p buffer).2, false)
  | PARSER_BEFORE_ATTR_VALUE =>
    ((parser_before_attr_value env total p buffer).1,
      (parser_before_attr_value env total p buffer).2, false)
  | PARSER_ATTR_VALUE =>
    ((parser_attr_value env total p buffer).1, (parser_attr_value env total p buffer).2, false)
  | PARSER_ATTR_VALUE_COMPAT =>
    ((parser_attr_value_compat env total p buffer).1,
      (parser_attr_value_compat env total p buffer).2, false)
  | PARSER_SHORT =>
    ((parser_short env total p buffer).1, (parser_short env total p buffer).2, false)
  | PARSER_INSIDE => ({ p with state := PARSER_NONE }, buffer, false)
  | PARSER_DECLARATION_NAME =>
    ((parser_declaration_name env p buffer).1, (parser_declaration_name env p buffer).2, false)
  | PARSER_CDATA_SECTION =>
    ((parser_cdata_section p [] buffer).1, (parser_cdata_section p [] buffer).2, false)

/-- The outer loop `while (buffer < end)` of `parser_feed`; `none` when it
does not end within the fuel.  The result is the parser and what is left of
the buffer when the function returns. -/
def parser_feed_loop (env : parser_env) (total : Nat) :
    Nat → parser → List Char → Option (parser × List Char)
  | 0, _, _ => none
  | fuel + 1, p, buffer =>
    if buffer = [] then some (p, buffer)
    else
      let r := parser_pass env total p buffer
      if r.2.2 then some (r.1, r.2.1)
      else parser_feed_loop env total fuel r.1 r.2.1

/-- `parser_feed`. -/
def parser_feed (env : parser_env) (p : parser) (data : List Char) :
    Option (parser × List Char) :=
  parser_feed_loop env data.length (4 * data.length + 4) p data

/-- The number of passes through the outer loop of `parser_feed` that may
follow without a byte being consumed. -/
def parser_rank (env : parser_env) (p : parser) (buffer : List Char) : Nat :=
  match p.state with
  | PARSER_NONE => 0
  | PARSER_CDATA_SECTION => 0
  | PARSER_ELEMENT_TAG => 1
  | PARSER_SHORT => 1
  | PARSER_INSIDE => 1
  | PARSER_DECLARATION_NAME => 1
  | PARSER_ELEMENT_NAME => 2
  | PARSER_AFTER_ATTR_NAME => 2
  | PARSER_ATTR_VALUE => 2
  | PARSER_ATTR_VALUE_COMPAT => 2
  | PARSER_BEFORE_ATTR_VALUE => 3
  | PARSER_ATTR_NAME =>
    match buffer with
    | [] => 0
    | c :: _ =>
      if (env.char_is_alphanumeric c ∨ c = ':') ∧ p.attr_name.length ≠ env.attr_name_size then 0
      else 3

/-- A parser environment for concrete runs: ASCII letters and digits, white
space up to the space character, buffers of 64, 64 and 1024 bytes. -/
def parser_ascii_env : parser_env :=
  { tag_name_size := 64, attr_name_size := 64, attr_value_size := 1024
    char_is_alphanumeric := fun c => c.isAlphanum
    char_is_letter := fun c => c.isAlpha
    char_is_whitespace := fun c => decide (0 < c.toNat) && decide (c.toNat ≤ 32)
    char_to_lower := fun c => c.toLower }

/-- A parser before any input. -/
def parser_init : parser :=
  { state := PARSER_NONE, position := 0, tag_offset := 0, tag_type := .TAG_OPEN, tag_name := [],
    attr_name := [], attr_value := [], attr_value_delimiter := '"', attr_value_start := 0,
    attr_value_end := 0, cdend_match := 0, trace := [] }

/-- Progress of one pass through the outer loop of `parser_feed` from the
parser `p` at `buffer` to `r`: a byte has been consumed, or none has and the
number of passes that may follow without one has gone down. -/
def parser_progress (env : parser_env) (p : parser) (buffer : List Char)
    (r : parser × List Char) : Prop :=
  r.2.length < buffer.length ∨
    (r.2 = buffer ∧ parser_rank env r.1 r.2 < parser_rank env p buffer)

/-! ## The hold istream: `src/istream_hold.cxx`, `src/istream_forward.hxx` -/

/-- The part of `ChildOptions` the clear interval depends on:
`options.ns.mount.pivot_root`, `none` for a null pointer. -/
structure ChildOptions where
  pivot_root : Option String
  deriving DecidableEq, Repr

/-- `LhttpStock::GetChildClearInterval`, in minutes. -/
def LhttpStock.GetChildClearInterval (options : ChildOptions) : Nat :=
  if options.pivot_root = none then 15 else 5

/-- `FcgiStock::GetChildClearInterval`, in minutes. -/
def FcgiStock.GetChildClearInterval (options : ChildOptions) : Nat :=
  if options.pivot_root = none then 10 else 5

/-! ## Local control socket: `src/control_local.cxx` -/

/-- The wrapped `control_handler`: its `raw` callback if there is one, as a
function of the sender's uid. -/
structure control_handler where
  raw : Option (Int → Bool)

/-- `control_local_raw`: `uid` is the `int` uid of the sender, negative when
unknown, `euid` the result of `geteuid()`.  The result is the return value
and the list of calls of the wrapped raw callback. -/
def control_local_raw (handler : control_handler) (euid : Nat) (uid : Int) :
    Bool × List Int :=
  if uid < 0 ∨ (uid ≠ 0 ∧ (uid % 2 ^ 32).toNat ≠ euid) then (false, [])
  else
    match handler.raw with
    | none => (true, [])
    | some raw => (raw uid, [uid])

/-! ## Relative URIs: `src/uri/uri_relative.cxx` -/

/-- `uri_relative` on `StringView`s; the inner `none` is the null view.
`uri_next` is the byte that follows the view `uri` in memory (the null
character when `uri` is a whole C string): in the special case `memcmp`
compares `base.size` bytes, one more than `uri` has.  The result is `none`
when `uri.size - 7` wraps around, which makes `memchr` search memory that does
not belong to the view. -/
def uri_relative (base uri : List Char) (uri_next : Char) : Option (Option (List Char)) :=
  if base.isEmpty || uri.isEmpty then some none
  else if uri.length ≥ base.length ∧ uri.take base.length = base then
    some (some (uri.drop base.length))
  else if uri.length = base.length - 1 ∧ (uri ++ [uri_next]).take base.length ≠ base then
    if uri.length < 7 then none
    else if !(uri.drop 7).contains '/' then some (some [])
    else some none
  else some none

/-! ## HTTP addresses: `src/http_address.cxx` -/

/-- `enum uri_scheme`. -/
inductive uri_scheme where
  | URI_SCHEME_UNIX
  | URI_SCHEME_HTTP
  | URI_SCHEME_AJP
  deriving DecidableEq, Repr

/-- `HttpAddress` without the address list; `host_and_port` is `none` for a
null pointer. -/
structure HttpAddress where
  scheme : uri_scheme
  ssl : Bool
  host_and_port : Option (List Char)
  path : List Char
  deriving DecidableEq, Repr

/-- `uri_scheme_has_host`. -/
def uri_scheme_has_host (scheme : uri_scheme) : Bool :=
  scheme != .URI_SCHEME_UNIX

/-- `http_address_new`. -/
def http_address_new (scheme : uri_scheme) (ssl : Bool) (host_and_port : Option (List Char))
    (path : List Char) : HttpAddress :=
  { scheme := scheme, ssl := ssl, host_and_port := host_and_port, path := path }

/-- `http_address_parse2`; `uri_path_verify_quick` is a parameter, `none` is
the null result. -/
def http_address_parse2 (uri_path_verify_quick : List Char → Bool) (scheme : uri_scheme)
    (ssl : Bool) (uri : List Char) : Option HttpAddress :=
  match strchr uri '/' with
  | some path =>
    if path = 0 ∨ !uri_path_verify_quick (uri.drop path) then none
    else some (http_address_new scheme ssl (some (uri.take path)) (uri.drop path))
  | none => some (http_address_new scheme ssl (some uri) ['/'])

/-- `http_address_parse`; `memcmp(uri, s, n) == 0` on a C string is the test
whether it starts with `s`. -/
def http_address_parse (uri_path_verify_quick : List Char → Bool) (uri : List Char) :
    Option HttpAddress :=
  if "http://".toList.isPrefixOf uri then
    http_address_parse2 uri_path_verify_quick .URI_SCHEME_HTTP false (uri.drop 7)
  else if "https://".toList.isPrefixOf uri then
    http_address_parse2 uri_path_verify_quick .URI_SCHEME_HTTP true (uri.drop 8)
  else if "ajp://".toList.isPrefixOf uri then
    http_address_parse2 uri_path_verify_quick .URI_SCHEME_AJP false (uri.drop 6)
  else if "unix:/".toList.isPrefixOf uri then
    some (http_address_new .URI_SCHEME_UNIX false none (uri.drop 5))
  else none

/-- The text that `uri_scheme_prefix` returns for a scheme. -/
def uri_scheme_text : uri_scheme → List Char
  | .URI_SCHEME_UNIX => "unix:".toList
  | .URI_SCHEME_HTTP => "http://".toList
  | .URI_SCHEME_AJP => "ajp://".toList

/-- `HttpAddress::GetAbsoluteURI(pool, override_path)`. -/
def HttpAddress.GetAbsoluteURI_with (a : HttpAddress) (override_path : List Char) : List Char :=
  uri_scheme_text a.scheme ++ a.host_and_port.getD [] ++ override_path

/-- `HttpAddress::GetAbsoluteURI(pool)`. -/
def HttpAddress.GetAbsoluteURI (a : HttpAddress) : List Char :=
  a.GetAbsoluteURI_with a.path

/-! ## Local HTTP and CGI addresses: `src/http/local/Address.cxx`,
`src/cgi/Address.cxx` -/

/-- The URI functions that the addresses call and whose code is elsewhere. -/
structure uri_env where
  UriHasAuthority : List Char → Bool
  uri_absolute : List Char → List Char → List Char
  UriUnescape : List Char → Option (List Char)

/-- The fields of `LhttpAddress` that `RelativeTo` and `RelativeToApplied`
read. -/
structure LhttpAddress where
  path : List Char
  uri : List Char
  deriving DecidableEq, Repr

/-- `ApplyUri` of `src/http/local/Address.cxx`; `none` is a null pointer. -/
def ApplyUri (env : uri_env) (base_uri relative : List Char) : Option (List Char) :=
  if relative.isEmpty then some base_uri
  else if env.UriHasAuthority relative then none
  else some (env.uri_absolute base_uri relative)

/-- `LhttpAddress::IsSameProgram`. -/
def LhttpAddress.IsSameProgram (a other : LhttpAddress) : Bool :=
  a.path == other.path

/-- `LhttpAddress::RelativeTo`; the inner `none` is the null view. -/
def LhttpAddress.RelativeTo (a base : LhttpAddress) (uri_next : Char) :
    Option (Option (List Char)) :=
  if !a.IsSameProgram base then some none
  else uri_relative base.uri a.uri uri_next

/-- `LhttpAddress::RelativeToApplied`; the inner `none` is the null view. -/
def LhttpAddress.RelativeToApplied (env : uri_env) (a apply_base : LhttpAddress)
    (relative : List Char) : Option (Option (List Char)) :=
  if !a.IsSameProgram apply_base then some none
  else
    match ApplyUri env apply_base.uri relative with
    | none => some none
    | some new_uri => some (some new_uri)

/-- Follows the spec's words: the applied URI expressed relative to the URI
of the address. -/
def LhttpAddress.RelativeToApplied_spec (env : uri_env) (a apply_base : LhttpAddress)
    (relative : List Char) (uri_next : Char) : Option (Option (List Char)) :=
  if !a.IsSameProgram apply_base then some none
  else
    match ApplyUri env apply_base.uri relative with
    | none => some none
    | some new_uri => uri_relative a.uri new_uri uri_next

/-- The fields of `CgiAddress` that `RelativeToApplied` reads. -/
structure CgiAddress where
  path : List Char
  path_info : Option (List Char)
  deriving DecidableEq, Repr

/-- `UnescapeApplyPathInfo`. -/
def UnescapeApplyPathInfo (env : uri_env) (base_path_info : Option (List Char))
    (relative_escaped : List Char) : Option (List Char) :=
  let base := base_path_info.getD []
  if relative_escaped.isEmpty then some base
  else if env.UriHasAuthority relative_escaped then none
  else
    match env.UriUnescape relative_escaped with
    | none => none
    | some unescaped => some (env.uri_absolute base unescaped)

/-- `CgiAddress::RelativeToApplied`; whether two addresses are the same
program is a parameter. -/
def CgiAddress.RelativeToApplied (env : uri_env) (same_program : Bool) (a apply_base : CgiAddress)
    (relative : List Char) (uri_next : Char) : Option (Option (List Char)) :=
  if !same_program then some none
  else
    match a.path_info with
    | none => some none
    | some path_info =>
      match UnescapeApplyPathInfo env apply_base.path_info relative with
      | none => some none
      | some new_path_info => uri_relative path_info new_path_info uri_next

/-- A `uri_env` for concrete runs: no URI has an authority, a relative URI is
appended to the base, nothing is escaped. -/
def uri_append_env : uri_env :=
  { UriHasAuthority := fun _ => false
    uri_absolute := fun base relative => base ++ relative
    UriUnescape := fun s => some s }

/-! ## Child options: `src/spawn/ChildOptions.cxx` -/

/-- `ChildOptions` of `src/spawn`.  The members `rlimits`, `refence`, `ns`
and `jail`, whose classes are elsewhere, are represented by the text that
their `MakeId` writes; copying them keeps it.  `env` is the
`ExpandableStringList`. -/
structure spawn.ChildOptions where
  stderr_path : Option String
  expand_stderr_path : Option String
  env : List String
  rlimits : String
  refence : String
  ns : String
  jail : String
  deriving DecidableEq, Repr

/-- A default-constructed `ChildOptions`: null pointers, an empty list
(`ExpandableStringList() = default` with `head = nullptr`), members that write
nothing to the id. -/
def spawn.ChildOptions.fresh : spawn.ChildOptions :=
  { stderr_path := none, expand_stderr_path := none, env := [], rlimits := "", refence := "",
    ns := "", jail := "" }

/-- The constructor `ChildOptions::ChildOptions(pool, src)`: the members
named in its initializer list are copied, `env` is not among them and is
default-constructed. -/
def spawn.ChildOptions.copy (src : spawn.ChildOptions) : spawn.ChildOptions :=
  { stderr_path := src.stderr_path, expand_stderr_path := src.expand_stderr_path,
    env := [], rlimits := src.rlimits, refence := src.refence, ns := src.ns, jail := src.jail }

/-- `ChildOptions::CopyFrom`. -/
def spawn.ChildOptions.CopyFrom (_self src : spawn.ChildOptions) : spawn.ChildOptions :=
  { stderr_path := src.stderr_path, expand_stderr_path := src.expand_stderr_path,
    env := src.env, rlimits := src.rlimits, refence := src.refence, ns := src.ns,
    jail := src.jail }

/-- `sprintf("%08x", n)` for an `unsigned`. -/
def format_hex8 (n : Nat) : String :=
  let digits := Nat.toDigits 16 (n % 2 ^ 32)
  String.mk (List.replicate (8 - digits.length) '0' ++ digits)

/-- `ChildOptions::MakeId`: the text written; `djb_hash_string` is a
parameter. -/
def spawn.ChildOptions.MakeId (djb_hash_string : String → Nat) (o : spawn.ChildOptions) :
    String :=
  (match o.stderr_path with
    | some p => ";e" ++ format_hex8 (djb_hash_string p)
    | none => "") ++
  o.env.foldl (fun acc i => acc ++ "$" ++ i) "" ++
  o.rlimits ++ o.refence ++ o.ns ++ o.jail

/-! ## Namespace options: `src/namespace_options.cxx` -/

/-- `struct namespace_options` without the mount list, which
`namespace_options_id` does not read. -/
structure namespace_options where
  enable_user : Bool
  enable_pid : Bool
  enable_network : Bool
  enable_mount : Bool
  mount_proc : Bool
  mount_tmp_tmpfs : Bool
  pivot_root : Option String
  home : Option String
  mount_home : Option String
  hostname : Option String
  deriving DecidableEq, Repr

/-- `namespace_options_init`. -/
def namespace_options_init : namespace_options :=
  { enable_user := false, enable_pid := false, enable_network := false, enable_mount := false,
    mount_proc := false, mount_tmp_tmpfs := false, pivot_root := none, home := none,
    mount_home := none, hostname := none }

/-- `namespace_options_id`: the text written to the buffer.  A null `home`
together with a non-null `mount_home` is taken as the empty string. -/
def namespace_options_id (options : namespace_options) : String :=
  (if options.enable_user then ";uns" else "") ++
  (if options.enable_pid then ";pns" else "") ++
  (if options.enable_network then ";nns" else "") ++
  (if options.enable_mount then
    ";mns" ++
    (match options.pivot_root with
      | some pivot_root => ";pvr=" ++ pivot_root
      | none => "") ++
    (if options.mount_proc then ";proc" else "") ++
    (if options.mount_proc then ";tmpfs" else "") ++
    (match options.mount_home with
      | some mount_home => ";h:" ++ options.home.getD "" ++ "=" ++ mount_home
      | none => "")
   else "") ++
  (match options.hostname with
    | some hostname => ";uts=" ++ hostname
    | none => "")

/-! ## Resource loader: `src/resource-loader.c` -/

/-- Modelled from the spec: `strmap_get_checked`, the value of a key in a
header map that may be null. -/
def strmap_get_checked (headers : Option strmap) (key : String) : Option String :=
  match headers with
  | none => none
  | some m => m.lookup key

/-- `strrchr(s, c)` for a character other than the null character: the offset
of its last occurrence. -/
def strrchr (s : List Char) (c : Char) : Option Nat := memrchr c s

/-- `extract_remote_addr`. -/
def extract_remote_addr (headers : Option strmap) : List Char :=
  match strmap_get_checked headers "x-forwarded-for" with
  | none => []
  | some xff =>
    let p := (strrchr xff.toList ',').getD 0
    (xff.toList.drop p).dropWhile (fun c => c == ' ')

/-- `extract_remote_host`. -/
def extract_remote_host (headers : Option strmap) : List Char :=
  let remote_addr := extract_remote_addr headers
  match strchr remote_addr ':' with
  | some colon =>
    if (strchr (remote_addr.drop (colon + 1)) ':').isNone then remote_addr.take colon
    else remote_addr
  | none => remote_addr

/-! # Theorems -/

/-! ## Session ids -/

/-- Without wrap-around `ToClusterNode` yields a word in the residue class of
the node: when `id - id % size + node` fits into 32 bits, the result modulo
`size` is `node`. -/
theorem ToClusterNode_mod_of_no_wrap (id size node : Nat) (hsize : 0 < size)
    (hs32 : size < 2 ^ 32) (hnode : node < size)
    (hfit : id - id % size + node < 2 ^ 32) :
    ToClusterNode id size node % size = node := by
  have hle : id % size ≤ id := Nat.mod_le _ _
  have h1 : (id + 2 ^ 32 - id % size) % 2 ^ 32 = id - id % size := by
    have : id + 2 ^ 32 - id % size = (id - id % size) + 2 ^ 32 := by omega
    rw [this, Nat.add_mod_right]
    exact Nat.mod_eq_of_lt (by omega)
  have hdvd : size ∣ id - id % size := Nat.dvd_sub_mod id
  obtain ⟨k, hk⟩ := hdvd
  simp only [ToClusterNode, Nat.mod_eq_of_lt hs32, h1, Nat.mod_eq_of_lt hfit]
  rw [hk, Nat.mul_add_mod, Nat.mod_eq_of_lt hnode]

/-- C1: for the id whose last word is `0xFFFFFFFF`, `SetClusterNode(7, 6)`
computes `0xFFFFFFFC + 6`, which wraps around to `2`; the cluster hash modulo
the cluster size is then `2`, not the requested node `6`. -/
theorem SetClusterNode_wraps_around :
    let id : SessionId := { front := [0, 0, 0], back := 0xFFFFFFFF }
    (0 : Nat) < 7 ∧ (6 : Nat) < 7 ∧
    (id.SetClusterNode 7 6).GetClusterHash = 2 ∧
    (id.SetClusterNode 7 6).GetClusterHash % 7 ≠ 6 := by
  decide

/-! ## String substitution -/

/-- C2, as the specification states it: the output is not `"fo Y X"`. -/
theorem subst_foo_foobar_not_fo_Y_X :
    subst_run [(cstr "foo", some (cstr "X")), (cstr "foobar", some (cstr "Y"))]
        [cstr "fo foobar foo"] ≠
      some { bytes := cstr "fo Y X", eof := 1, aborted := 0 } := by
  decide

/-- C2, amended: with the keywords `"foo" -> "X"` and `"foobar" -> "Y"`
registered in this order, the input `"fo foobar foo"` fed as one chunk and then
end-of-file makes the stream emit `"fo Xbar X"` and then one end-of-file: the
keyword `"foo"` is replaced as soon as it has been read. -/
theorem subst_foo_foobar_output :
    subst_run [(cstr "foo", some (cstr "X")), (cstr "foobar", some (cstr "Y"))]
        [cstr "fo foobar foo"] =
      some { bytes := cstr "fo Xbar X", eof := 1, aborted := 0 } := by
  decide

/-- C3: with the keyword `"abc" -> "Z"`, the input `"abc"` fed as one chunk
yields `"Z"`, but fed as the chunks `"a"`, `"b"`, `"c"` it yields `"bZ"`: the
chunk `"b"`, which lies inside the match, is passed to the handler by the
code after the loop of `subst_source_data`. -/
theorem subst_chunking_changes_output :
    subst_run [(cstr "abc", some (cstr "Z"))] [cstr "abc"] =
        some { bytes := cstr "Z", eof := 1, aborted := 0 } ∧
    subst_run [(cstr "abc", some (cstr "Z"))] [cstr "a", cstr "b", cstr "c"] =
        some { bytes := cstr "bZ", eof := 1, aborted := 0 } ∧
    subst_run [(cstr "abc", some (cstr "Z"))] [cstr "a", cstr "b", cstr "c"] ≠
      subst_run [(cstr "abc", some (cstr "Z"))] [cstr "abc"] := by
  decide

/-! ## AJPv13 client, response side -/

@[simp] theorem AjpClient.emit_trace (c : AjpClient) (e : ajp_event) :
    (c.emit e).trace = c.trace ++ [e] := rfl

theorem AjpClient.quiet_step_refl (c : AjpClient) : c.quiet_step c :=
  ⟨[], by simp, by simp⟩

theorem AjpClient.quiet_step_trans {a b c : AjpClient} (h1 : a.quiet_step b)
    (h2 : b.quiet_step c) : a.quiet_step c := by
  obtain ⟨e1, h1, q1⟩ := h1
  obtain ⟨e2, h2, q2⟩ := h2
  refine ⟨e1 ++ e2, by rw [h2, h1, List.append_assoc], ?_⟩
  intro e he
  rcases List.mem_append.mp he with h | h
  · exact q1 e h
  · exact q2 e h

theorem AjpClient.quiet_step_of_trace_eq {a b : AjpClient} (h : b.trace = a.trace) :
    a.quiet_step b := ⟨[], by simp [h], by simp⟩

theorem AjpClient.quiet_step_emit (c : AjpClient) (e : ajp_event) (h : e.quiet = true) :
    c.quiet_step (c.emit e) := ⟨[e], rfl, by simpa using h⟩

theorem AjpClient.check_quiet (c : AjpClient) (ok : Bool) (place : String) :
    c.quiet_step (c.check ok place) := by
  unfold AjpClient.check
  split
  · exact quiet_step_refl c
  · exact quiet_step_emit c _ rfl

theorem AjpClient.check_fields (c : AjpClient) (ok : Bool) (place : String) :
    (c.check ok place).read_state = c.read_state ∧ (c.check ok place).status = c.status ∧
    (c.check ok place).headers = c.headers ∧ (c.check ok place).remaining = c.remaining ∧
    (c.check ok place).chunk_length = c.chunk_length ∧
    (c.check ok place).junk_length = c.junk_length ∧
    (c.check ok place).socket_valid = c.socket_valid ∧
    (c.check ok place).socket_connected = c.socket_connected := by
  unfold AjpClient.check
  split <;> simp [AjpClient.emit]

theorem AjpClient.Release_spec (c : AjpClient) (reuse : Bool) :
    c.quiet_step (c.Release reuse) ∧ (c.Release reuse).read_state = c.read_state ∧
    (c.Release reuse).status = c.status ∧ (c.Release reuse).headers = c.headers ∧
    (c.Release reuse).socket_valid = false := by
  unfold AjpClient.Release AjpClient.ReleaseSocket
  have h1 := c.check_quiet (c.socket_valid && c.read_state == READ_END) "Release"
  have f1 := c.check_fields (c.socket_valid && c.read_state == READ_END) "Release"
  generalize c.check (c.socket_valid && c.read_state == READ_END) "Release" = c1 at *
  simp only []
  split
  · have h2 := c1.check_quiet (c1.socket_connected &&
      (c1.read_state == READ_BODY || c1.read_state == READ_END)) "ReleaseSocket"
    have f2 := c1.check_fields (c1.socket_connected &&
      (c1.read_state == READ_BODY || c1.read_state == READ_END)) "ReleaseSocket"
    generalize c1.check (c1.socket_connected &&
      (c1.read_state == READ_BODY || c1.read_state == READ_END)) "ReleaseSocket" = c2 at *
    refine ⟨?_, ?_⟩
    · refine quiet_step_trans h1 (quiet_step_trans h2 ?_)
      exact ⟨[.lease_release reuse], rfl, by simp [ajp_event.quiet]⟩
    · simp [AjpClient.emit, f1, f2]
  · exact ⟨h1, by simp [f1]⟩


/-- The result of an abort: the client is gone, only quiet events happened. -/
theorem AjpClient.AbortResponseHeaders_spec (c : AjpClient) (msg : String) :
    c.quiet_step (c.AbortResponseHeaders msg) ∧
    (c.AbortResponseHeaders msg).read_state = READ_END ∧
    (c.AbortResponseHeaders msg).status = c.status ∧
    (c.AbortResponseHeaders msg).headers = c.headers := by
  unfold AjpClient.AbortResponseHeaders
  have h1 := c.check_quiet (c.read_state == READ_BEGIN || c.read_state == READ_NO_BODY)
    "AbortResponseHeaders"
  have f1 := c.check_fields (c.read_state == READ_BEGIN || c.read_state == READ_NO_BODY)
    "AbortResponseHeaders"
  generalize c.check (c.read_state == READ_BEGIN || c.read_state == READ_NO_BODY)
    "AbortResponseHeaders" = c1 at *
  simp only []
  have r := (({ c1 with read_state := READ_END }).emit (.handler_abort msg)).Release_spec false
  refine ⟨?_, ?_, ?_, ?_⟩
  · refine quiet_step_trans h1 (quiet_step_trans ?_ r.1)
    exact ⟨[.handler_abort msg], rfl, by simp [ajp_event.quiet]⟩
  · rw [r.2.1]; rfl
  · rw [r.2.2.1]; exact f1.2.1
  · rw [r.2.2.2.1]; exact f1.2.2.1

theorem AjpClient.AbortResponseBody_spec (c : AjpClient) (msg : String) :
    c.quiet_step (c.AbortResponseBody msg) ∧
    (c.AbortResponseBody msg).read_state = READ_END ∧
    (c.AbortResponseBody msg).status = c.status ∧
    (c.AbortResponseBody msg).headers = c.headers := by
  unfold AjpClient.AbortResponseBody
  have h1 := c.check_quiet (c.read_state == READ_BODY) "AbortResponseBody"
  have f1 := c.check_fields (c.read_state == READ_BODY) "AbortResponseBody"
  generalize c.check (c.read_state == READ_BODY) "AbortResponseBody" = c1 at *
  simp only []
  have r := (({ c1 with read_state := READ_END }).emit (.body_abort msg)).Release_spec false
  refine ⟨?_, ?_, ?_, ?_⟩
  · refine quiet_step_trans h1 (quiet_step_trans ?_ r.1)
    exact ⟨[.body_abort msg], rfl, by simp [ajp_event.quiet]⟩
  · rw [r.2.1]; rfl
  · rw [r.2.2.1]; exact f1.2.1
  · rw [r.2.2.2.1]; exact f1.2.2.1

theorem AjpClient.AbortResponse_spec (c : AjpClient) (msg : String) :
    c.quiet_step (c.AbortResponse msg) ∧
    (c.AbortResponse msg).read_state = READ_END ∧
    (c.AbortResponse msg).status = c.status ∧
    (c.AbortResponse msg).headers = c.headers := by
  unfold AjpClient.AbortResponse
  split
  · exact c.AbortResponseHeaders_spec msg
  · exact c.AbortResponseHeaders_spec msg
  · exact c.AbortResponseBody_spec msg
  · rename_i h
    exact ⟨quiet_step_emit c _ rfl, h, rfl, rfl⟩

theorem AjpClient.istream_ajp_close_spec (c : AjpClient) :
    c.quiet_step c.istream_ajp_close ∧ c.istream_ajp_close.read_state = READ_END := by
  unfold AjpClient.istream_ajp_close
  have h1 := c.check_quiet (c.read_state == READ_BODY) "istream_ajp_close"
  generalize c.check (c.read_state == READ_BODY) "istream_ajp_close" = c1 at *
  simp only []
  have r := ({ c1 with read_state := READ_END }).Release_spec false
  exact ⟨quiet_step_trans h1 (quiet_step_trans (quiet_step_of_trace_eq rfl) r.1), by rw [r.2.1]⟩
/-- A pass through the loop of `Feed` that does not return consumes input. -/
theorem AjpClient.FeedPacket_next {σ : Type} (env : ajp_env) (h : ajp_handler σ)
    (l l1 : ajp_feed_locals σ) (hn : AjpClient.FeedPacket env h l = .next l1) :
    l1.data.length < l.data.length := by
  unfold AjpClient.FeedPacket at hn
  simp only [] at hn
  split_ifs at hn <;>
    (injection hn with hn; subst hn; simp only [List.length_drop]; omega)

theorem AjpClient.FeedJunk_next {σ : Type} (env : ajp_env) (h : ajp_handler σ)
    (l l1 : ajp_feed_locals σ) (hn : AjpClient.FeedJunk env h l = .next l1) :
    l1.data.length < l.data.length := by
  unfold AjpClient.FeedJunk at hn
  simp only [] at hn
  split_ifs at hn
  · have := AjpClient.FeedPacket_next env h _ _ hn
    simp only [List.length_drop] at this
    omega
  · exact AjpClient.FeedPacket_next env h _ _ hn

theorem AjpClient.FeedBody_next {σ : Type} (env : ajp_env) (h : ajp_handler σ)
    (l l1 : ajp_feed_locals σ) (hn : AjpClient.FeedBody env h l = .next l1) :
    l1.data.length < l.data.length := by
  unfold AjpClient.FeedBody at hn
  simp only [] at hn
  split_ifs at hn
  · have := AjpClient.FeedJunk_next env h _ _ hn
    simp only [List.length_drop] at this
    omega
  · exact AjpClient.FeedJunk_next env h _ _ hn
  · exact AjpClient.FeedPacket_next env h _ _ hn

@[simp] theorem ajp_feed_step.holds_next {σ : Type} (P R : ajp_feed_locals σ → Prop)
    (l : ajp_feed_locals σ) : (ajp_feed_step.next l).holds P R = P l := rfl

@[simp] theorem ajp_feed_step.holds_ret {σ : Type} (P R : ajp_feed_locals σ → Prop)
    (res : BufferedResult) (l : ajp_feed_locals σ) :
    (ajp_feed_step.ret res l).holds P R = R l := rfl

/-- The loop of `Feed` ends: with more fuel than input bytes it returns, and
what holds at every entry of the loop body holds for its result. -/
theorem AjpClient.FeedLoop_total {σ : Type} (env : ajp_env) (h : ajp_handler σ)
    (P R : ajp_feed_locals σ → Prop)
    (hstep : ∀ l : ajp_feed_locals σ, P l → (AjpClient.FeedBody env h l).holds P R)
    (hPR : ∀ l, P l → R l) :
    ∀ (fuel : Nat) (l : ajp_feed_locals σ), l.data.length < fuel → P l →
      ∃ r, AjpClient.FeedLoop env h fuel l = some r ∧ R r.2 := by
  intro fuel
  induction fuel with
  | zero => intro l hl; omega
  | succ n ih =>
    intro l hl hP
    have hs := hstep l hP
    have hn := AjpClient.FeedBody_next env h l
    unfold AjpClient.FeedLoop
    split
    · rename_i res l1 heq
      rw [heq] at hs
      exact ⟨_, rfl, hs⟩
    · rename_i l1 heq
      rw [heq] at hs
      have hlt := hn l1 heq
      split
      · exact ih l1 (by omega) hs
      · exact ⟨_, rfl, hPR _ hs⟩

/-! ## AJPv13 client: responses without body -/

theorem ajp_quiet_not_body_data {e : ajp_event} (h : e.quiet = true) :
    e.is_body_data = false := by
  cases e <;> simp_all [ajp_event.quiet, ajp_event.is_body_data]

theorem ajp_quiet_not_response {e : ajp_event} (h : e.quiet = true) :
    e.is_response = false := by
  cases e <;> simp_all [ajp_event.quiet, ajp_event.is_response]

theorem AjpClient.quiet_step_body_data {c c' : AjpClient} (h : c.quiet_step c')
    (hc : ∀ e ∈ c.trace, e.is_body_data = false) : ∀ e ∈ c'.trace, e.is_body_data = false := by
  obtain ⟨evs, ht, hq⟩ := h
  intro e he
  rw [ht] at he
  rcases List.mem_append.mp he with h | h
  · exact hc e h
  · exact ajp_quiet_not_body_data (hq e h)

theorem AjpClient.quiet_step_responses {c c' : AjpClient} (h : c.quiet_step c') :
    ajp_responses c'.trace = ajp_responses c.trace := by
  obtain ⟨evs, ht, hq⟩ := h
  rw [ht]
  unfold ajp_responses
  rw [List.filter_append]
  have : evs.filter ajp_event.is_response = [] := by
    rw [List.filter_eq_nil_iff]
    intro e he
    simp [ajp_quiet_not_response (hq e he)]
  rw [this, List.append_nil]

theorem AjpClient.head_done_of_abort {status : Nat} {headers : Option strmap}
    {c c' : AjpClient} (hw : c.head_waiting status headers) (hq : c.quiet_step c')
    (he : c'.read_state = READ_END) : c'.head_done status headers :=
  ⟨he, quiet_step_body_data hq hw.2.2.2.2.1, Or.inl (by rw [quiet_step_responses hq]; exact hw.2.2.2.2.2)⟩

theorem AjpClient.head_waiting_of_quiet {status : Nat} {headers : Option strmap}
    {c c' : AjpClient} (hw : c.head_waiting status headers) (hq : c.quiet_step c')
    (h1 : c'.read_state = c.read_state) (h2 : c'.chunk_length = 0)
    (h3 : c'.status = c.status) (h4 : c'.headers = c.headers) :
    c'.head_waiting status headers :=
  ⟨h1.trans hw.1, h2, h3.trans hw.2.2.1, h4.trans hw.2.2.2.1,
    quiet_step_body_data hq hw.2.2.2.2.1, by rw [quiet_step_responses hq]; exact hw.2.2.2.2.2⟩

theorem AjpClient.head_abort {status : Nat} {headers : Option strmap} {c c' : AjpClient}
    (hw : c.head_waiting status headers) (ht : c'.trace = c.trace) (msg : String) :
    (c'.AbortResponse msg).head_done status headers :=
  head_done_of_abort hw (quiet_step_trans (quiet_step_of_trace_eq ht)
    (c'.AbortResponse_spec msg).1) (c'.AbortResponse_spec msg).2.1

theorem AjpClient.head_abort_responses {status : Nat} {headers : Option strmap}
    {c c' : AjpClient} (hw : c.head_waiting status headers) (ht : c'.trace = c.trace)
    (msg : String) : ajp_responses (c'.AbortResponse msg).trace = [] := by
  rw [quiet_step_responses (c'.AbortResponse_spec msg).1, ht]
  exact hw.2.2.2.2.2

/-- `ConsumePacket` while waiting for the end of a response without body: the
client goes on waiting or is gone, and only an `END_RESPONSE` packet makes it
call the response callback. -/
theorem AjpClient.ConsumePacket_head {σ : Type} (env : ajp_env) (h : ajp_handler σ)
    (status : Nat) (headers : Option strmap) (c : AjpClient) (hs : σ) (code : Nat)
    (data : List Nat) (se : Bool) (hw : c.head_waiting status headers) :
    ((c.ConsumePacket env h hs code data se).1 = true →
      (c.ConsumePacket env h hs code data se).2.1.head_waiting status headers) ∧
    (c.ConsumePacket env h hs code data se).2.1.head_any status headers ∧
    (code ≠ AJP_CODE_END_RESPONSE →
      ajp_responses (c.ConsumePacket env h hs code data se).2.1.trace = []) := by
  obtain ⟨h1, h2, h3, h4, h5, h6⟩ := hw
  have hw : c.head_waiting status headers := ⟨h1, h2, h3, h4, h5, h6⟩
  have hnb : c.read_state ≠ READ_BODY := by rw [h1]; decide
  have hnbeg : c.read_state ≠ READ_BEGIN := by rw [h1]; decide
  unfold AjpClient.ConsumePacket
  split_ifs
  · exact ⟨by simp, Or.inr (head_abort hw rfl _), fun _ => head_abort_responses hw rfl _⟩
  · have hq := quiet_step_emit c (.assertion "ConsumePacket") rfl
    have hw2 := head_waiting_of_quiet hw hq rfl h2 rfl rfl
    exact ⟨by simp, Or.inl hw2, fun _ => hw2.2.2.2.2.2⟩
  · unfold AjpClient.ConsumeSendHeaders
    rw [if_pos hnbeg]
    have r := c.AbortResponseBody_spec "unexpected SEND_HEADERS packet from AJP server"
    exact ⟨by simp, Or.inr (head_done_of_abort hw r.1 r.2.1),
      fun _ => by rw [quiet_step_responses r.1]; exact h6⟩
  · have r := ({ c with read_state := READ_END }).Release_spec se
    refine ⟨by simp, Or.inr ⟨?_, ?_, Or.inr ?_⟩, fun hne => absurd ‹_› hne⟩
    · show (({ c with read_state := READ_END }).Release se).read_state = READ_END
      rw [r.2.1]
    · intro e he
      simp only [AjpClient.emit_trace, List.mem_append, List.mem_singleton] at he
      rcases he with he | he
      · exact quiet_step_body_data r.1 h5 e he
      · subst he; rfl
    · simp only [AjpClient.emit_trace]
      unfold ajp_responses
      rw [List.filter_append]
      have := quiet_step_responses r.1
      unfold ajp_responses at this h6
      rw [this]
      simp only [h6, List.nil_append]
      rw [r.2.2.1, r.2.2.2.1]
      simp [ajp_event.is_response, h3, h4]
  · exact ⟨by simp, Or.inr (head_abort hw rfl _), fun _ => head_abort_responses hw rfl _⟩
  · exact ⟨fun _ => hw, Or.inl hw, fun _ => h6⟩
  · have hq := quiet_step_emit c (.body_request (FromBE16 (data.getD 0 0) (data.getD 1 0))) rfl
    have hw2 := head_waiting_of_quiet hw hq rfl h2 rfl rfl
    exact ⟨fun _ => hw2, Or.inl hw2, fun _ => hw2.2.2.2.2.2⟩
  · exact ⟨by simp, Or.inr (head_abort hw rfl _), fun _ => head_abort_responses hw rfl _⟩

theorem ajp_getD_mem (data : List Nat) (i : Nat) (hi : i < data.length) :
    data.getD i 0 ∈ data := by
  rw [List.getD_eq_getElem _ _ hi]
  exact List.getElem_mem _

theorem AjpClient.FeedPacket_head {σ : Type} (env : ajp_env) (h : ajp_handler σ)
    (status : Nat) (headers : Option strmap) (Q : Prop) (l : ajp_feed_locals σ)
    (hw : l.client.head_waiting status headers) (hq : Q → AJP_CODE_END_RESPONSE ∉ l.data) :
    (AjpClient.FeedPacket env h l).holds
      (fun l1 => l1.client.head_waiting status headers ∧ (Q → AJP_CODE_END_RESPONSE ∉ l1.data))
      (fun l1 => l1.client.head_any status headers ∧
        (Q → ajp_responses l1.client.trace = [])) := by
  have r := AjpClient.ConsumePacket_head env h status headers l.client l.hs (l.data.getD 4 0)
    ((l.data.drop 5).take (FromBE16 (l.data.getD 2 0) (l.data.getD 3 0) - 1))
    (l.data.length == 4 + FromBE16 (l.data.getD 2 0) (l.data.getD 3 0)) hw
  have ab : ∀ (c' : AjpClient) (msg : String), c'.trace = l.client.trace →
      (c'.AbortResponse msg).head_any status headers ∧
        (Q → ajp_responses (c'.AbortResponse msg).trace = []) :=
    fun c' msg ht => ⟨Or.inr (head_abort hw ht msg), fun _ => head_abort_responses hw ht msg⟩
  have hdrop : ∀ n, Q → AJP_CODE_END_RESPONSE ∉ l.data.drop n :=
    fun n q hm => hq q (List.mem_of_mem_drop hm)
  have hw0 : l.client.head_any status headers ∧ (Q → ajp_responses l.client.trace = []) :=
    ⟨Or.inl hw, fun _ => hw.2.2.2.2.2⟩
  unfold AjpClient.FeedPacket
  simp only []
  split_ifs with g1
  all_goals simp only [ajp_feed_step.holds_next, ajp_feed_step.holds_ret]
  all_goals first
    | exact hw0
    | exact ab _ _ rfl
    | exact ⟨head_waiting_of_quiet hw (quiet_step_of_trace_eq rfl) rfl rfl rfl rfl, hdrop _⟩
    | exact absurd hw.1 ‹_›
    | skip
  · refine ⟨r.2.1, fun q => r.2.2 ?_⟩
    intro h5
    exact hq q (h5 ▸ ajp_getD_mem l.data 4 (by omega))
  · refine ⟨r.1 ?_, hdrop _⟩
    rename_i hh
    simpa using hh

theorem AjpClient.FeedJunk_head {σ : Type} (env : ajp_env) (h : ajp_handler σ)
    (status : Nat) (headers : Option strmap) (Q : Prop) (l : ajp_feed_locals σ)
    (hw : l.client.head_waiting status headers) (hq : Q → AJP_CODE_END_RESPONSE ∉ l.data) :
    (AjpClient.FeedJunk env h l).holds
      (fun l1 => l1.client.head_waiting status headers ∧ (Q → AJP_CODE_END_RESPONSE ∉ l1.data))
      (fun l1 => l1.client.head_any status headers ∧
        (Q → ajp_responses l1.client.trace = [])) := by
  unfold AjpClient.FeedJunk
  simp only []
  have hw1 : (l.client.ConsumeBodyJunk l.data.length).2.head_waiting status headers :=
    head_waiting_of_quiet hw (quiet_step_of_trace_eq rfl) rfl hw.2.1 rfl rfl
  split_ifs
  · exact ⟨Or.inl hw1, fun _ => hw1.2.2.2.2.2⟩
  · exact AjpClient.FeedPacket_head env h status headers Q _ hw1
      (fun q hm => hq q (List.mem_of_mem_drop hm))
  · exact AjpClient.FeedPacket_head env h status headers Q _ hw hq

theorem AjpClient.FeedBody_head {σ : Type} (env : ajp_env) (h : ajp_handler σ)
    (status : Nat) (headers : Option strmap) (Q : Prop) (l : ajp_feed_locals σ)
    (hw : l.client.head_waiting status headers ∧ (Q → AJP_CODE_END_RESPONSE ∉ l.data)) :
    (AjpClient.FeedBody env h l).holds
      (fun l1 => l1.client.head_waiting status headers ∧ (Q → AJP_CODE_END_RESPONSE ∉ l1.data))
      (fun l1 => l1.client.head_any status headers ∧
        (Q → ajp_responses l1.client.trace = [])) := by
  unfold AjpClient.FeedBody
  simp only []
  have h0 : ¬ l.client.chunk_length > 0 := by rw [hw.1.2.1]; omega
  rw [if_pos (Or.inr hw.1.1), if_neg h0]
  exact AjpClient.FeedJunk_head env h status headers Q l hw.1 hw.2

/-- `Feed` while waiting for the end of a response without body returns; the
client goes on waiting or is gone, no body data is passed on, and without a
byte `END_RESPONSE` in the input the response callback is not called. -/
theorem AjpClient.Feed_head {σ : Type} (env : ajp_env) (h : ajp_handler σ)
    (status : Nat) (headers : Option strmap) (c : AjpClient) (hs : σ) (data : List Nat)
    (hw : c.head_waiting status headers) :
    ∃ r, AjpClient.Feed env h c hs data = some r ∧ r.2.client.head_any status headers ∧
      (AJP_CODE_END_RESPONSE ∉ data → ajp_responses r.2.client.trace = []) := by
  unfold AjpClient.Feed
  exact AjpClient.FeedLoop_total env h _ _
    (fun l hl => AjpClient.FeedBody_head env h status headers
      (AJP_CODE_END_RESPONSE ∉ data) l hl)
    (fun l hl => ⟨Or.inl hl.1, fun _ => hl.1.2.2.2.2.2⟩) _ _ (Nat.lt_succ_self _)
    ⟨head_waiting_of_quiet hw (c.check_quiet _ _) (c.check_fields _ _).1
      ((c.check_fields _ _).2.2.2.2.1.trans hw.2.1) (c.check_fields _ _).2.1
      (c.check_fields _ _).2.2.1, fun q => q⟩

theorem AjpClient.FeedAll_head {σ : Type} (env : ajp_env) (h : ajp_handler σ)
    (status : Nat) (headers : Option strmap) (feeds : List (List Nat)) :
    ∀ (c : AjpClient) (hs : σ), c.head_any status headers →
      ∃ c2 hs2, AjpClient.FeedAll env h c hs feeds = some (c2, hs2) ∧
        c2.head_any status headers ∧
        ((∀ x ∈ feeds, AJP_CODE_END_RESPONSE ∉ x) → ajp_responses c.trace = [] →
          ajp_responses c2.trace = []) := by
  induction feeds with
  | nil => intro c hs hc; exact ⟨c, hs, rfl, hc, fun _ h0 => h0⟩
  | cons x xs ih =>
    intro c hs hc
    unfold AjpClient.FeedAll
    split_ifs with e1 e2
    · exact ⟨c, hs, rfl, hc, fun _ h0 => h0⟩
    · obtain ⟨c2, hs2, h1, h2, h3⟩ := ih c hs hc
      exact ⟨c2, hs2, h1, h2, fun hq h0 => h3 (fun y hy => hq y (List.mem_cons_of_mem _ hy)) h0⟩
    · have hw : c.head_waiting status headers := by
        rcases hc with hc | hc
        · exact hc
        · exact absurd hc.1 e1
      obtain ⟨r, hr, hq, hs5⟩ := AjpClient.Feed_head env h status headers c hs x hw
      rw [hr]
      obtain ⟨c2, hs2, h1, h2, h3⟩ := ih r.2.client r.2.hs hq
      exact ⟨c2, hs2, h1, h2, fun hq h0 =>
        h3 (fun y hy => hq y (List.mem_cons_of_mem _ hy)) (hs5 (hq x (List.mem_cons_self _ _)))⟩
/-! ## AJPv13 client, request side -/

/-- C9: a request with a valid URI and method whose body has an unknown
length is refused: the lease is released, the body is closed unused and the
abort callback of the handler is invoked once with the error "AJPv13 does not
support chunked request bodies"; there is no request stream, hence nothing is
written to the socket, and no response event. -/
theorem ajp_client_request_unknown_length (env : ajp_request_env) (a : ajp_request_args)
    (b : ajp_request_body)
    (huri : env.uri_path_verify_quick a.uri = true)
    (hmethod : env.to_ajp_method a.method ≠ AJP_METHOD_NULL)
    (hbody : a.body = some b) (havailable : b.available = -1) :
    ajp_client_request env a =
      .failed [.lease_release true, .request_body_close_unused,
        .handler_abort "AJPv13 does not support chunked request bodies"] := by
  simp [ajp_client_request, huri, hmethod, hbody, havailable]

/-- Witness for C9: a `POST /` with a body of unknown length. -/
theorem ajp_client_request_unknown_length_witness :
    ajp_client_request
        { uri_path_verify_quick := fun u => u.head? == some 47, to_ajp_method := fun m => m + 1,
          http_method_is_empty := fun m => m == 1, serialize_ajp_headers := fun _ => ([], 0) }
        { protocol := [104, 116, 116, 112], remote_addr := none, remote_host := none,
          server_name := none, server_port := 80, is_ssl := false, method := 3, uri := [47],
          headers := none, body := some { available := -1 } } =
      .failed [.lease_release true, .request_body_close_unused,
        .handler_abort "AJPv13 does not support chunked request bodies"] :=
  ajp_client_request_unknown_length _ _ { available := -1 } (by decide) (by decide) rfl rfl

/-- The long URI has 65534 bytes. -/
theorem ajp_long_uri_length : ajp_long_uri.length = 65534 := by
  unfold ajp_long_uri
  rw [List.length_cons, List.length_replicate]

/-- The long URI has no query string. -/
theorem ajp_long_uri_no_query : strchr_question ajp_long_uri = none := by
  have h : (63 : Nat) ∉ ajp_long_uri := by
    unfold ajp_long_uri
    intro h
    rcases List.mem_cons.mp h with h | h
    · omega
    · have := List.eq_of_mem_replicate h
      omega
  have h2 := List.indexOf_eq_length.mpr h
  simp only [strchr_question, h2, lt_self_iff_false, if_false]

/-- Size of the serialized request for a request without query string, headers,
body, remote address, remote host and server name. -/
theorem ajp_payload_length_of_plain (env : ajp_request_env) (a : ajp_request_args) (m : Nat)
    (hq : strchr_question a.uri = none) (hlen : a.uri.length ≤ 0xfffe)
    (hh : a.headers = none) (hb : a.body = none)
    (h1 : a.remote_addr = none) (h2 : a.remote_host = none) (h3 : a.server_name = none)
    (hp : a.protocol.length ≤ 0xfffe) :
    (ajp_request_payload env a m (-1)).length = a.protocol.length + a.uri.length + 20 := by
  have hnp : ¬ a.protocol.length > 0xfffe := by omega
  have hnu : ¬ a.uri.length > 0xfffe := by omega
  simp only [ajp_request_payload, hq, hh, hb, h1, h2, h3, serialize_ajp_string,
    serialize_ajp_string_n, serialize_ajp_integer, serialize_ajp_bool, ToBE16,
    Option.isSome_none, List.length_append, List.length_cons, List.length_nil, hnp, hnu,
    if_false, List.take_length, Bool.false_eq_true]
  norm_num
  omega

/-- The request for the long URI is serialized to 65558 bytes after the 4-byte
header. -/
theorem ajp_long_payload_length (env : ajp_request_env) (method m : Nat) :
    (ajp_request_payload env (ajp_long_request method) m (-1)).length = 65558 := by
  rw [ajp_payload_length_of_plain env (ajp_long_request method) m ajp_long_uri_no_query (by
    show ajp_long_uri.length ≤ 0xfffe
    rw [ajp_long_uri_length]) rfl rfl rfl rfl rfl (by show ([104, 116, 116, 112] : List Nat).length ≤ 0xfffe; decide)]
  show 4 + ajp_long_uri.length + 20 = 65558
  rw [ajp_long_uri_length]

/-- C10: the request for a URI of 65534 bytes is accepted and serialized to
a packet that starts with `0x12 0x34` and the length field `0x00 0x16`, that
is 22, while 65558 bytes follow the header, from the `FORWARD_REQUEST` code to
the terminator `0xff`: the size is cut down to 16 bits. -/
theorem ajp_client_request_length_field_wraps (env : ajp_request_env) (method : Nat)
    (huri : env.uri_path_verify_quick ajp_long_uri = true)
    (hmethod : env.to_ajp_method method ≠ AJP_METHOD_NULL) :
    ∃ payload,
      (ajp_client_request env (ajp_long_request method)).packet =
        some ([0x12, 0x34, 0, 22] ++ payload) ∧
      payload.head? = some AJP_CODE_FORWARD_REQUEST ∧
      payload.getLast? = some 0xff ∧
      payload.length = 65558 ∧
      FromBE16 0 22 ≠ payload.length := by
  have hlen := ajp_long_payload_length env method (env.to_ajp_method method)
  refine ⟨ajp_request_payload env (ajp_long_request method) (env.to_ajp_method method) (-1),
    ?_, ?_, ?_, hlen, ?_⟩
  · have hu : env.uri_path_verify_quick (ajp_long_request method).uri = true := huri
    have hm : env.to_ajp_method (ajp_long_request method).method ≠ AJP_METHOD_NULL := hmethod
    have hm2 : (ajp_long_request method).method = method := rfl
    have hb : (ajp_long_request method).body = none := rfl
    simp only [ajp_client_request, hu, hm, hb, ToBE16]
    rw [hm2, hlen]
    simp only [ajp_request_result.packet]
    norm_num
  · simp only [ajp_request_payload]
    rfl
  · simp only [ajp_request_payload]
    rw [List.getLast?_append]
    rfl
  · rw [hlen]; decide

/-- Witness for C10: the long URI is accepted by a verifier that asks for a
leading slash. -/
theorem ajp_client_request_length_field_wraps_witness :
    ∃ payload,
      (ajp_client_request
          { uri_path_verify_quick := fun u => u.head? == some 47, to_ajp_method := fun m => m + 1,
            http_method_is_empty := fun m => m == 1, serialize_ajp_headers := fun _ => ([], 0) }
          (ajp_long_request 2)).packet = some ([0x12, 0x34, 0, 22] ++ payload) ∧
      payload.head? = some AJP_CODE_FORWARD_REQUEST ∧
      payload.getLast? = some 0xff ∧
      payload.length = 65558 ∧
      FromBE16 0 22 ≠ payload.length :=
  ajp_client_request_length_field_wraps _ 2 rfl (by decide)

/-! ## AJPv13 client: body chunks -/

theorem ajp_delivered_append (t1 t2 : List ajp_event) :
    ajp_delivered (t1 ++ t2) = ajp_delivered t1 ++ ajp_delivered t2 := by
  induction t1 with
  | nil => rfl
  | cons e t ih =>
    cases e <;> simp [ajp_delivered, ih]

theorem AjpClient.ConsumeBodyChunk_consume_all (c : AjpClient) (d : List Nat) :
    c.ConsumeBodyChunk ajp_consume_all () d =
      (min d.length c.chunk_length,
       if 0 < min d.length c.chunk_length then
         { c with
           chunk_length := c.chunk_length - min d.length c.chunk_length
           remaining := c.remaining - (min d.length c.chunk_length : Nat)
           trace := c.trace ++ [.body_data (d.take (min d.length c.chunk_length))
             (min d.length c.chunk_length)] }
       else c.emit (.body_data (d.take (min d.length c.chunk_length))
             (min d.length c.chunk_length)), ()) := by
  have hmin : (if d.length > c.chunk_length then c.chunk_length else d.length) =
      min d.length c.chunk_length := by
    split_ifs <;> omega
  have hlen : (d.take (min d.length c.chunk_length)).length = min d.length c.chunk_length := by
    rw [List.length_take]; omega
  unfold AjpClient.ConsumeBodyChunk
  simp only [hmin, ajp_consume_all, hlen, Bool.false_eq_true, if_false, gt_iff_lt]
  split_ifs <;> rfl

theorem AjpClient.FeedJunk_in_junk {σ : Type} (env : ajp_env) (h : ajp_handler σ)
    (c : AjpClient) (hs : σ) (d : List Nat) (k0 : Nat)
    (hd : d ≠ []) (hlen : d.length ≤ c.junk_length) :
    AjpClient.FeedJunk env h { client := c, hs := hs, data := d, consumed := k0 } =
      .ret .MORE { client := { c with junk_length := c.junk_length - d.length }, hs := hs,
                   data := [], consumed := k0 + d.length } := by
  have hpos : 0 < d.length := List.length_pos.mpr hd
  have hj : c.junk_length > 0 := by omega
  have hn : ¬ d.length > c.junk_length := by omega
  unfold AjpClient.FeedJunk AjpClient.ConsumeBodyJunk
  simp only [hj, hn, if_true, if_false, List.drop_length, true_or]

theorem AjpClient.FeedBody_in_chunk (env : ajp_env) (c : AjpClient) (d : List Nat) (k0 : Nat)
    (hstate : c.read_state = READ_BODY) (hd : d ≠ [])
    (hlen : d.length ≤ c.chunk_length + c.junk_length) :
    AjpClient.FeedBody env ajp_consume_all
        { client := c, hs := (), data := d, consumed := k0 } =
      .ret .MORE { client := c.after_chunk_data d, hs := (), data := [],
                   consumed := k0 + d.length } := by
  have hpos : 0 < d.length := List.length_pos.mpr hd
  unfold AjpClient.FeedBody
  simp only [hstate, true_or, if_true]
  by_cases hcl : c.chunk_length > 0
  · have hmpos : 0 < min d.length c.chunk_length := by omega
    have hne : min d.length c.chunk_length ≠ 0 := by omega
    simp only [hcl, if_true, AjpClient.ConsumeBodyChunk_consume_all c d, hmpos, hne, if_false]
    by_cases hfit : d.length ≤ c.chunk_length
    · have hm : min d.length c.chunk_length = d.length := by omega
      simp only [hm, List.drop_length, true_or, if_true, lt_irrefl, if_false,
        AjpClient.after_chunk_data, hpos, Nat.sub_self, Nat.sub_zero]
    · have hm : min d.length c.chunk_length = c.chunk_length := by omega
      have hdrop : d.drop c.chunk_length ≠ [] := by
        intro h0
        have := congrArg List.length h0
        simp at this
        omega
      simp only [hm, hdrop, Nat.sub_self, false_or, gt_iff_lt, lt_irrefl, if_false]
      rw [AjpClient.FeedJunk_in_junk env ajp_consume_all _ () _ _ hdrop (by
        simp only [List.length_drop]; omega)]
      simp only [AjpClient.after_chunk_data, hcl, hm, if_true, Nat.sub_self, List.length_drop]
      congr 2
      omega
  · have h0 : c.chunk_length = 0 := by omega
    simp only [hcl, if_false]
    rw [AjpClient.FeedJunk_in_junk env ajp_consume_all _ () _ _ hd (by omega)]
    simp [AjpClient.after_chunk_data, h0]

theorem AjpClient.check_true (c : AjpClient) (place : String) : c.check true place = c := rfl

/-- `Feed` on bytes that all belong to the open chunk and its junk. -/
theorem AjpClient.Feed_in_chunk (env : ajp_env) (c : AjpClient) (d : List Nat)
    (hstate : c.read_state = READ_BODY) (hd : d ≠ [])
    (hlen : d.length ≤ c.chunk_length + c.junk_length) :
    AjpClient.Feed env ajp_consume_all c () d =
      some (.MORE, { client := c.after_chunk_data d, hs := (), data := [],
                     consumed := d.length }) := by
  have hc : (c.read_state != READ_END && d != []) = true := by
    simp [hstate, hd]
  unfold AjpClient.Feed
  simp only [hc, AjpClient.check_true]
  unfold AjpClient.FeedLoop
  rw [AjpClient.FeedBody_in_chunk env c d 0 hstate hd hlen]
  simp

/-- The packet part of the loop body on the header of a body chunk. -/
theorem AjpClient.FeedPacket_chunk_header {σ : Type} (env : ajp_env) (h : ajp_handler σ)
    (c : AjpClient) (hs : σ) (hh hl ch cl : Nat) (rest : List Nat) (k0 : Nat)
    (hstate : c.read_state = READ_BODY) :
    AjpClient.FeedPacket env h
        { client := c, hs := hs, data := 65 :: 66 :: hh :: hl :: 3 :: ch :: cl :: rest,
          consumed := k0 } =
      if FromBE16 hh hl = 0 then
        .ret .CLOSED { client := c.AbortResponse "malformed AJP response packet", hs := hs,
                       data := 65 :: 66 :: hh :: hl :: 3 :: ch :: cl :: rest, consumed := k0 }
      else if 3 + FromBE16 ch cl > FromBE16 hh hl then
        .ret .CLOSED { client := ({ c with chunk_length := FromBE16 ch cl }).AbortResponse
                         "malformed AJP SEND_BODY_CHUNK packet", hs := hs,
                       data := 65 :: 66 :: hh :: hl :: 3 :: ch :: cl :: rest, consumed := k0 }
      else if c.remaining ≥ 0 ∧ (FromBE16 ch cl : Int) > c.remaining then
        .ret .CLOSED { client := (c.open_chunk (FromBE16 ch cl)
                         (FromBE16 hh hl - 3 - FromBE16 ch cl)).AbortResponse
                         "excess chunk length in AJP SEND_BODY_CHUNK packet", hs := hs,
                       data := 65 :: 66 :: hh :: hl :: 3 :: ch :: cl :: rest, consumed := k0 }
      else
        .next { client := c.open_chunk (FromBE16 ch cl) (FromBE16 hh hl - 3 - FromBE16 ch cl),
                hs := hs, data := rest, consumed := k0 + 7 } := by
  unfold AjpClient.FeedPacket
  simp only [List.length_cons, List.getD_cons_zero, List.getD_cons_succ, AJP_CODE_SEND_BODY_CHUNK,
    hstate, AjpClient.open_chunk]
  split_ifs <;> first | rfl | omega | simp_all
theorem AjpClient.FeedLoop_ret {σ : Type} (env : ajp_env) (h : ajp_handler σ) (n : Nat)
    (l l1 : ajp_feed_locals σ) (res : BufferedResult)
    (hb : AjpClient.FeedBody env h l = .ret res l1) :
    AjpClient.FeedLoop env h (n + 1) l = some (res, l1) := by
  unfold AjpClient.FeedLoop
  rw [hb]

theorem AjpClient.FeedLoop_next {σ : Type} (env : ajp_env) (h : ajp_handler σ) (n : Nat)
    (l l1 : ajp_feed_locals σ) (hb : AjpClient.FeedBody env h l = .next l1) :
    AjpClient.FeedLoop env h (n + 1) l =
      if l1.data ≠ [] then AjpClient.FeedLoop env h n l1 else some (.MORE, l1) := by
  conv => lhs; unfold AjpClient.FeedLoop
  rw [hb]

theorem AjpClient.FeedBody_at_boundary {σ : Type} (env : ajp_env) (h : ajp_handler σ)
    (l : ajp_feed_locals σ) (hc : l.client.chunk_length = 0) (hj : l.client.junk_length = 0) :
    AjpClient.FeedBody env h l = AjpClient.FeedPacket env h l := by
  unfold AjpClient.FeedBody AjpClient.FeedJunk
  simp [hc, hj]

theorem AjpClient.after_chunk_data_nil (c : AjpClient) : c.after_chunk_data [] = c := by
  simp [AjpClient.after_chunk_data]

/-- `Feed` on a body chunk packet, or the first part of one that has at least
the chunk header, at a packet boundary: the packet is refused, or the header
is consumed and the rest handled as chunk data and junk. -/
theorem AjpClient.Feed_chunk_packet (env : ajp_env) (c : AjpClient)
    (hh hl ch cl : Nat) (rest : List Nat)
    (hstate : c.read_state = READ_BODY) (hc : c.chunk_length = 0) (hj : c.junk_length = 0)
    (hrest : rest.length + 3 ≤ FromBE16 hh hl ∨ 3 + FromBE16 ch cl > FromBE16 hh hl ∨
      (c.remaining ≥ 0 ∧ (FromBE16 ch cl : Int) > c.remaining)) :
    AjpClient.Feed env ajp_consume_all c () (65 :: 66 :: hh :: hl :: 3 :: ch :: cl :: rest) =
      if FromBE16 hh hl = 0 then
        some (.CLOSED,
          { client := c.AbortResponse "malformed AJP response packet", hs := (),
            data := 65 :: 66 :: hh :: hl :: 3 :: ch :: cl :: rest, consumed := 0 })
      else if 3 + FromBE16 ch cl > FromBE16 hh hl then
        some (.CLOSED,
          { client := ({ c with chunk_length := FromBE16 ch cl }).AbortResponse
              "malformed AJP SEND_BODY_CHUNK packet", hs := (),
            data := 65 :: 66 :: hh :: hl :: 3 :: ch :: cl :: rest, consumed := 0 })
      else if c.remaining ≥ 0 ∧ (FromBE16 ch cl : Int) > c.remaining then
        some (.CLOSED,
          { client := (c.open_chunk (FromBE16 ch cl)
              (FromBE16 hh hl - 3 - FromBE16 ch cl)).AbortResponse
              "excess chunk length in AJP SEND_BODY_CHUNK packet", hs := (),
            data := 65 :: 66 :: hh :: hl :: 3 :: ch :: cl :: rest, consumed := 0 })
      else
        some (.MORE,
          { client := (c.open_chunk (FromBE16 ch cl)
              (FromBE16 hh hl - 3 - FromBE16 ch cl)).after_chunk_data rest, hs := (),
            data := [], consumed := 7 + rest.length }) := by
  have hcheck : (c.read_state != READ_END &&
      (65 :: 66 :: hh :: hl :: 3 :: ch :: cl :: rest) != []) = true := by
    simp [hstate]
  unfold AjpClient.Feed
  simp only [hcheck, AjpClient.check_true, List.length_cons]
  have hb := AjpClient.FeedBody_at_boundary env ajp_consume_all
    { client := c, hs := (), data := 65 :: 66 :: hh :: hl :: 3 :: ch :: cl :: rest,
      consumed := 0 } hc hj
  rw [AjpClient.FeedPacket_chunk_header env ajp_consume_all c () hh hl ch cl rest 0 hstate] at hb
  split_ifs at hb ⊢ with g1 g2 g3
  · exact AjpClient.FeedLoop_ret env _ _ _ _ _ hb
  · exact AjpClient.FeedLoop_ret env _ _ _ _ _ hb
  · exact AjpClient.FeedLoop_ret env _ _ _ _ _ hb
  · rw [AjpClient.FeedLoop_next env _ _ _ _ hb]
    simp only [Nat.zero_add]
    by_cases hr : rest = []
    · subst hr
      simp [AjpClient.after_chunk_data_nil]
    · simp only [hr, ne_eq, not_false_eq_true, if_true]
      have hlen : rest.length ≤ (c.open_chunk (FromBE16 ch cl)
          (FromBE16 hh hl - 3 - FromBE16 ch cl)).chunk_length +
          (c.open_chunk (FromBE16 ch cl) (FromBE16 hh hl - 3 - FromBE16 ch cl)).junk_length := by
        simp only [AjpClient.open_chunk]
        rcases hrest with h1 | h1 | h1
        · omega
        · omega
        · exact absurd h1 g3
      have hb2 := AjpClient.FeedBody_in_chunk env (c.open_chunk (FromBE16 ch cl)
          (FromBE16 hh hl - 3 - FromBE16 ch cl)) rest 7 hstate hr hlen
      exact AjpClient.FeedLoop_ret env _ _ _ _ _ hb2
/-- `Feed` at a packet boundary on less than a packet header and code: nothing
happens, more data is asked for. -/
theorem AjpClient.Feed_short (env : ajp_env) (c : AjpClient) (d : List Nat)
    (hstate : c.read_state = READ_BODY) (hc : c.chunk_length = 0) (hj : c.junk_length = 0)
    (hd : d ≠ []) (hlen : d.length < 5) :
    AjpClient.Feed env ajp_consume_all c () d =
      some (.MORE, { client := c, hs := (), data := d, consumed := 0 }) := by
  have hcheck : (c.read_state != READ_END && d != []) = true := by simp [hstate, hd]
  unfold AjpClient.Feed
  simp only [hcheck, AjpClient.check_true]
  apply AjpClient.FeedLoop_ret
  rw [AjpClient.FeedBody_at_boundary env ajp_consume_all _ hc hj]
  unfold AjpClient.FeedPacket
  simp [hlen]

theorem AjpClient.FeedPacket_short_chunk {σ : Type} (env : ajp_env) (h : ajp_handler σ)
    (l : ajp_feed_locals σ) (hh hl : Nat) (tail : List Nat)
    (hdata : l.data = 65 :: 66 :: hh :: hl :: 3 :: tail)
    (hstate : l.client.read_state = READ_BODY) (hlen : tail.length < 2) :
    AjpClient.FeedPacket env h l =
      if FromBE16 hh hl = 0 then
        .ret .CLOSED { l with client := l.client.AbortResponse "malformed AJP response packet" }
      else .ret .MORE l := by
  unfold AjpClient.FeedPacket
  simp only [hdata, List.length_cons, List.getD_cons_zero, List.getD_cons_succ,
    AJP_CODE_SEND_BODY_CHUNK, hstate]
  split_ifs <;> first | rfl | omega | simp_all

/-- `Feed` at a packet boundary on the header and code of a body chunk packet
without its complete chunk length. -/
theorem AjpClient.Feed_short_chunk (env : ajp_env) (c : AjpClient) (hh hl : Nat)
    (tail : List Nat)
    (hstate : c.read_state = READ_BODY) (hc : c.chunk_length = 0) (hj : c.junk_length = 0)
    (hlen : tail.length < 2) :
    AjpClient.Feed env ajp_consume_all c () (65 :: 66 :: hh :: hl :: 3 :: tail) =
      if FromBE16 hh hl = 0 then
        some (.CLOSED,
          { client := c.AbortResponse "malformed AJP response packet", hs := (),
            data := 65 :: 66 :: hh :: hl :: 3 :: tail, consumed := 0 })
      else
        some (.MORE, { client := c, hs := (), data := 65 :: 66 :: hh :: hl :: 3 :: tail,
                       consumed := 0 }) := by
  have hcheck : (c.read_state != READ_END && (65 :: 66 :: hh :: hl :: 3 :: tail) != []) = true := by
    simp [hstate]
  unfold AjpClient.Feed
  simp only [hcheck, AjpClient.check_true]
  have hb := AjpClient.FeedBody_at_boundary env ajp_consume_all
    { client := c, hs := (), data := 65 :: 66 :: hh :: hl :: 3 :: tail, consumed := 0 } hc hj
  rw [AjpClient.FeedPacket_short_chunk env ajp_consume_all _ hh hl tail rfl hstate hlen] at hb
  split_ifs at hb ⊢
  · exact AjpClient.FeedLoop_ret env _ _ _ _ _ hb
  · exact AjpClient.FeedLoop_ret env _ _ _ _ _ hb
theorem ajp_take_chunk (payload : List Nat) (k m C : Nat) :
    payload.take (min k C) ++ ((payload.drop k).take m).take (min m (C - min k C)) =
      payload.take (min (k + m) C) := by
  by_cases hk : k ≤ C
  · have ha : min k C = k := by omega
    rw [ha, List.take_take]
    have hb : min (min m (C - k)) m = min m (C - k) := by omega
    have hc : min (k + m) C = k + min m (C - k) := by omega
    rw [hb, hc, List.take_add]
  · have ha : min k C = C := by omega
    have hb : min m (C - C) = 0 := by omega
    have hc : min (k + m) C = C := by omega
    rw [ha, hb, hc]
    simp

theorem AjpClient.in_chunk_open (c0 : AjpClient) (payload : List Nat) (C J : Nat)
    (hstate : c0.read_state = READ_BODY) :
    AjpClient.in_chunk c0 payload C J 0 (c0.open_chunk C J) := by
  refine ⟨hstate, ?_, ?_, ?_, ?_, [], ?_, ?_⟩ <;> simp [AjpClient.open_chunk]

theorem AjpClient.in_chunk_step (c0 c : AjpClient) (payload : List Nat) (C J k m : Nat)
    (hin : AjpClient.in_chunk c0 payload C J k c) (hk : k + m ≤ payload.length) :
    AjpClient.in_chunk c0 payload C J (k + m) (c.after_chunk_data ((payload.drop k).take m)) := by
  obtain ⟨h1, h2, h3, h4, h5, evs, h6, h7⟩ := hin
  have hlen : ((payload.drop k).take m).length = m := by
    rw [List.length_take, List.length_drop]; omega
  unfold AjpClient.after_chunk_data
  simp only [hlen, h2, h3, h4]
  refine ⟨h1, by dsimp only; omega, by dsimp only; omega, ?_, ?_, ?_⟩ <;> dsimp only
  · have : ((min (k + m) C : Nat) : Int) = (min k C : Nat) + (min m (C - min k C) : Nat) := by
      have : min (k + m) C = min k C + min m (C - min k C) := by omega
      rw [this]; push_cast; rfl
    rw [this]; ring
  · split_ifs with hp
    · rw [ajp_delivered_append, h5, List.append_assoc]
      congr 1
      simp only [ajp_delivered, List.append_nil]
      rw [List.take_take, Nat.min_self]
      exact ajp_take_chunk payload k m C
    · have h0 : min m (C - min k C) = 0 := by omega
      rw [h5]
      congr 1
      have := ajp_take_chunk payload k m C
      rw [h0] at this
      simpa using this
  · split_ifs with hp
    · refine ⟨evs ++ [.body_data _ _], by rw [h6, List.append_assoc], ?_⟩
      intro e he
      rcases List.mem_append.mp he with he | he
      · exact h7 e he
      · simp only [List.mem_singleton] at he
        subst he; rfl
    · exact ⟨evs, h6, h7⟩
theorem ajp_split_head {α : Type} (x : List α) (xs : List (List α)) (l : List α) (n : Nat)
    (h : (x :: xs).flatten = l.drop n) :
    x = (l.drop n).take x.length ∧ xs.flatten = l.drop (n + x.length) ∧
      n + x.length ≤ l.length ∨ (x = [] ∧ xs.flatten = l.drop n ∧ l.length < n) := by
  rw [List.flatten_cons] at h
  by_cases hn : n ≤ l.length
  · left
    refine ⟨?_, ?_, ?_⟩
    · rw [← h, List.take_left' rfl]
    · rw [← List.drop_drop, ← h, List.drop_left' rfl]
    · have := congrArg List.length h
      simp only [List.length_append, List.length_drop] at this
      omega
  · right
    have hnil : l.drop n = [] := List.drop_eq_nil_of_le (by omega)
    rw [hnil] at h
    have hx := List.append_eq_nil.mp h
    exact ⟨hx.1, by rw [hx.2, hnil], by omega⟩

/-- Receiving the payload of an open body chunk in any split: every byte of
the chunk is delivered, the junk is consumed. -/
theorem AjpClient.Receive_in_chunk (env : ajp_env) (c0 : AjpClient) (payload : List Nat)
    (C J : Nat) (hlen : payload.length = C + J) (chunks : List (List Nat)) :
    ∀ (k : Nat) (c : AjpClient), AjpClient.in_chunk c0 payload C J k c →
      chunks.flatten = payload.drop k → k ≤ payload.length →
      ∃ c1, AjpClient.Receive env ajp_consume_all c () [] chunks = some (c1, (), []) ∧
        AjpClient.in_chunk c0 payload C J payload.length c1 := by
  induction chunks with
  | nil =>
    intro k c hin hj hk
    have h0 : (payload.drop k).length = 0 := by rw [← hj]; rfl
    rw [List.length_drop] at h0
    have : k = payload.length := by omega
    subst this
    exact ⟨c, rfl, hin⟩
  | cons x xs ih =>
    intro k c hin hj hk
    rcases ajp_split_head x xs payload k hj with ⟨hx, hxs, hle⟩ | ⟨_, _, hlt⟩
    swap
    · omega
    have hne : c.read_state ≠ READ_END := by rw [hin.1]; decide
    unfold AjpClient.Receive
    rw [if_neg hne]
    by_cases hxe : x = []
    · subst hxe
      simp only [List.append_nil, if_true]
      exact ih k c hin (by simpa using hxs) hk
    · have hxe' : ¬ ([] ++ x = []) := by simpa using hxe
      rw [if_neg hxe']
      have hfit : x.length ≤ c.chunk_length + c.junk_length := by
        rw [hin.2.1, hin.2.2.1]; omega
      simp only [List.nil_append]
      rw [AjpClient.Feed_in_chunk env c x hin.1 hxe hfit]
      simp only [List.drop_length]
      have hstep := AjpClient.in_chunk_step c0 c payload C J k x.length hin hle
      rw [← hx] at hstep
      exact ih (k + x.length) _ hstep hxs hle
/-- Receiving a packet in any split, as long as `Feed` waits for more data on
every part of the packet shorter than `T` bytes. -/
theorem AjpClient.Receive_header (env : ajp_env) (c0 : AjpClient) (P : List Nat) (T : Nat)
    (Final : AjpClient → List Nat → Prop)
    (hstate : c0.read_state ≠ READ_END) (hT : T ≤ P.length)
    (hshort : ∀ m, 0 < m → m < T →
      AjpClient.Feed env ajp_consume_all c0 () (P.take m) =
        some (.MORE, { client := c0, hs := (), data := P.take m, consumed := 0 }))
    (hfull : ∀ m (xs : List (List Nat)), T ≤ m → m ≤ P.length → xs.flatten = P.drop m →
      ∃ r, AjpClient.Feed env ajp_consume_all c0 () (P.take m) = some r ∧
        ∃ c1 buf, AjpClient.Receive env ajp_consume_all r.2.client r.2.hs
          ((P.take m).drop r.2.consumed) xs = some (c1, (), buf) ∧ Final c1 buf)
    (chunks : List (List Nat)) :
    ∀ n, n < T → chunks.flatten = P.drop n →
      ∃ c1 buf, AjpClient.Receive env ajp_consume_all c0 () (P.take n) chunks =
        some (c1, (), buf) ∧ Final c1 buf := by
  induction chunks with
  | nil =>
    intro n hn hj
    have h0 : (P.drop n).length = 0 := by rw [← hj]; rfl
    rw [List.length_drop] at h0
    omega
  | cons x xs ih =>
    intro n hn hj
    rcases ajp_split_head x xs P n hj with ⟨hx, hxs, hle⟩ | ⟨_, _, hlt⟩
    swap
    · omega
    have happ : P.take n ++ x = P.take (n + x.length) := by
      rw [List.take_add, ← hx]
    unfold AjpClient.Receive
    rw [if_neg hstate, happ]
    by_cases hm : n + x.length < T
    · by_cases hz : n + x.length = 0
      · have hn0 : n = 0 := by omega
        have hx0 : x.length = 0 := by omega
        rw [hz]
        simp only [List.take_zero, if_true]
        have := ih 0 (by omega) (by rw [hxs, hz])
        rw [hn0]
        simpa using this
      · have hne : ¬ (P.take (n + x.length) = []) := by
          intro h0
          have := congrArg List.length h0
          rw [List.length_take, List.length_nil] at this
          omega
        rw [if_neg hne, hshort (n + x.length) (by omega) hm]
        simp only [List.drop_zero]
        exact ih (n + x.length) hm hxs
    · have hne : ¬ (P.take (n + x.length) = []) := by
        intro h0
        have := congrArg List.length h0
        rw [List.length_take, List.length_nil] at this
        omega
      rw [if_neg hne]
      obtain ⟨r, hr, c1, buf, hrec, hfin⟩ := hfull (n + x.length) xs (by omega) hle hxs
      rw [hr]
      exact ⟨c1, buf, hrec, hfin⟩
theorem ajp_delivered_quiet (evs : List ajp_event) (hq : ∀ e ∈ evs, e.quiet = true) :
    ajp_delivered evs = [] := by
  induction evs with
  | nil => rfl
  | cons e t ih =>
    have he := hq e (List.mem_cons_self _ _)
    have ht := ih (fun e' h' => hq e' (List.mem_cons_of_mem _ h'))
    cases e <;> simp_all [ajp_delivered, ajp_event.quiet]

theorem AjpClient.quiet_step_delivered {c c' : AjpClient} (h : c.quiet_step c') :
    ajp_delivered c'.trace = ajp_delivered c.trace := by
  obtain ⟨evs, ht, hq⟩ := h
  rw [ht, ajp_delivered_append, ajp_delivered_quiet evs hq, List.append_nil]

theorem AjpClient.quiet_step_mem {c c' : AjpClient} (h : c.quiet_step c') (e : ajp_event)
    (he : e ∈ c.trace) : e ∈ c'.trace := by
  obtain ⟨evs, ht, _⟩ := h
  rw [ht]
  exact List.mem_append_left _ he

/-- An abort in `READ_BODY` ends the client and the body stream, with the
given error; no body data is delivered by it. -/
theorem AjpClient.AbortResponse_body (c : AjpClient) (msg : String)
    (hstate : c.read_state = READ_BODY) :
    (c.AbortResponse msg).read_state = READ_END ∧
    ajp_delivered (c.AbortResponse msg).trace = ajp_delivered c.trace ∧
    .body_abort msg ∈ (c.AbortResponse msg).trace := by
  have sp := c.AbortResponse_spec msg
  refine ⟨sp.2.1, quiet_step_delivered sp.1, ?_⟩
  unfold AjpClient.AbortResponse
  simp only [hstate]
  unfold AjpClient.AbortResponseBody
  have hchk : (c.read_state == READ_BODY) = true := by simp [hstate]
  simp only [hchk, AjpClient.check_true]
  exact quiet_step_mem (Release_spec _ false).1 _ (by simp)

theorem ajp_chunk_packet_take (hh hl ch cl : Nat) (payload : List Nat) (m : Nat) :
    (65 :: 66 :: hh :: hl :: 3 :: ch :: cl :: payload).take (m + 7) =
      65 :: 66 :: hh :: hl :: 3 :: ch :: cl :: payload.take m := by
  simp

theorem ajp_chunk_packet_drop (hh hl ch cl : Nat) (payload : List Nat) (m : Nat) :
    (65 :: 66 :: hh :: hl :: 3 :: ch :: cl :: payload).drop (m + 7) = payload.drop m := by
  simp

theorem AjpClient.Feed_chunk_prefix (env : ajp_env) (c0 : AjpClient) (hh hl ch cl : Nat)
    (payload : List Nat) (hstate : c0.read_state = READ_BODY) (hc0 : c0.chunk_length = 0)
    (hj0 : c0.junk_length = 0) (hH : FromBE16 hh hl ≠ 0) (m : Nat) (h0 : 0 < m) (h7 : m < 7) :
    AjpClient.Feed env ajp_consume_all c0 ()
        ((65 :: 66 :: hh :: hl :: 3 :: ch :: cl :: payload).take m) =
      some (.MORE, { client := c0, hs := (),
                     data := (65 :: 66 :: hh :: hl :: 3 :: ch :: cl :: payload).take m,
                     consumed := 0 }) := by
  interval_cases m
  · exact AjpClient.Feed_short env c0 _ hstate hc0 hj0 (by simp) (by simp)
  · exact AjpClient.Feed_short env c0 _ hstate hc0 hj0 (by simp) (by simp)
  · exact AjpClient.Feed_short env c0 _ hstate hc0 hj0 (by simp) (by simp)
  · exact AjpClient.Feed_short env c0 _ hstate hc0 hj0 (by simp) (by simp)
  · have := AjpClient.Feed_short_chunk env c0 hh hl [] hstate hc0 hj0 (by simp)
    rw [if_neg hH] at this
    simpa using this
  · have := AjpClient.Feed_short_chunk env c0 hh hl [ch] hstate hc0 hj0 (by simp)
    rw [if_neg hH] at this
    simpa using this
theorem AjpClient.Receive_end {σ : Type} (env : ajp_env) (h : ajp_handler σ) (c : AjpClient)
    (hs : σ) (buf : List Nat) (chunks : List (List Nat)) (he : c.read_state = READ_END) :
    AjpClient.Receive env h c hs buf chunks = some (c, hs, buf) := by
  cases chunks with
  | nil => rfl
  | cons x xs =>
    unfold AjpClient.Receive
    rw [if_pos he]

/-- A well-formed body chunk packet that fits the announced length, received
in any split at a packet boundary. -/
theorem AjpClient.Receive_chunk_good (env : ajp_env) (c0 : AjpClient) (hh hl ch cl : Nat)
    (payload : List Nat) (chunks : List (List Nat))
    (hstate : c0.read_state = READ_BODY) (hc0 : c0.chunk_length = 0) (hj0 : c0.junk_length = 0)
    (hgood : 3 + FromBE16 ch cl ≤ FromBE16 hh hl)
    (hrem : ¬ (c0.remaining ≥ 0 ∧ (FromBE16 ch cl : Int) > c0.remaining))
    (hlen : payload.length + 3 = FromBE16 hh hl)
    (hsplit : chunks.flatten = 65 :: 66 :: hh :: hl :: 3 :: ch :: cl :: payload) :
    ∃ c1 buf, AjpClient.Receive env ajp_consume_all c0 () [] chunks = some (c1, (), buf) ∧
      (buf = [] ∧ AjpClient.in_chunk c0 payload (FromBE16 ch cl)
        (FromBE16 hh hl - 3 - FromBE16 ch cl) payload.length c1) := by
  have hne : c0.read_state ≠ READ_END := by rw [hstate]; decide
  have hplen : payload.length = FromBE16 ch cl + (FromBE16 hh hl - 3 - FromBE16 ch cl) := by
    omega
  refine AjpClient.Receive_header env c0 (65 :: 66 :: hh :: hl :: 3 :: ch :: cl :: payload) 7
    (fun c1 buf => buf = [] ∧ AjpClient.in_chunk c0 payload (FromBE16 ch cl)
        (FromBE16 hh hl - 3 - FromBE16 ch cl) payload.length c1)
    hne (by simp) ?_ ?_ chunks 0 (by omega) (by simpa using hsplit)
  · intro m h0 h7
    exact AjpClient.Feed_chunk_prefix env c0 hh hl ch cl payload hstate hc0 hj0 (by omega) m h0 h7
  · intro m xs h7 hle hxs
    obtain ⟨m', rfl⟩ : ∃ m', m = m' + 7 := ⟨m - 7, by omega⟩
    simp only [List.length_cons] at hle
    rw [ajp_chunk_packet_take, ajp_chunk_packet_drop] at *
    have htl : (payload.take m').length = m' := by rw [List.length_take]; omega
    have hf := AjpClient.Feed_chunk_packet env c0 hh hl ch cl (payload.take m') hstate hc0 hj0
      (Or.inl (by rw [htl]; omega))
    rw [if_neg (by omega), if_neg (by omega), if_neg hrem] at hf
    refine ⟨_, hf, ?_⟩
    simp only [htl]
    have hdrop : (65 :: 66 :: hh :: hl :: 3 :: ch :: cl :: payload.take m').drop (7 + m') = [] := by
      apply List.drop_eq_nil_of_le
      simp only [List.length_cons, htl]; omega
    rw [hdrop]
    have hin := AjpClient.in_chunk_step c0 _ payload (FromBE16 ch cl)
      (FromBE16 hh hl - 3 - FromBE16 ch cl) 0 m'
      (AjpClient.in_chunk_open c0 payload _ _ hstate) (by omega)
    simp only [List.drop_zero, Nat.zero_add] at hin
    obtain ⟨c1, h1, h2⟩ := AjpClient.Receive_in_chunk env c0 payload (FromBE16 ch cl)
      (FromBE16 hh hl - 3 - FromBE16 ch cl) hplen xs m' _ hin hxs (by omega)
    exact ⟨c1, [], h1, rfl, h2⟩

/-- A body chunk packet that is refused, received in any split at a packet
boundary: the client ends up aborted. -/
theorem AjpClient.Receive_chunk_refused (env : ajp_env) (c0 : AjpClient) (hh hl ch cl : Nat)
    (payload : List Nat) (chunks : List (List Nat))
    (hstate : c0.read_state = READ_BODY) (hc0 : c0.chunk_length = 0) (hj0 : c0.junk_length = 0)
    (hbad : 3 + FromBE16 ch cl > FromBE16 hh hl ∨
      (c0.remaining ≥ 0 ∧ (FromBE16 ch cl : Int) > c0.remaining))
    (hsplit : chunks.flatten = 65 :: 66 :: hh :: hl :: 3 :: ch :: cl :: payload) :
    ∃ c1 buf, AjpClient.Receive env ajp_consume_all c0 () [] chunks = some (c1, (), buf) ∧
      c1 =
        if FromBE16 hh hl = 0 then c0.AbortResponse "malformed AJP response packet"
        else if 3 + FromBE16 ch cl > FromBE16 hh hl then
          ({ c0 with chunk_length := FromBE16 ch cl }).AbortResponse
            "malformed AJP SEND_BODY_CHUNK packet"
        else
          (c0.open_chunk (FromBE16 ch cl) (FromBE16 hh hl - 3 - FromBE16 ch cl)).AbortResponse
            "excess chunk length in AJP SEND_BODY_CHUNK packet" := by
  have hne : c0.read_state ≠ READ_END := by rw [hstate]; decide
  have hbad' : 0 + 3 ≤ FromBE16 hh hl ∨ 3 + FromBE16 ch cl > FromBE16 hh hl ∨
      (c0.remaining ≥ 0 ∧ (FromBE16 ch cl : Int) > c0.remaining) := by
    rcases hbad with h | h
    · exact Or.inr (Or.inl h)
    · exact Or.inr (Or.inr h)
  by_cases hz : FromBE16 hh hl = 0
  · -- the header length is zero: refused as soon as the code byte is there
    rw [if_pos hz]
    refine AjpClient.Receive_header env c0 (65 :: 66 :: hh :: hl :: 3 :: ch :: cl :: payload) 5
      (fun c1 _ => c1 = c0.AbortResponse "malformed AJP response packet")
      hne (by simp) ?_ ?_ chunks 0 (by omega) (by simpa using hsplit)
    · intro m h0 h5
      exact AjpClient.Feed_short env c0 _ hstate hc0 hj0 (by
        intro hnil
        have := congrArg List.length hnil
        simp at this
        omega) (by simp; omega)
    · intro m xs h5 hle hxs
      have hres : ∃ d k, AjpClient.Feed env ajp_consume_all c0 ()
          ((65 :: 66 :: hh :: hl :: 3 :: ch :: cl :: payload).take m) =
          some (.CLOSED, { client := c0.AbortResponse "malformed AJP response packet",
                           hs := (), data := d, consumed := k }) := by
        rcases Nat.lt_or_ge m 7 with h7 | h7
        · interval_cases m
          · have := AjpClient.Feed_short_chunk env c0 hh hl [] hstate hc0 hj0 (by simp)
            rw [if_pos hz] at this
            exact ⟨_, _, by simpa using this⟩
          · have := AjpClient.Feed_short_chunk env c0 hh hl [ch] hstate hc0 hj0 (by simp)
            rw [if_pos hz] at this
            exact ⟨_, _, by simpa using this⟩
        · obtain ⟨m', rfl⟩ : ∃ m', m = m' + 7 := ⟨m - 7, by omega⟩
          rw [ajp_chunk_packet_take]
          have hf := AjpClient.Feed_chunk_packet env c0 hh hl ch cl (payload.take m') hstate
            hc0 hj0 (Or.inr (Or.inl (by omega)))
          rw [if_pos hz] at hf
          exact ⟨_, _, hf⟩
      obtain ⟨d, k, hf⟩ := hres
      refine ⟨_, hf, ?_⟩
      exact ⟨_, _, AjpClient.Receive_end env _ _ _ _ _ (c0.AbortResponse_spec _).2.1, rfl⟩
  · rw [if_neg hz]
    refine AjpClient.Receive_header env c0 (65 :: 66 :: hh :: hl :: 3 :: ch :: cl :: payload) 7
      (fun c1 _ => c1 =
        if 3 + FromBE16 ch cl > FromBE16 hh hl then
          ({ c0 with chunk_length := FromBE16 ch cl }).AbortResponse
            "malformed AJP SEND_BODY_CHUNK packet"
        else
          (c0.open_chunk (FromBE16 ch cl) (FromBE16 hh hl - 3 - FromBE16 ch cl)).AbortResponse
            "excess chunk length in AJP SEND_BODY_CHUNK packet")
      hne (by simp) ?_ ?_ chunks 0 (by omega) (by simpa using hsplit)
    · intro m h0 h7
      exact AjpClient.Feed_chunk_prefix env c0 hh hl ch cl payload hstate hc0 hj0 hz m h0 h7
    · intro m xs h7 hle hxs
      obtain ⟨m', rfl⟩ : ∃ m', m = m' + 7 := ⟨m - 7, by omega⟩
      rw [ajp_chunk_packet_take]
      have hf := AjpClient.Feed_chunk_packet env c0 hh hl ch cl (payload.take m') hstate
        hc0 hj0 (Or.inr hbad)
      rw [if_neg hz] at hf
      by_cases hm : 3 + FromBE16 ch cl > FromBE16 hh hl
      · rw [if_pos hm] at hf ⊢
        refine ⟨_, hf, ?_⟩
        exact ⟨_, _, AjpClient.Receive_end env _ _ _ _ _ (AjpClient.AbortResponse_spec _ _).2.1,
          rfl⟩
      · have hex : c0.remaining ≥ 0 ∧ (FromBE16 ch cl : Int) > c0.remaining := by
          rcases hbad with h | h
          · exact absurd h hm
          · exact h
        rw [if_neg hm, if_pos hex] at hf
        rw [if_neg hm]
        refine ⟨_, hf, ?_⟩
        exact ⟨_, _, AjpClient.Receive_end env _ _ _ _ _ (AjpClient.AbortResponse_spec _ _).2.1,
          rfl⟩
theorem FromBE16_div_mod (n : Nat) : FromBE16 (n / 256) (n % 256) = n := by
  unfold FromBE16
  omega

/-- C4, as the specification states it, fails: a body chunk packet with
`c + 3 <= h` (here `h = 8`, `c = 5`) that arrives when only 2 bytes of the
announced length remain is refused, none of its bytes is delivered. -/
theorem ajp_body_chunk_beyond_length_refused :
    5 + 3 ≤ 8 ∧
    (AjpClient.Receive ajp_plain_env ajp_consume_all (AjpClient.reading_body 2) () []
        [ajp_body_chunk_packet 8 5 [104, 101, 108, 108, 111]]).map
      (fun r => (r.1.read_state, ajp_delivered r.1.trace, r.1.trace)) =
      some (READ_END, [],
        [.body_abort "excess chunk length in AJP SEND_BODY_CHUNK packet",
         .lease_release false]) := by
  decide

/-- C4, amended: a `SEND_BODY_CHUNK` packet with header length field `h` and
chunk length field `c`, received in `READ_BODY` at a packet boundary in any
split into parts, with a handler that consumes all it is offered.  If
`c + 3 > h` the response is aborted as malformed and nothing is delivered.  If
`c + 3 <= h` but `c` exceeds the rest of the announced length, the response is
aborted ("excess chunk length") and nothing is delivered.  Otherwise, for a
packet of `h - 3` bytes after the chunk header, exactly its first `c` bytes are
delivered, in order, the other `h - 3 - c` bytes are consumed without being
delivered, and the client is at a packet boundary again. -/
theorem ajp_body_chunk_framing (env : ajp_env) (c0 : AjpClient) (h c : Nat)
    (payload : List Nat) (chunks : List (List Nat))
    (hstate : c0.read_state = READ_BODY) (hcl : c0.chunk_length = 0)
    (hjl : c0.junk_length = 0)
    (hsplit : chunks.flatten = ajp_body_chunk_packet h c payload) :
    (c + 3 > h →
      ∃ c1 buf, AjpClient.Receive env ajp_consume_all c0 () [] chunks = some (c1, (), buf) ∧
        c1.read_state = READ_END ∧ ajp_delivered c1.trace = ajp_delivered c0.trace ∧
        (.body_abort "malformed AJP SEND_BODY_CHUNK packet" ∈ c1.trace ∨
          .body_abort "malformed AJP response packet" ∈ c1.trace)) ∧
    (c + 3 ≤ h → 0 ≤ c0.remaining → c0.remaining < c →
      ∃ c1 buf, AjpClient.Receive env ajp_consume_all c0 () [] chunks = some (c1, (), buf) ∧
        c1.read_state = READ_END ∧ ajp_delivered c1.trace = ajp_delivered c0.trace ∧
        .body_abort "excess chunk length in AJP SEND_BODY_CHUNK packet" ∈ c1.trace) ∧
    (c + 3 ≤ h → (c0.remaining < 0 ∨ (c : Int) ≤ c0.remaining) → payload.length + 3 = h →
      ∃ c1, AjpClient.Receive env ajp_consume_all c0 () [] chunks = some (c1, (), []) ∧
        c1.read_state = READ_BODY ∧ c1.chunk_length = 0 ∧ c1.junk_length = 0 ∧
        c1.remaining = c0.remaining - c ∧
        ajp_delivered c1.trace = ajp_delivered c0.trace ++ payload.take c ∧
        ∃ evs, c1.trace = c0.trace ++ evs ∧ ∀ e ∈ evs, e.is_body_data = true) := by
  have hP : chunks.flatten =
      65 :: 66 :: (h / 256) :: (h % 256) :: 3 :: (c / 256) :: (c % 256) :: payload := by
    rw [hsplit]
    simp [ajp_body_chunk_packet, ajp_packet, AJP_CODE_SEND_BODY_CHUNK]
  refine ⟨?_, ?_, ?_⟩
  · intro hbad
    obtain ⟨c1, buf, hr, hc1⟩ := AjpClient.Receive_chunk_refused env c0 (h / 256) (h % 256)
      (c / 256) (c % 256) payload chunks hstate hcl hjl
      (Or.inl (by rw [FromBE16_div_mod, FromBE16_div_mod]; omega)) hP
    rw [FromBE16_div_mod, FromBE16_div_mod] at hc1
    refine ⟨c1, buf, hr, ?_⟩
    subst hc1
    split_ifs with g1
    · have a := AjpClient.AbortResponse_body c0 "malformed AJP response packet" hstate
      exact ⟨a.1, a.2.1, Or.inr a.2.2⟩
    · have a := AjpClient.AbortResponse_body ({ c0 with chunk_length := c })
        "malformed AJP SEND_BODY_CHUNK packet" hstate
      exact ⟨a.1, a.2.1, Or.inl a.2.2⟩
    · omega
  · intro hgood h0 hlt
    obtain ⟨c1, buf, hr, hc1⟩ := AjpClient.Receive_chunk_refused env c0 (h / 256) (h % 256)
      (c / 256) (c % 256) payload chunks hstate hcl hjl
      (Or.inr (by rw [FromBE16_div_mod]; exact ⟨h0, hlt⟩)) hP
    rw [FromBE16_div_mod, FromBE16_div_mod] at hc1
    refine ⟨c1, buf, hr, ?_⟩
    subst hc1
    rw [if_neg (by omega), if_neg (by omega)]
    exact AjpClient.AbortResponse_body (c0.open_chunk c (h - 3 - c))
      "excess chunk length in AJP SEND_BODY_CHUNK packet" hstate
  · intro hgood hrem hlen
    obtain ⟨c1, buf, hr, hb, hin⟩ := AjpClient.Receive_chunk_good env c0 (h / 256) (h % 256)
      (c / 256) (c % 256) payload chunks hstate hcl hjl
      (by rw [FromBE16_div_mod, FromBE16_div_mod]; omega)
      (by
        rw [FromBE16_div_mod]
        intro hx
        rcases hrem with h1 | h1 <;> omega)
      (by rw [FromBE16_div_mod]; exact hlen) hP
    rw [FromBE16_div_mod, FromBE16_div_mod] at hin
    subst hb
    obtain ⟨i1, i2, i3, i4, i5, i6⟩ := hin
    have hmin : min payload.length c = c := by omega
    rw [hmin] at i2 i3 i4 i5
    exact ⟨c1, hr, i1, by omega, by omega, i4, i5, i6⟩

/-- Witness for C4: a chunk `hello` with one byte of junk, split into three
parts, no length announced. -/
theorem ajp_body_chunk_framing_witness :
    (5 + 3 > 9 →
      ∃ c1 buf, AjpClient.Receive ajp_plain_env ajp_consume_all (AjpClient.reading_body (-1)) () []
          [[65, 66, 0], [9, 3, 0, 5, 104, 101], [108, 108, 111, 0]] = some (c1, (), buf) ∧
        c1.read_state = READ_END ∧
        ajp_delivered c1.trace = ajp_delivered (AjpClient.reading_body (-1)).trace ∧
        (.body_abort "malformed AJP SEND_BODY_CHUNK packet" ∈ c1.trace ∨
          .body_abort "malformed AJP response packet" ∈ c1.trace)) ∧
    (5 + 3 ≤ 9 → 0 ≤ (AjpClient.reading_body (-1)).remaining →
      (AjpClient.reading_body (-1)).remaining < (5 : Nat) →
      ∃ c1 buf, AjpClient.Receive ajp_plain_env ajp_consume_all (AjpClient.reading_body (-1)) () []
          [[65, 66, 0], [9, 3, 0, 5, 104, 101], [108, 108, 111, 0]] = some (c1, (), buf) ∧
        c1.read_state = READ_END ∧
        ajp_delivered c1.trace = ajp_delivered (AjpClient.reading_body (-1)).trace ∧
        .body_abort "excess chunk length in AJP SEND_BODY_CHUNK packet" ∈ c1.trace) ∧
    (5 + 3 ≤ 9 →
      ((AjpClient.reading_body (-1)).remaining < 0 ∨
        ((5 : Nat) : Int) ≤ (AjpClient.reading_body (-1)).remaining) →
      [104, 101, 108, 108, 111, 0].length + 3 = 9 →
      ∃ c1, AjpClient.Receive ajp_plain_env ajp_consume_all (AjpClient.reading_body (-1)) () []
          [[65, 66, 0], [9, 3, 0, 5, 104, 101], [108, 108, 111, 0]] = some (c1, (), []) ∧
        c1.read_state = READ_BODY ∧ c1.chunk_length = 0 ∧ c1.junk_length = 0 ∧
        c1.remaining = (AjpClient.reading_body (-1)).remaining - (5 : Nat) ∧
        ajp_delivered c1.trace = ajp_delivered (AjpClient.reading_body (-1)).trace ++
          [104, 101, 108, 108, 111, 0].take 5 ∧
        ∃ evs, c1.trace = (AjpClient.reading_body (-1)).trace ++ evs ∧
          ∀ e ∈ evs, e.is_body_data = true) :=
  ajp_body_chunk_framing ajp_plain_env (AjpClient.reading_body (-1)) 9 5
    [104, 101, 108, 108, 111, 0] [[65, 66, 0], [9, 3, 0, 5, 104, 101], [108, 108, 111, 0]]
    rfl rfl rfl (by decide)
/-! ## AJPv13 client: the response to a request without response body -/

theorem AjpClient.FeedPacket_chunk_header_no_body {σ : Type} (env : ajp_env)
    (h : ajp_handler σ) (c : AjpClient) (hs : σ) (hh hl ch cl : Nat) (rest : List Nat) (k0 : Nat)
    (hstate : c.read_state = READ_NO_BODY)
    (hgood : 3 + FromBE16 ch cl ≤ FromBE16 hh hl) :
    AjpClient.FeedPacket env h
        { client := c, hs := hs, data := 65 :: 66 :: hh :: hl :: 3 :: ch :: cl :: rest,
          consumed := k0 } =
      .next { client := c.open_chunk 0 (FromBE16 hh hl - 3), hs := hs, data := rest,
              consumed := k0 + 7 } := by
  have hj : FromBE16 hh hl - 3 - FromBE16 ch cl + FromBE16 ch cl = FromBE16 hh hl - 3 := by
    omega
  unfold AjpClient.FeedPacket
  simp only [List.length_cons, List.getD_cons_zero, List.getD_cons_succ, AJP_CODE_SEND_BODY_CHUNK,
    hstate, AjpClient.open_chunk, hj]
  split_ifs <;> first | rfl | omega | skip
  all_goals
    exfalso
    rename_i hx
    first
      | exact hx.2 rfl
      | (have a' : c.remaining ≥ 0 := hx.1
         have b' : ((0 : Nat) : Int) > c.remaining := hx.2
         push_cast at b'
         omega)

/-- `Feed` in `READ_NO_BODY` on a well-formed body chunk packet, or its first
part: all the bytes are consumed, none is passed on. -/
theorem AjpClient.Feed_chunk_no_body {σ : Type} (env : ajp_env) (h : ajp_handler σ)
    (c : AjpClient) (hs : σ) (hh cc : Nat) (rest : List Nat)
    (hstate : c.read_state = READ_NO_BODY) (hc : c.chunk_length = 0) (hj : c.junk_length = 0)
    (hgood : cc + 3 ≤ hh) (hrest : rest.length + 3 ≤ hh) :
    AjpClient.Feed env h c hs (ajp_body_chunk_packet hh cc rest) =
      some (.MORE, { client := c.open_chunk 0 (hh - 3 - rest.length), hs := hs, data := [],
                     consumed := 7 + rest.length }) := by
  have hP : ajp_body_chunk_packet hh cc rest =
      65 :: 66 :: (hh / 256) :: (hh % 256) :: 3 :: (cc / 256) :: (cc % 256) :: rest := by
    simp [ajp_body_chunk_packet, ajp_packet, AJP_CODE_SEND_BODY_CHUNK]
  have hcheck : (c.read_state != READ_END &&
      (65 :: 66 :: (hh / 256) :: (hh % 256) :: 3 :: (cc / 256) :: (cc % 256) :: rest) != []) =
      true := by
    simp [hstate]
  rw [hP]
  unfold AjpClient.Feed
  simp only [hcheck, AjpClient.check_true, List.length_cons]
  have hb := AjpClient.FeedBody_at_boundary env h
    { client := c, hs := hs,
      data := 65 :: 66 :: (hh / 256) :: (hh % 256) :: 3 :: (cc / 256) :: (cc % 256) :: rest,
      consumed := 0 } hc hj
  rw [AjpClient.FeedPacket_chunk_header_no_body env h c hs _ _ _ _ rest 0 hstate
    (by rw [FromBE16_div_mod, FromBE16_div_mod]; omega), FromBE16_div_mod] at hb
  rw [AjpClient.FeedLoop_next env _ _ _ _ hb]
  simp only [Nat.zero_add]
  by_cases hr : rest = []
  · subst hr
    simp
  · simp only [hr, ne_eq, not_false_eq_true, if_true]
    have hb2 : AjpClient.FeedBody env h
        { client := c.open_chunk 0 (hh - 3), hs := hs, data := rest, consumed := 7 } =
        .ret .MORE { client := c.open_chunk 0 (hh - 3 - rest.length), hs := hs, data := [],
                     consumed := 7 + rest.length } := by
      unfold AjpClient.FeedBody
      simp only [AjpClient.open_chunk, hstate, or_true, if_true, lt_irrefl, gt_iff_lt, if_false]
      rw [AjpClient.FeedJunk_in_junk env h _ hs rest 7 hr (by simp only []; omega)]
    exact AjpClient.FeedLoop_ret env _ _ _ _ _ hb2

/-- `Feed` in `READ_NO_BODY` at a packet boundary on the `END_RESPONSE`
packet: the socket is released and the response callback is called with the
stored status and headers and a null body. -/
theorem AjpClient.Feed_end_no_body {σ : Type} (env : ajp_env) (h : ajp_handler σ)
    (c : AjpClient) (hs : σ)
    (hstate : c.read_state = READ_NO_BODY) (hc : c.chunk_length = 0) (hj : c.junk_length = 0) :
    AjpClient.Feed env h c hs ajp_end_response_packet =
      some (.CLOSED,
        { client := (({ c with read_state := READ_END }).Release true).emit
            (.response c.status c.headers false),
          hs := hs, data := [], consumed := 5 }) := by
  have hcheck : (c.read_state != READ_END && ajp_end_response_packet != []) = true := by
    simp [hstate, ajp_end_response_packet, ajp_packet]
  unfold AjpClient.Feed
  simp only [hcheck, AjpClient.check_true]
  apply AjpClient.FeedLoop_ret
  rw [AjpClient.FeedBody_at_boundary env h _ hc hj]
  have r := ({ c with read_state := READ_END }).Release_spec true
  unfold AjpClient.FeedPacket AjpClient.ConsumePacket
  simp [ajp_end_response_packet, ajp_packet, FromBE16, AJP_CODE_END_RESPONSE,
    AJP_CODE_SEND_BODY_CHUNK, AJP_CODE_FORWARD_REQUEST, AJP_CODE_SHUTDOWN, AJP_CODE_CPING,
    AJP_CODE_SEND_HEADERS, hstate, r.2.2.1, r.2.2.2.1]

theorem AjpClient.ConsumeSendHeaders_no_body {σ : Type} (env : ajp_env) (h : ajp_handler σ)
    (c0 : AjpClient) (hs0 : σ) (payload : List Nat) (status : Nat) (headers : Option strmap)
    (hbegin : c0.read_state = READ_BEGIN) (hnb : c0.no_body = true)
    (hdes : env.deserialize payload = some (status, headers))
    (hvalid : env.http_status_is_valid status = true) :
    c0.ConsumeSendHeaders env h hs0 payload =
      (true, c0.wait_no_body status headers, hs0) := by
  unfold AjpClient.ConsumeSendHeaders AjpClient.wait_no_body
  simp [hbegin, hdes, hvalid, hnb]
/-- C8: an exchange started with a method for which no response body is
expected (`no_body`, set for HEAD).  After `SEND_HEADERS` the client waits in
`READ_NO_BODY` without having called the handler.  Whatever is fed to it
afterwards, `Feed` returns, no body data is ever offered to a body handler,
and the response callback is called at most once, then with the status and
headers of `SEND_HEADERS` and a null body and only together with the end of
the client; it is not called while no byte `END_RESPONSE` has been fed.  A
well-formed `SEND_BODY_CHUNK` packet is consumed entirely as junk, and the
`END_RESPONSE` packet makes the client call the response callback. -/
theorem ajp_head_response_without_body {σ : Type} (env : ajp_env) (h : ajp_handler σ)
    (c0 : AjpClient) (hs0 : σ) (payload : List Nat) (status : Nat) (headers : Option strmap)
    (feeds : List (List Nat))
    (hbegin : c0.read_state = READ_BEGIN) (hno_body : c0.no_body = true)
    (htrace : c0.trace = [])
    (hdes : env.deserialize payload = some (status, headers))
    (hvalid : env.http_status_is_valid status = true) :
    ∃ c1, c0.ConsumeSendHeaders env h hs0 payload = (true, c1, hs0) ∧
      c1.read_state = READ_NO_BODY ∧ c1.trace = [] ∧
      (∃ c2 hs2, AjpClient.FeedAll env h c1 hs0 feeds = some (c2, hs2) ∧
        (∀ e ∈ c2.trace, e.is_body_data = false) ∧
        (ajp_responses c2.trace = [] ∨
          (ajp_responses c2.trace = [.response status headers false] ∧
            c2.read_state = READ_END)) ∧
        ((∀ x ∈ feeds, AJP_CODE_END_RESPONSE ∉ x) → ajp_responses c2.trace = [])) ∧
      (∀ (c : AjpClient) (hs : σ) (hh cc : Nat) (rest : List Nat),
        c.read_state = READ_NO_BODY → c.chunk_length = 0 → c.junk_length = 0 →
        cc + 3 ≤ hh → rest.length + 3 ≤ hh →
        AjpClient.Feed env h c hs (ajp_body_chunk_packet hh cc rest) =
          some (.MORE, { client := c.open_chunk 0 (hh - 3 - rest.length), hs := hs, data := [],
                         consumed := 7 + rest.length })) ∧
      (∀ (c : AjpClient) (hs : σ),
        c.read_state = READ_NO_BODY → c.chunk_length = 0 → c.junk_length = 0 →
        AjpClient.Feed env h c hs ajp_end_response_packet =
          some (.CLOSED,
            { client := (({ c with read_state := READ_END }).Release true).emit
                (.response c.status c.headers false),
              hs := hs, data := [], consumed := 5 })) := by
  have hsh := AjpClient.ConsumeSendHeaders_no_body env h c0 hs0 payload status headers hbegin
    hno_body hdes hvalid
  refine ⟨_, hsh, rfl, htrace, ?_, ?_, ?_⟩
  · have ht : (c0.wait_no_body status headers).trace = [] := htrace
    have hw : AjpClient.head_waiting status headers (c0.wait_no_body status headers) := by
      refine ⟨rfl, rfl, rfl, rfl, ?_, ?_⟩
      · intro e he
        rw [ht] at he
        cases he
      · rw [ht]; rfl
    obtain ⟨c2, hs2, hf, hany, hq⟩ :=
      AjpClient.FeedAll_head env h status headers feeds _ hs0 (Or.inl hw)
    refine ⟨c2, hs2, hf, ?_, ?_, fun hx => hq hx hw.2.2.2.2.2⟩
    · rcases hany with hx | hx
      · exact hx.2.2.2.2.1
      · exact hx.2.1
    · rcases hany with hx | hx
      · exact Or.inl hx.2.2.2.2.2
      · rcases hx.2.2 with hy | hy
        · exact Or.inl hy
        · exact Or.inr ⟨hy, hx.1⟩
  · intro c hs hh cc rest h1 h2 h3 h4 h5
    exact AjpClient.Feed_chunk_no_body env h c hs hh cc rest h1 h2 h3 h4 h5
  · intro c hs h1 h2 h3
    exact AjpClient.Feed_end_no_body env h c hs h1 h2 h3

/-- Witness for C8: a HEAD exchange with status 200, a body chunk and the end
of the response. -/
theorem ajp_head_response_without_body_witness :
    ∃ c1, (AjpClient.start true).ConsumeSendHeaders ajp_plain_env ajp_consume_all () [0, 200] =
        (true, c1, ()) ∧
      c1.read_state = READ_NO_BODY ∧ c1.trace = [] ∧
      (∃ c2 hs2, AjpClient.FeedAll ajp_plain_env ajp_consume_all c1 ()
          [[65, 66, 0, 8, 3, 0, 5, 104, 101, 108, 108, 111], [65, 66, 0, 1, 5]] =
          some (c2, hs2) ∧
        (∀ e ∈ c2.trace, e.is_body_data = false) ∧
        (ajp_responses c2.trace = [] ∨
          (ajp_responses c2.trace = [.response 200 none false] ∧ c2.read_state = READ_END)) ∧
        ((∀ x ∈ [[65, 66, 0, 8, 3, 0, 5, 104, 101, 108, 108, 111], [65, 66, 0, 1, 5]],
            AJP_CODE_END_RESPONSE ∉ x) → ajp_responses c2.trace = [])) ∧
      (∀ (c : AjpClient) (hs : Unit) (hh cc : Nat) (rest : List Nat),
        c.read_state = READ_NO_BODY → c.chunk_length = 0 → c.junk_length = 0 →
        cc + 3 ≤ hh → rest.length + 3 ≤ hh →
        AjpClient.Feed ajp_plain_env ajp_consume_all c hs (ajp_body_chunk_packet hh cc rest) =
          some (.MORE, { client := c.open_chunk 0 (hh - 3 - rest.length), hs := hs, data := [],
                         consumed := 7 + rest.length })) ∧
      (∀ (c : AjpClient) (hs : Unit),
        c.read_state = READ_NO_BODY → c.chunk_length = 0 → c.junk_length = 0 →
        AjpClient.Feed ajp_plain_env ajp_consume_all c hs ajp_end_response_packet =
          some (.CLOSED,
            { client := (({ c with read_state := READ_END }).Release true).emit
                (.response c.status c.headers false),
              hs := hs, data := [], consumed := 5 })) :=
  ajp_head_response_without_body ajp_plain_env ajp_consume_all (AjpClient.start true) ()
    [0, 200] 200 none _ rfl rfl rfl (by decide) (by decide)
/-! ## WAS input -/

/-- C6: for an input that has received 5 bytes, all of them passed on,
`was_input_set_length(input, 3)` does not abort the stream: it runs into
`Eof()` with `received != length` and reports end-of-file; and when one of
the 5 bytes is still in the buffer it returns true and leaves the stream with
`received > length`.  `was_input_premature` refuses the same length. -/
theorem was_input_set_length_below_received :
    (was_input_set_length (WasInput.receiving 5 []) 3).1 = false ∧
    (was_input_set_length (WasInput.receiving 5 []) 3).2.trace =
      [.assertion "Eof: received == length", .handler_eof, .destroy_eof] ∧
    (was_input_set_length (WasInput.receiving 5 [7]) 3).1 = true ∧
    (was_input_set_length (WasInput.receiving 5 [7]) 3).2.trace = [] ∧
    (was_input_set_length (WasInput.receiving 5 [7]) 3).2.received >
      (was_input_set_length (WasInput.receiving 5 [7]) 3).2.length ∧
    was_input_premature (WasInput.receiving 5 []) 3 =
      (false, (WasInput.receiving 5 []).AbortError
        "announced premature length is too small") := by
  decide

/-! ## AJPv13 client: a response body of announced length -/

theorem AjpClient.quiet_step_eof {c c' : AjpClient} (h : c.quiet_step c')
    (hc : ajp_event.body_eof ∉ c.trace) : ajp_event.body_eof ∉ c'.trace := by
  obtain ⟨evs, ht, hq⟩ := h
  rw [ht]
  intro hm
  rcases List.mem_append.mp hm with h1 | h1
  · exact hc h1
  · have := hq _ h1
    simp [ajp_event.quiet] at this

theorem AjpClient.body_done_of_abort {N : Nat} {c c' : AjpClient}
    (hw : ajp_event.body_eof ∉ c.trace) (hq : c.quiet_step c')
    (he : c'.read_state = READ_END) : c'.body_done N :=
  ⟨he, fun hm => absurd hm (quiet_step_eof hq hw)⟩

theorem AjpClient.body_abort_any {N : Nat} {c c' : AjpClient} (hw : c.body_reading N)
    (ht : c'.trace = c.trace) (msg : String) : (c'.AbortResponse msg).body_any N :=
  Or.inr (body_done_of_abort hw.2.1 (quiet_step_trans (quiet_step_of_trace_eq ht)
    (c'.AbortResponse_spec msg).1) (c'.AbortResponse_spec msg).2.1)

theorem AjpClient.body_reading_of_quiet {N : Nat} {c c' : AjpClient}
    (hw : c.body_reading N) (hq : c.quiet_step c')
    (h1 : c'.read_state = c.read_state) (h2 : c'.chunk_length = c.chunk_length)
    (h3 : c'.remaining = c.remaining) : c'.body_reading N :=
  ⟨h1.trans hw.1, quiet_step_eof hq hw.2.1, by rw [quiet_step_delivered hq, h3]; exact hw.2.2.1,
    by rw [h2, h3]; exact hw.2.2.2⟩

/-- `ConsumePacket` while reading a body of announced length: end-of-file is
signalled only when nothing remains. -/
theorem AjpClient.ConsumePacket_body {σ : Type} (env : ajp_env) (h : ajp_handler σ)
    (N : Nat) (c : AjpClient) (hs : σ) (code : Nat) (data : List Nat) (se : Bool)
    (hw : c.body_reading N) :
    ((c.ConsumePacket env h hs code data se).1 = true →
      (c.ConsumePacket env h hs code data se).2.1.body_reading N) ∧
    (c.ConsumePacket env h hs code data se).2.1.body_any N := by
  obtain ⟨h1, h2, h3, h4⟩ := hw
  have hw : c.body_reading N := ⟨h1, h2, h3, h4⟩
  have hnbeg : c.read_state ≠ READ_BEGIN := by rw [h1]; decide
  unfold AjpClient.ConsumePacket
  split_ifs with g1 g2 g3 g4 g5
  all_goals first
    | exact ⟨by simp, body_abort_any hw rfl _⟩
    | exact ⟨fun _ => hw, Or.inl hw⟩
    | skip
  · have hq := quiet_step_emit c (.assertion "ConsumePacket") rfl
    exact ⟨by simp, Or.inl (body_reading_of_quiet hw hq rfl rfl rfl)⟩
  · unfold AjpClient.ConsumeSendHeaders
    rw [if_pos hnbeg]
    have r := c.AbortResponseBody_spec "unexpected SEND_HEADERS packet from AJP server"
    exact ⟨by simp, Or.inr (body_done_of_abort h2 r.1 r.2.1)⟩
  · have r := (({ c with read_state := READ_END }).emit .body_eof).Release_spec true
    refine ⟨by simp, Or.inr ⟨?_, fun _ => ?_⟩⟩
    · show ((({ c with read_state := READ_END }).emit .body_eof).Release true).read_state =
        READ_END
      rw [r.2.1]; rfl
    · show (ajp_delivered ((({ c with read_state := READ_END }).emit .body_eof).Release
        true).trace).length = N
      rw [quiet_step_delivered r.1]
      simp only [AjpClient.emit_trace, ajp_delivered_append, ajp_delivered, List.append_nil]
      have hc : (0 : Int) ≤ c.chunk_length := Int.natCast_nonneg _
      omega
  · have hq := quiet_step_emit c (.body_request (FromBE16 (data.getD 0 0) (data.getD 1 0))) rfl
    exact ⟨fun _ => body_reading_of_quiet hw hq rfl rfl rfl,
      Or.inl (body_reading_of_quiet hw hq rfl rfl rfl)⟩
theorem AjpClient.FeedPacket_body {σ : Type} (env : ajp_env) (h : ajp_handler σ)
    (N : Nat) (l : ajp_feed_locals σ) (hw : l.client.body_reading N) :
    (AjpClient.FeedPacket env h l).holds
      (fun l1 => l1.client.body_reading N) (fun l1 => l1.client.body_any N) := by
  have r := AjpClient.ConsumePacket_body env h N l.client l.hs (l.data.getD 4 0)
    ((l.data.drop 5).take (FromBE16 (l.data.getD 2 0) (l.data.getD 3 0) - 1))
    (l.data.length == 4 + FromBE16 (l.data.getD 2 0) (l.data.getD 3 0)) hw
  have hc0 : (0 : Int) ≤ l.client.chunk_length := Int.natCast_nonneg _
  unfold AjpClient.FeedPacket
  simp only []
  split_ifs with g1
  all_goals simp only [ajp_feed_step.holds_next, ajp_feed_step.holds_ret]
  rotate_right 2
  · exact r.2
  · refine r.1 ?_
    rename_i hh
    simpa using hh
  · exact Or.inl hw
  · exact body_abort_any hw (by rfl) _
  · exact body_abort_any hw (by rfl) _
  · exact Or.inl hw
  · exact body_abort_any hw (by rfl) _
  · exact body_abort_any hw (by rfl) _
  · rename_i hx _
    rw [hw.1] at hx
    exact absurd hx (by decide)
  · exact body_abort_any hw (by rfl) _
  · rename_i hx
    refine ⟨hw.1, hw.2.1, hw.2.2.1, ?_⟩
    have h4 := hw.2.2.2
    dsimp only at hx ⊢
    by_contra hcon
    exact hx ⟨by omega, by omega⟩
  · exact Or.inl hw

theorem AjpClient.FeedJunk_body {σ : Type} (env : ajp_env) (h : ajp_handler σ)
    (N : Nat) (l : ajp_feed_locals σ) (hw : l.client.body_reading N) :
    (AjpClient.FeedJunk env h l).holds
      (fun l1 => l1.client.body_reading N) (fun l1 => l1.client.body_any N) := by
  unfold AjpClient.FeedJunk
  simp only []
  have hw1 : (l.client.ConsumeBodyJunk l.data.length).2.body_reading N :=
    body_reading_of_quiet hw (quiet_step_of_trace_eq rfl) rfl rfl rfl
  split_ifs
  · exact Or.inl hw1
  · exact AjpClient.FeedPacket_body env h N _ hw1
  · exact AjpClient.FeedPacket_body env h N l hw
/-- `ConsumeBodyChunk` while reading a body of announced length, with a
handler that keeps the istream contract. -/
theorem AjpClient.ConsumeBodyChunk_body {σ : Type} (h : ajp_handler σ) (hc : h.contract)
    (N : Nat) (c : AjpClient) (hs : σ) (data : List Nat) (hw : c.body_reading N) :
    (c.ConsumeBodyChunk h hs data).2.1.body_any N ∧
    ((c.ConsumeBodyChunk h hs data).1 ≠ 0 → (c.ConsumeBodyChunk h hs data).2.1.body_reading N) := by
  obtain ⟨h1, h2, h3, h4⟩ := hw
  unfold AjpClient.ConsumeBodyChunk
  simp only []
  generalize hoff : data.take (if data.length > c.chunk_length then c.chunk_length
    else data.length) = offered
  have hlen : offered.length ≤ c.chunk_length := by
    rw [← hoff, List.length_take]
    split_ifs <;> omega
  obtain ⟨hn, hcl⟩ := hc hs offered
  generalize (h.body_data hs offered) = d at hn hcl ⊢
  have he1 : ajp_event.body_eof ∉ (c.emit (.body_data offered d.2.1)).trace := by
    rw [AjpClient.emit_trace]
    intro hm
    rcases List.mem_append.mp hm with hm | hm
    · exact h2 hm
    · simp at hm
  have hd1 : ajp_delivered (c.emit (.body_data offered d.2.1)).trace =
      ajp_delivered c.trace ++ offered.take d.2.1 := by
    rw [AjpClient.emit_trace, ajp_delivered_append]
    simp [ajp_delivered]
  by_cases hclosed : d.2.2 = true
  · have hz := hcl hclosed
    rw [if_pos hclosed, if_neg (by omega)]
    have r := (c.emit (.body_data offered d.2.1)).istream_ajp_close_spec
    exact ⟨Or.inr (body_done_of_abort he1 r.1 r.2), fun hne => absurd hz hne⟩
  · rw [if_neg hclosed]
    have key : ∀ c3 : AjpClient, c3.read_state = c.read_state →
        c3.trace = (c.emit (.body_data offered d.2.1)).trace →
        c3.chunk_length = c.chunk_length - d.2.1 → c3.remaining = c.remaining - d.2.1 →
        c3.body_reading N := by
      intro c3 e1 e2 e3 e4
      refine ⟨e1.trans h1, by rw [e2]; exact he1, ?_, ?_⟩
      · rw [e2, hd1, e4, List.length_append, List.length_take, Nat.min_eq_left hn]
        push_cast
        omega
      · rw [e3, e4]
        omega
    by_cases hpos : d.2.1 > 0
    · rw [if_pos hpos]
      refine ⟨Or.inl (key _ ?_ ?_ ?_ ?_), fun _ => key _ ?_ ?_ ?_ ?_⟩ <;> rfl
    · rw [if_neg hpos]
      have hz : d.2.1 = 0 := by omega
      have := key (c.emit (.body_data offered d.2.1)) rfl rfl (by rw [hz]; rfl)
        (by rw [hz]; simp [AjpClient.emit])
      exact ⟨Or.inl this, fun _ => this⟩

theorem AjpClient.FeedBody_body {σ : Type} (env : ajp_env) (h : ajp_handler σ)
    (hc : h.contract) (N : Nat) (l : ajp_feed_locals σ) (hw : l.client.body_reading N) :
    (AjpClient.FeedBody env h l).holds
      (fun l1 => l1.client.body_reading N) (fun l1 => l1.client.body_any N) := by
  have r := AjpClient.ConsumeBodyChunk_body h hc N l.client l.hs l.data hw
  unfold AjpClient.FeedBody
  simp only []
  rw [if_pos (Or.inl hw.1)]
  split_ifs with g1 g2 g3
  all_goals first
    | exact r.1
    | exact AjpClient.FeedJunk_body env h N l hw
    | exact AjpClient.FeedJunk_body env h N _ (r.2 (by assumption))

/-- `Feed` while reading a body of announced length returns; afterwards the
client still reads the body, with delivered and remaining bytes adding up to
the announced length, or it is gone, and end-of-file was signalled only after
the announced number of bytes. -/
theorem AjpClient.Feed_body {σ : Type} (env : ajp_env) (h : ajp_handler σ)
    (hc : h.contract) (N : Nat) (c : AjpClient) (hs : σ) (data : List Nat)
    (hw : c.body_reading N) :
    ∃ r, AjpClient.Feed env h c hs data = some r ∧ r.2.client.body_any N := by
  unfold AjpClient.Feed
  exact AjpClient.FeedLoop_total env h _ _
    (fun l hl => AjpClient.FeedBody_body env h hc N l hl)
    (fun l hl => Or.inl hl) _ _ (Nat.lt_succ_self _)
    (body_reading_of_quiet hw (c.check_quiet _ _) (c.check_fields _ _).1
      (c.check_fields _ _).2.2.2.2.1 (c.check_fields _ _).2.2.2.1)

theorem AjpClient.FeedAll_body {σ : Type} (env : ajp_env) (h : ajp_handler σ)
    (hc : h.contract) (N : Nat) (feeds : List (List Nat)) :
    ∀ (c : AjpClient) (hs : σ), c.body_any N →
      ∃ c2 hs2, AjpClient.FeedAll env h c hs feeds = some (c2, hs2) ∧ c2.body_any N := by
  induction feeds with
  | nil => intro c hs hc; exact ⟨c, hs, rfl, hc⟩
  | cons x xs ih =>
    intro c hs hc1
    unfold AjpClient.FeedAll
    split_ifs with e1 e2
    · exact ⟨c, hs, rfl, hc1⟩
    · exact ih c hs hc1
    · have hw : c.body_reading N := by
        rcases hc1 with hc1 | hc1
        · exact hc1
        · exact absurd hc1.1 e1
      obtain ⟨r, hr, hq⟩ := AjpClient.Feed_body env h hc N c hs x hw
      rw [hr]
      exact ih r.2.client r.2.hs hq
theorem to_off_t_of_lt (N : Nat) (hN : N < 2 ^ 63) : to_off_t N = N := by
  unfold to_off_t
  have h1 : N % 2 ^ 64 = N := Nat.mod_eq_of_lt (by omega)
  rw [h1, if_pos hN]

/-- `SEND_HEADERS` with a `Content-Length` header: the response is passed to
the handler and the client reads a body of the announced length, or it is
gone because the handler has closed the body. -/
theorem AjpClient.ConsumeSendHeaders_length {σ : Type} (env : ajp_env) (h : ajp_handler σ)
    (c0 : AjpClient) (hs0 : σ) (payload : List Nat) (status : Nat) (headers : Option strmap)
    (v : String) (N : Nat)
    (hbegin : c0.read_state = READ_BEGIN) (hnb : c0.no_body = false) (htrace : c0.trace = [])
    (hdes : env.deserialize payload = some (status, headers))
    (hvalid : env.http_status_is_valid status = true)
    (hempty : env.http_status_is_empty status = false)
    (hcl : (strmap_remove_checked headers "content-length").2 = some v)
    (hparse : strtoul v.toList = (N, v.length)) (hv : v.length ≠ 0) (hN : N < 2 ^ 63) :
    (c0.ConsumeSendHeaders env h hs0 payload).2.1.body_any N := by
  unfold AjpClient.ConsumeSendHeaders
  simp only [hbegin, hdes, hvalid, hnb, hempty, hcl, hparse, ne_eq, not_true_eq_false,
    if_false, Bool.not_true, Bool.false_eq_true, Bool.or_self, hv, or_self,
    to_off_t_of_lt N hN]
  unfold AjpClient.ConsumeSendHeadersBody
  simp only []
  have he : ajp_event.body_eof ∉ [ajp_event.response status
      (strmap_remove_checked headers "content-length").1 true] := by simp
  split_ifs with hd
  · refine Or.inr ⟨?_, fun hm => absurd hm ?_⟩
    · exact (istream_ajp_close_spec _).2
    · refine quiet_step_eof (istream_ajp_close_spec _).1 ?_
      rw [AjpClient.emit_trace, htrace]
      exact he
  · refine Or.inl ⟨rfl, ?_, ?_, ?_⟩
    · show ajp_event.body_eof ∉ (AjpClient.emit _ _).trace
      rw [AjpClient.emit_trace, htrace]
      exact he
    · show ((ajp_delivered (AjpClient.emit _ _).trace).length : Int) + (N : Int) = N
      rw [AjpClient.emit_trace, htrace]
      simp [ajp_delivered]
    · show ((0 : Nat) : Int) ≤ (N : Int)
      omega

/-- A body chunk announced at a packet boundary that is longer than what
remains of the body: `Feed` aborts the response. -/
theorem AjpClient.Feed_excess_chunk {σ : Type} (env : ajp_env) (h : ajp_handler σ)
    (c : AjpClient) (hs : σ) (hh hl ch cl : Nat) (rest : List Nat)
    (hstate : c.read_state = READ_BODY) (hc : c.chunk_length = 0) (hj : c.junk_length = 0)
    (hfit : 3 + FromBE16 ch cl ≤ FromBE16 hh hl)
    (hex : c.remaining ≥ 0 ∧ (FromBE16 ch cl : Int) > c.remaining) :
    AjpClient.Feed env h c hs (65 :: 66 :: hh :: hl :: 3 :: ch :: cl :: rest) =
      some (.CLOSED,
        { client := (c.open_chunk (FromBE16 ch cl)
            (FromBE16 hh hl - 3 - FromBE16 ch cl)).AbortResponse
            "excess chunk length in AJP SEND_BODY_CHUNK packet", hs := hs,
          data := 65 :: 66 :: hh :: hl :: 3 :: ch :: cl :: rest, consumed := 0 }) := by
  have hchk : (c.read_state != READ_END &&
      (65 :: 66 :: hh :: hl :: 3 :: ch :: cl :: rest) != []) = true := by
    simp [hstate]
  unfold AjpClient.Feed
  simp only [hchk, AjpClient.check_true]
  refine AjpClient.FeedLoop_ret env h _ _ _ _ ?_
  rw [AjpClient.FeedBody_at_boundary env h _ hc hj,
    AjpClient.FeedPacket_chunk_header env h c hs hh hl ch cl rest 0 hstate,
    if_neg (by omega), if_neg (by omega), if_pos hex]

/-- An `END_RESPONSE` packet at a packet boundary while body bytes remain:
`Feed` aborts the response. -/
theorem AjpClient.Feed_premature_end {σ : Type} (env : ajp_env) (h : ajp_handler σ)
    (c : AjpClient) (hs : σ) (hh hl : Nat) (rest : List Nat)
    (hstate : c.read_state = READ_BODY) (hc : c.chunk_length = 0) (hj : c.junk_length = 0)
    (h0 : FromBE16 hh hl ≠ 0) (hlen : FromBE16 hh hl ≤ rest.length + 1)
    (hrem : c.remaining > 0) :
    AjpClient.Feed env h c hs (65 :: 66 :: hh :: hl :: 5 :: rest) =
      some (.CLOSED,
        { client := c.AbortResponse "premature end of response AJP server", hs := hs,
          data := (65 :: 66 :: hh :: hl :: 5 :: rest).drop (4 + FromBE16 hh hl),
          consumed := 0 + (4 + FromBE16 hh hl) }) := by
  have hchk : (c.read_state != READ_END &&
      (65 :: 66 :: hh :: hl :: 5 :: rest) != []) = true := by
    simp [hstate]
  unfold AjpClient.Feed
  simp only [hchk, AjpClient.check_true]
  refine AjpClient.FeedLoop_ret env h _ _ _ _ ?_
  rw [AjpClient.FeedBody_at_boundary env h _ hc hj]
  unfold AjpClient.FeedPacket
  have hl2 : ¬ (rest.length + 1 + 1 + 1 + 1 + 1 < 4 + FromBE16 hh hl) := by omega
  simp only [List.length_cons, List.getD_cons_zero, List.getD_cons_succ, AJP_CODE_SEND_BODY_CHUNK,
    h0, hl2, AjpClient.ConsumePacket, AJP_CODE_FORWARD_REQUEST, AJP_CODE_SHUTDOWN,
    AJP_CODE_CPING, AJP_CODE_SEND_HEADERS, AJP_CODE_END_RESPONSE, hstate, hrem]
  simp
theorem ajp_consume_all_contract : ajp_consume_all.contract := by
  intro s bytes
  exact ⟨Nat.le_refl _, fun hf => absurd (show false = true from hf) (by decide)⟩

/-- C5: an announced length that does not fit into the signed 64-bit
`off_t` is not respected.  `SEND_HEADERS` with
`Content-Length: 9223372036854775808` (`2 ^ 63`) is accepted:
`ConsumeSendHeaders` stores the `unsigned long` of `strtoul` in
`response.remaining` without a range check, the number of remaining bytes
becomes negative, the two tests of the announced length are off, and an
`END_RESPONSE` packet right after it signals end-of-file although none of the
announced bytes was delivered. -/
theorem ajp_content_length_overflow_eof :
    strtoul "9223372036854775808".toList = (2 ^ 63, 19) ∧
    ((AjpClient.start false).ConsumeSendHeaders ajp_length_env ajp_consume_all ()
        [57, 50, 50, 51, 51, 55, 50, 48, 51, 54, 56, 53, 52, 55, 55, 53, 56, 48, 56]).1 = true ∧
    ((AjpClient.start false).ConsumeSendHeaders ajp_length_env ajp_consume_all ()
        [57, 50, 50, 51, 51, 55, 50, 48, 51, 54, 56, 53, 52, 55, 55, 53, 56, 48, 56]).2.1.remaining
      = -(2 ^ 63) ∧
    (AjpClient.Feed ajp_length_env ajp_consume_all
        ((AjpClient.start false).ConsumeSendHeaders ajp_length_env ajp_consume_all ()
          [57, 50, 50, 51, 51, 55, 50, 48, 51, 54, 56, 53, 52, 55, 55, 53, 56, 48, 56]).2.1 ()
        ajp_end_response_packet).map
      (fun r => (r.1, r.2.client.read_state, ajp_delivered r.2.client.trace, r.2.client.trace)) =
      some (.CLOSED, READ_END, [],
        [.response 200 (some []) true, .body_eof, .lease_release true]) := by
  decide

/-- The announced length is respected when it fits into `off_t`: a
response whose `SEND_HEADERS` packet announced a `Content-Length` of
`N < 2 ^ 63` (a body is expected, the status is not an empty one), with a
body handler that keeps the istream contract.  Whatever
buffers are fed to the client afterwards, every `Feed` returns, end-of-file has
been signalled only if exactly `N` body bytes have been delivered, and while
the body is read the bytes delivered and the bytes remaining add up to `N`.
While the body is read, at a packet boundary, a `SEND_BODY_CHUNK` packet whose
chunk length exceeds the `N` minus delivered bytes that remain aborts the
response, and so does an `END_RESPONSE` packet while fewer than `N` bytes have
been delivered; neither signals end-of-file or delivers a byte. -/
theorem ajp_content_length_respected {σ : Type} (env : ajp_env) (h : ajp_handler σ)
    (c0 : AjpClient) (hs0 : σ) (payload : List Nat) (status : Nat) (headers : Option strmap)
    (v : String) (N : Nat) (feeds : List (List Nat))
    (hc : h.contract)
    (hbegin : c0.read_state = READ_BEGIN) (hnb : c0.no_body = false) (htrace : c0.trace = [])
    (hdes : env.deserialize payload = some (status, headers))
    (hvalid : env.http_status_is_valid status = true)
    (hempty : env.http_status_is_empty status = false)
    (hcl : (strmap_remove_checked headers "content-length").2 = some v)
    (hparse : strtoul v.toList = (N, v.length)) (hv : v.length ≠ 0) (hN : N < 2 ^ 63) :
    (∃ c2 hs2, AjpClient.FeedAll env h (c0.ConsumeSendHeaders env h hs0 payload).2.1
        (c0.ConsumeSendHeaders env h hs0 payload).2.2 feeds = some (c2, hs2) ∧
      (.body_eof ∈ c2.trace → (ajp_delivered c2.trace).length = N) ∧
      (c2.read_state = READ_BODY →
        ((ajp_delivered c2.trace).length : Int) + c2.remaining = N)) ∧
    (∀ (c : AjpClient) (hs : σ) (hh hl ch cl : Nat) (rest : List Nat),
      c.body_reading N → c.chunk_length = 0 → c.junk_length = 0 →
      3 + FromBE16 ch cl ≤ FromBE16 hh hl →
      N - (ajp_delivered c.trace).length < FromBE16 ch cl →
      ∃ l, AjpClient.Feed env h c hs (65 :: 66 :: hh :: hl :: 3 :: ch :: cl :: rest) =
          some (.CLOSED, l) ∧
        l.client.read_state = READ_END ∧
        .body_abort "excess chunk length in AJP SEND_BODY_CHUNK packet" ∈ l.client.trace ∧
        .body_eof ∉ l.client.trace ∧
        ajp_delivered l.client.trace = ajp_delivered c.trace) ∧
    (∀ (c : AjpClient) (hs : σ) (hh hl : Nat) (rest : List Nat),
      c.body_reading N → c.chunk_length = 0 → c.junk_length = 0 →
      FromBE16 hh hl ≠ 0 → FromBE16 hh hl ≤ rest.length + 1 →
      (ajp_delivered c.trace).length < N →
      ∃ l, AjpClient.Feed env h c hs (65 :: 66 :: hh :: hl :: 5 :: rest) = some (.CLOSED, l) ∧
        l.client.read_state = READ_END ∧
        .body_abort "premature end of response AJP server" ∈ l.client.trace ∧
        .body_eof ∉ l.client.trace ∧
        ajp_delivered l.client.trace = ajp_delivered c.trace) := by
  have h0 := AjpClient.ConsumeSendHeaders_length env h c0 hs0 payload status headers v N
    hbegin hnb htrace hdes hvalid hempty hcl hparse hv hN
  refine ⟨?_, ?_, ?_⟩
  · obtain ⟨c2, hs2, h1, h2⟩ := AjpClient.FeedAll_body env h hc N feeds _
      (c0.ConsumeSendHeaders env h hs0 payload).2.2 h0
    refine ⟨c2, hs2, h1, ?_, ?_⟩
    · rcases h2 with h2 | h2
      · exact fun hm => absurd hm h2.2.1
      · exact h2.2
    · rcases h2 with h2 | h2
      · exact fun _ => h2.2.2.1
      · intro hb
        rw [h2.1] at hb
        exact absurd hb (by decide)
  · intro c hs hh hl ch cl rest hw hcz hjz hfit hex
    have hrem : c.remaining ≥ 0 ∧ (FromBE16 ch cl : Int) > c.remaining := by
      have h3 := hw.2.2.1
      have h4 := hw.2.2.2
      rw [hcz] at h4
      constructor
      · exact h4
      · omega
    have ht : (c.open_chunk (FromBE16 ch cl) (FromBE16 hh hl - 3 - FromBE16 ch cl)).trace =
        c.trace := rfl
    have ha := AjpClient.AbortResponse_body
      (c.open_chunk (FromBE16 ch cl) (FromBE16 hh hl - 3 - FromBE16 ch cl))
      "excess chunk length in AJP SEND_BODY_CHUNK packet" hw.1
    refine ⟨_, AjpClient.Feed_excess_chunk env h c hs hh hl ch cl rest hw.1 hcz hjz hfit hrem,
      ha.1, ha.2.2, ?_, ha.2.1.trans (by rw [ht])⟩
    exact AjpClient.quiet_step_eof (AjpClient.AbortResponse_spec _ _).1 (by rw [ht]; exact hw.2.1)
  · intro c hs hh hl rest hw hcz hjz hne hlen hlt
    have hrem : c.remaining > 0 := by
      have h3 := hw.2.2.1
      omega
    have ha := AjpClient.AbortResponse_body c "premature end of response AJP server" hw.1
    refine ⟨_, AjpClient.Feed_premature_end env h c hs hh hl rest hw.1 hcz hjz hne hlen hrem,
      ha.1, ha.2.2, ?_, ha.2.1⟩
    exact AjpClient.quiet_step_eof (AjpClient.AbortResponse_spec _ _).1 hw.2.1

theorem ajp_content_length_respected_witness :
    (∃ c2 hs2, AjpClient.FeedAll ajp_length_env ajp_consume_all
        ((AjpClient.start false).ConsumeSendHeaders ajp_length_env ajp_consume_all () [53]).2.1
        ((AjpClient.start false).ConsumeSendHeaders ajp_length_env ajp_consume_all () [53]).2.2
        [[65, 66, 0, 8, 3, 0, 5, 104, 101, 108, 108, 111], [65, 66, 0, 1, 5]] = some (c2, hs2) ∧
      (.body_eof ∈ c2.trace → (ajp_delivered c2.trace).length = 5) ∧
      (c2.read_state = READ_BODY →
        ((ajp_delivered c2.trace).length : Int) + c2.remaining = (5 : Nat))) ∧
    (∀ (c : AjpClient) (hs : Unit) (hh hl ch cl : Nat) (rest : List Nat),
      c.body_reading 5 → c.chunk_length = 0 → c.junk_length = 0 →
      3 + FromBE16 ch cl ≤ FromBE16 hh hl →
      5 - (ajp_delivered c.trace).length < FromBE16 ch cl →
      ∃ l, AjpClient.Feed ajp_length_env ajp_consume_all c hs
          (65 :: 66 :: hh :: hl :: 3 :: ch :: cl :: rest) = some (.CLOSED, l) ∧
        l.client.read_state = READ_END ∧
        .body_abort "excess chunk length in AJP SEND_BODY_CHUNK packet" ∈ l.client.trace ∧
        .body_eof ∉ l.client.trace ∧
        ajp_delivered l.client.trace = ajp_delivered c.trace) ∧
    (∀ (c : AjpClient) (hs : Unit) (hh hl : Nat) (rest : List Nat),
      c.body_reading 5 → c.chunk_length = 0 → c.junk_length = 0 →
      FromBE16 hh hl ≠ 0 → FromBE16 hh hl ≤ rest.length + 1 →
      (ajp_delivered c.trace).length < 5 →
      ∃ l, AjpClient.Feed ajp_length_env ajp_consume_all c hs
          (65 :: 66 :: hh :: hl :: 5 :: rest) = some (.CLOSED, l) ∧
        l.client.read_state = READ_END ∧
        .body_abort "premature end of response AJP server" ∈ l.client.trace ∧
        .body_eof ∉ l.client.trace ∧
        ajp_delivered l.client.trace = ajp_delivered c.trace) :=
  ajp_content_length_respected ajp_length_env ajp_consume_all (AjpClient.start false) () [53]
    200 (some [("content-length", "5")]) "5" 5
    [[65, 66, 0, 8, 3, 0, 5, 104, 101, 108, 108, 111], [65, 66, 0, 1, 5]]
    ajp_consume_all_contract rfl rfl rfl rfl rfl rfl rfl (by decide) (by decide) (by decide)
/-! ## Replacing ranges of a stream -/

/-- Without substitutions, `replace_eof` passes the data that one call of
`growing_buffer_read` returns to the handler and then signals end-of-file,
whatever the length of the source. -/
theorem replace_eof_without_substitution {β : Type} (ops : growing_buffer_ops β)
    (r : replace β) (b : β) (piece : List Int) (k : istream_sink)
    (hout : r.output = true) (hquiet : r.quiet = false) (hsubs : r.substitutions = [])
    (hbuf : r.buffer = some b) (hread : ops.read b = some piece) (hne : piece ≠ [])
    (hlen : piece.length ≤ r.source_length) :
    (replace_eof ops sink_handler r k).map (·.2) =
      some { k with bytes := k.bytes ++ piece, eof := k.eof + 1 } := by
  have hpos : 0 < piece.length := List.length_pos.mpr hne
  have h1 : ¬ piece.length > r.source_length := by omega
  have h2 : r.source_length ≠ 0 := by omega
  simp [replace_eof, replace_read, replace_read_loop, replace_read_substitution,
    replace_try_read_from_buffer, replace_read_from_buffer, replace_invoke_data,
    sink_handler, hout, hquiet, hsubs, hbuf, hread, h1, h2]

/-- C7: a source fed as `A` (8192 bytes, which fill the first chunk of the
growing buffer) and then `B` (not empty), without any substitution: at
`replace_eof` the handler gets `A` and end-of-file; `B` is lost, the output is
not the source `A ++ B`. -/
theorem replace_run_loses_second_chunk (A B : List Int) (hA : A.length = 8192) (hB : B ≠ []) :
    replace_run chunked_growing_buffer [A, B] [] =
      some { bytes := A, eof := 1, aborted := 0 } ∧ A ≠ A ++ B := by
  constructor
  · have hB' : 0 < B.length := List.length_pos.mpr hB
    unfold replace_run
    rw [replace_eof_without_substitution chunked_growing_buffer _
      { size := max 8192 B.length, chunks := [{ data := A, position := 0 }, { data := B, position := 0 }] } A]
    · simp
    · simp [replace_add, replace_feed, replace_init]
    · simp [replace_add, replace_feed, replace_init]
    · simp [replace_add, replace_feed, replace_init]
    · simp [replace_add, replace_feed, replace_init, chunked_growing_buffer, growing_buffer_new,
        growing_buffer_write_buffer, hA]
      exact hB
    · simp [chunked_growing_buffer, growing_buffer_read, hA]
    · intro h; simp [h] at hA
    · simp [replace_add, replace_feed, replace_init, hA]
  · intro h
    have := congrArg List.length h
    simp at this
    exact hB this

/-- Witness for C7: 8192 times `a`, then `b`. -/
theorem replace_run_loses_second_chunk_witness :
    replace_run chunked_growing_buffer [List.replicate 8192 97, [98]] [] =
      some { bytes := List.replicate 8192 97, eof := 1, aborted := 0 } ∧
    (List.replicate 8192 97 : List Int) ≠ List.replicate 8192 97 ++ [98] :=
  replace_run_loses_second_chunk (List.replicate 8192 97) [98] (List.length_replicate _ _)
    (List.cons_ne_nil _ _)

/-! ## NFS connection manager -/

theorem nfs_ready_order_append (t1 t2 : List nfs_event) :
    nfs_ready_order (t1 ++ t2) = nfs_ready_order t1 ++ nfs_ready_order t2 := by
  induction t1 with
  | nil => rfl
  | cons e t ih => cases e <;> simp [nfs_ready_order, ih]

theorem nfs_ready_order_map (client : Nat) (rs : List NfsStockRequest) :
    nfs_ready_order (clear_and_dispose rs (fun r => .ready client r.handler_ctx)) =
      rs.map (fun r => r.handler_ctx) := by
  induction rs with
  | nil => rfl
  | cons r t ih =>
    simp only [clear_and_dispose, List.map_cons, nfs_ready_order] at ih ⊢
    rw [ih]

/-- While the client of a key is connecting, each further `Get` puts its
request in front of the waiting ones. -/
theorem NfsStock.GetAll_connecting (server export_name : String) (t : List nfs_event)
    (ctxs : List Nat) :
    ∀ rs : List NfsStockRequest,
      NfsStock.GetAll
        { connections := [{ key := server ++ ":" ++ export_name, client := none, requests := rs }],
          trace := t } server export_name ctxs =
        { connections := [{ key := server ++ ":" ++ export_name, client := none,
                            requests := (ctxs.reverse.map fun c => { handler_ctx := c }) ++ rs }],
          trace := t } := by
  induction ctxs with
  | nil => intro rs; rfl
  | cons a rest ih =>
    intro rs
    have h1 : NfsStock.Get
        { connections := [{ key := server ++ ":" ++ export_name, client := none,
                            requests := rs }], trace := t } server export_name a =
        { connections := [{ key := server ++ ":" ++ export_name, client := none,
                            requests := { handler_ctx := a } :: rs }], trace := t } := by
      simp [NfsStock.Get]
    unfold NfsStock.GetAll
    rw [List.foldl_cons, h1]
    have h2 := ih ({ handler_ctx := a } :: rs)
    unfold NfsStock.GetAll at h2
    rw [h2]
    simp

/-- C11: for every sequence of `Get` calls with the same server and export
on a fresh stock, all made while the client is connecting, `OnNfsClientReady`
invokes the `ready` callbacks in the reverse of the order of the `Get` calls:
`Get` puts each request at the front of the list and `clear_and_dispose` walks
the list from the front.  After the calls for the handlers `1` and `2`, in
this order, handler `2` is called first. -/
theorem NfsStock_ready_callbacks_in_reverse_order (server export_name : String)
    (client : Nat) (ctxs : List Nat) :
    nfs_ready_order ((nfs_stock_new.GetAll server export_name ctxs).OnNfsClientReady
      (server ++ ":" ++ export_name) client).trace = ctxs.reverse ∧
    nfs_ready_order ((nfs_stock_new.GetAll "server" "/export" [1, 2]).OnNfsClientReady
      "server:/export" 7).trace = [2, 1] := by
  refine ⟨?_, by decide⟩
  cases ctxs with
  | nil => rfl
  | cons a rest =>
    have h1 : nfs_stock_new.Get server export_name a =
        { connections := [{ key := server ++ ":" ++ export_name, client := none,
                            requests := [{ handler_ctx := a }] }],
          trace := [.nfs_client_new server export_name] } := by
      simp [NfsStock.Get, nfs_stock_new]
    unfold NfsStock.GetAll
    rw [List.foldl_cons, h1]
    have h2 := NfsStock.GetAll_connecting server export_name
      [.nfs_client_new server export_name] rest [{ handler_ctx := a }]
    unfold NfsStock.GetAll at h2
    rw [h2]
    simp only [NfsStock.OnNfsClientReady, List.find?_cons, beq_self_eq_true, Option.isSome_none,
      Bool.false_eq_true, if_false, List.append_nil, nfs_ready_order_append, nfs_ready_order,
      nfs_ready_order_map]
    simp only [List.map_map, List.map_append, List.reverse_cons, List.map_cons, List.map_nil,
      List.nil_append, List.map_reverse]
    have hid : ((fun r : NfsStockRequest => r.handler_ctx) ∘
        fun c => ({ handler_ctx := c } : NfsStockRequest)) = id := rfl
    rw [hid, List.map_id]

/-! ## High level HTTP client -/

/-- C17: for a sender uid in the range of `int`, `control_local_raw` returns
true only if the uid is 0 or the effective uid of the process; for a negative
(unknown) uid and for every other uid it returns false and the raw callback of
the wrapped handler is not called. -/
theorem control_local_raw_only_root_or_self (handler : control_handler) (euid : Nat) (uid : Int)
    (huid : -(2 ^ 31) ≤ uid ∧ uid < 2 ^ 31) :
    ((control_local_raw handler euid uid).1 = true → uid = 0 ∨ uid = euid) ∧
    ((uid < 0 ∨ (uid ≠ 0 ∧ uid ≠ euid)) → control_local_raw handler euid uid = (false, [])) := by
  have hmod : 0 ≤ uid → (uid % 2 ^ 32).toNat = uid.toNat := by
    intro h0
    rw [Int.emod_eq_of_lt h0 (by omega)]
  constructor
  · intro ht
    by_cases hc : uid < 0 ∨ (uid ≠ 0 ∧ (uid % 2 ^ 32).toNat ≠ euid)
    · rw [control_local_raw, if_pos hc] at ht
      exact absurd ht (by decide)
    · have h0 : 0 ≤ uid := by
        by_contra hn
        exact hc (Or.inl (by omega))
      by_cases hz : uid = 0
      · exact Or.inl hz
      · right
        have h2 : (uid % 2 ^ 32).toNat = euid := by
          by_contra hn
          exact hc (Or.inr ⟨hz, hn⟩)
        rw [hmod h0] at h2
        omega
  · intro hc
    unfold control_local_raw
    rw [if_pos]
    rcases hc with hc | hc
    · exact Or.inl hc
    · by_cases h0 : uid < 0
      · exact Or.inl h0
      · right
        refine ⟨hc.1, ?_⟩
        rw [hmod (by omega)]
        intro he
        apply hc.2
        omega

theorem control_local_raw_only_root_or_self_witness :
    ((control_local_raw { raw := some (fun _ => true) } 1000 33).1 = true →
      (33 : Int) = 0 ∨ (33 : Int) = (1000 : Nat)) ∧
    (((33 : Int) < 0 ∨ ((33 : Int) ≠ 0 ∧ (33 : Int) ≠ (1000 : Nat))) →
      control_local_raw { raw := some (fun _ => true) } 1000 33 = (false, [])) :=
  control_local_raw_only_root_or_self { raw := some (fun _ => true) } 1000 33
    ⟨by decide, by decide⟩

/-! ## Child stocks -/

/-- C19: the clear interval of `LhttpStock` is 15 minutes without
`pivot_root` and 5 minutes with it; that of `FcgiStock` is 5 minutes with
`pivot_root` but 10 minutes, not 15, without it. -/
theorem FcgiStock_clear_interval_is_ten_minutes (options : ChildOptions) :
    LhttpStock.GetChildClearInterval options = (if options.pivot_root = none then 15 else 5) ∧
    FcgiStock.GetChildClearInterval options = (if options.pivot_root = none then 10 else 5) ∧
    FcgiStock.GetChildClearInterval { pivot_root := none } = 10 ∧
    FcgiStock.GetChildClearInterval { pivot_root := none } ≠ 15 :=
  ⟨rfl, rfl, rfl, by decide⟩

/-! ## Session ids: the words that change -/

/-- C20: `SetClusterNode` with `0 < cluster_size` and
`cluster_node < cluster_size` leaves the words before the last one and the
number of words unchanged and sets the last word to
`(old - old % cluster_size) + cluster_node` in 32-bit arithmetic, which is that
very number whenever it fits into 32 bits; `AdjustNewSessionId` of a manager
with `cluster_size = 0` returns the id unchanged. -/
theorem SetClusterNode_changes_last_word_only (id : SessionId) (size node : Nat)
    (m : SessionManager) (hback : id.back < 2 ^ 32) (_hsize : 0 < size) (hs32 : size < 2 ^ 32)
    (_hnode : node < size) (hm : m.cluster_size = 0) :
    (id.SetClusterNode size node).front = id.front ∧
    (id.SetClusterNode size node).data.length = id.data.length ∧
    (id.SetClusterNode size node).data.take id.front.length = id.data.take id.front.length ∧
    (id.SetClusterNode size node).back = ((id.back - id.back % size) + node) % 2 ^ 32 ∧
    ((id.back - id.back % size) + node < 2 ^ 32 →
      (id.SetClusterNode size node).back = (id.back - id.back % size) + node) ∧
    m.AdjustNewSessionId id = id := by
  have hle : id.back % size ≤ id.back := Nat.mod_le _ _
  have h1 : (id.back + 2 ^ 32 - id.back % size) % 2 ^ 32 = id.back - id.back % size := by
    have : id.back + 2 ^ 32 - id.back % size = (id.back - id.back % size) + 2 ^ 32 := by omega
    rw [this, Nat.add_mod_right]
    exact Nat.mod_eq_of_lt (by omega)
  have hb : (id.SetClusterNode size node).back =
      ((id.back - id.back % size) + node) % 2 ^ 32 := by
    simp only [SessionId.SetClusterNode, SessionId.GetClusterHash, ToClusterNode,
      Nat.mod_eq_of_lt hs32, h1]
  refine ⟨rfl, by simp [SessionId.data, SessionId.SetClusterNode], ?_, hb, ?_, ?_⟩
  · simp [SessionId.data, SessionId.SetClusterNode]
  · intro hfit
    rw [hb, Nat.mod_eq_of_lt hfit]
  · simp [SessionManager.AdjustNewSessionId, hm]

theorem SetClusterNode_changes_last_word_only_witness :
    let id : SessionId := { front := [1, 2, 3], back := 100 }
    (id.SetClusterNode 7 6).front = id.front ∧
    (id.SetClusterNode 7 6).data.length = id.data.length ∧
    (id.SetClusterNode 7 6).data.take id.front.length = id.data.take id.front.length ∧
    (id.SetClusterNode 7 6).back = ((id.back - id.back % 7) + 6) % 2 ^ 32 ∧
    ((id.back - id.back % 7) + 6 < 2 ^ 32 →
      (id.SetClusterNode 7 6).back = (id.back - id.back % 7) + 6) ∧
    SessionManager.AdjustNewSessionId { cluster_size := 0, cluster_node := 0 } id = id :=
  SetClusterNode_changes_last_word_only { front := [1, 2, 3], back := 100 } 7 6
    { cluster_size := 0, cluster_node := 0 } (by decide) (by decide) (by decide) (by decide) rfl
/-! ## Inline widgets -/

/-- C13, as the specification states it, fails: the response of an inline
widget with `Content-Type: application/xml-dtd`, a media type that is neither
`text/*` nor `application/xml` nor `application/xhtml+xml`, is accepted,
because the value starts with `application/xml`; the body is returned and not
closed. -/
theorem widget_response_format_accepts_xml_dtd :
    media_type_embeddable (content_type_media_type "application/xml-dtd") = false ∧
    (widget_response_format widget_no_charset_env
      [("content-type", "application/xml-dtd")] false).returned = true ∧
    (widget_response_format widget_no_charset_env
      [("content-type", "application/xml-dtd")] false).closed = false := by
  decide

/-- Either `widget_response_format` throws `UNSUPPORTED_ENCODING` after
closing the body, or it returns a stream, has not closed the body, and the
`Content-Type` value starts with one of the three accepted strings. -/
theorem widget_response_format_cases (env : widget_format_env) (headers : strmap) :
    ((widget_response_format env headers false).returned = false ∧
      (widget_response_format env headers false).thrown = some .UNSUPPORTED_ENCODING ∧
      (widget_response_format env headers false).closed = true) ∨
    ((widget_response_format env headers false).returned = true ∧
      (widget_response_format env headers false).closed = false ∧
      ∃ content_type, headers.lookup "content-type" = some content_type ∧
        (StringStartsWith content_type "text/" = true ∨
         StringStartsWith content_type "application/xml" = true ∨
         StringStartsWith content_type "application/xhtml+xml" = true)) := by
  unfold widget_response_format
  simp only [Bool.false_eq_true, if_false]
  by_cases h1 : (headers.lookup "content-encoding").isSome ∧
      headers.lookup "content-encoding" ≠ some "identity"
  · rw [if_pos h1]
    exact Or.inl ⟨rfl, rfl, rfl⟩
  · rw [if_neg h1]
    cases hct : headers.lookup "content-type" with
    | none => exact Or.inl ⟨rfl, rfl, rfl⟩
    | some ct =>
      simp only []
      by_cases h2 : (!StringStartsWith ct "text/" && !StringStartsWith ct "application/xml" &&
          !StringStartsWith ct "application/xhtml+xml") = true
      · rw [if_pos h2]
        exact Or.inl ⟨rfl, rfl, rfl⟩
      · rw [if_neg h2]
        have h3 : StringStartsWith ct "text/" = true ∨
            StringStartsWith ct "application/xml" = true ∨
            StringStartsWith ct "application/xhtml+xml" = true := by
          revert h2
          cases StringStartsWith ct "text/" <;> cases StringStartsWith ct "application/xml" <;>
            cases StringStartsWith ct "application/xhtml+xml" <;> simp
        split <;> split_ifs
        all_goals first
          | exact Or.inl ⟨rfl, rfl, rfl⟩
          | exact Or.inr ⟨rfl, rfl, ct, rfl, h3⟩

/-- Without a `Content-Type` value that starts with one of the three accepted
strings `widget_response_format` does not return a stream. -/
theorem widget_response_format_refuses (env : widget_format_env) (headers : strmap)
    (h : headers.lookup "content-type" = none ∨
      ∃ content_type, headers.lookup "content-type" = some content_type ∧
        StringStartsWith content_type "text/" = false ∧
        StringStartsWith content_type "application/xml" = false ∧
        StringStartsWith content_type "application/xhtml+xml" = false) :
    (widget_response_format env headers false).returned = false := by
  rcases widget_response_format_cases env headers with hc | ⟨_, _, ct, hct, h3⟩
  · exact hc.1
  · exfalso
    rcases h with h | ⟨c2, hc2, a, b, c⟩
    · rw [h] at hct
      exact absurd hct (by simp)
    · rw [hc2] at hct
      cases hct
      rcases h3 with h3 | h3 | h3
      · rw [a] at h3; exact absurd h3 (by decide)
      · rw [b] at h3; exact absurd h3 (by decide)
      · rw [c] at h3; exact absurd h3 (by decide)

/-- C13, amended: in non-plain-text mode `widget_response_format` returns a
stream only if the `Content-Type` header is present and its value starts with
`text/`, `application/xml` or `application/xhtml+xml`; when the header is
missing or its value starts with none of the three, the body is closed and a
`WidgetError` with the code `UNSUPPORTED_ENCODING` is thrown.  Whenever the
function throws, the code is `UNSUPPORTED_ENCODING` and the body has been
closed, and whenever it returns a stream the body has not been closed. -/
theorem widget_response_format_content_type (env : widget_format_env) (headers : strmap) :
    ((widget_response_format env headers false).returned = true →
      ∃ content_type, headers.lookup "content-type" = some content_type ∧
        (StringStartsWith content_type "text/" = true ∨
         StringStartsWith content_type "application/xml" = true ∨
         StringStartsWith content_type "application/xhtml+xml" = true)) ∧
    ((headers.lookup "content-type" = none ∨
      ∃ content_type, headers.lookup "content-type" = some content_type ∧
        StringStartsWith content_type "text/" = false ∧
        StringStartsWith content_type "application/xml" = false ∧
        StringStartsWith content_type "application/xhtml+xml" = false) →
      (widget_response_format env headers false).thrown = some .UNSUPPORTED_ENCODING ∧
      (widget_response_format env headers false).closed = true) ∧
    ((widget_response_format env headers false).returned = false →
      (widget_response_format env headers false).thrown = some .UNSUPPORTED_ENCODING ∧
      (widget_response_format env headers false).closed = true) ∧
    ((widget_response_format env headers false).returned = true →
      (widget_response_format env headers false).closed = false) := by
  have hc := widget_response_format_cases env headers
  have hf : (widget_response_format env headers false).returned = false →
      (widget_response_format env headers false).thrown = some .UNSUPPORTED_ENCODING ∧
      (widget_response_format env headers false).closed = true := by
    intro hr
    rcases hc with hc | hc
    · exact hc.2
    · rw [hc.1] at hr
      exact absurd hr (by decide)
  refine ⟨?_, fun h => hf (widget_response_format_refuses env headers h), hf, ?_⟩
  · intro hr
    rcases hc with hc | hc
    · rw [hc.1] at hr
      exact absurd hr (by decide)
    · exact hc.2.2
  · intro hr
    rcases hc with hc | hc
    · rw [hc.1] at hr
      exact absurd hr (by decide)
    · exact hc.2.1

theorem widget_response_format_content_type_witness :
    (widget_response_format widget_latin1_env
      [("content-type", "text/plain; charset=iso-8859-1")] false).returned = true ∧
    (widget_response_format widget_no_charset_env
      [("content-type", "image/png")] false).thrown = some .UNSUPPORTED_ENCODING ∧
    (widget_response_format widget_no_charset_env
      [("content-type", "image/png")] false).closed = true :=
  ⟨by decide,
   ((widget_response_format_content_type
      widget_no_charset_env
      [("content-type", "image/png")]).2.1
      (Or.inr ⟨"image/png", by decide, by decide, by decide, by decide⟩)).1,
   ((widget_response_format_content_type
      widget_no_charset_env
      [("content-type", "image/png")]).2.1
      (Or.inr ⟨"image/png", by decide, by decide, by decide, by decide⟩)).2⟩

/-- C14: for an inline widget whose class is resolved, if
`widget_check_approval` fails or `CheckHost` throws, `SendRequest` (reached
from `Start` or from the resolver callback) cancels the widget and fails the
placeholder stream with a `WidgetError` of code `FORBIDDEN`, and does nothing
else: the widget is unchanged, the header timeout is not armed and
`widget_http_request` is not called. -/
theorem InlineWidget_SendRequest_forbidden (widget resolved : Widget)
    (hcls : widget.cls.isSome = true)
    (hforbidden : widget.check_approval = false ∨ widget.check_host_throws = true) :
    ∃ msg, InlineWidget.SendRequest widget =
        (widget, [.widget_cancel, .fail .FORBIDDEN msg]) ∧
      InlineWidget.Start widget resolved = InlineWidget.SendRequest widget ∧
      InlineWidget.ResolverCallback widget = InlineWidget.SendRequest widget ∧
      inline_widget_event.widget_http_request ∉ (InlineWidget.SendRequest widget).2 ∧
      inline_widget_event.header_timeout_add ∉ (InlineWidget.SendRequest widget).2 := by
  have hn : widget.cls.isNone = false := by
    cases hc : widget.cls with
    | none => rw [hc] at hcls; exact absurd hcls (by decide)
    | some _ => rfl
  by_cases ha : widget.check_approval = false
  · refine ⟨"not allowed to embed widget class '" ++ widget.class_name ++ "'", ?_, ?_, ?_, ?_, ?_⟩
    · simp [InlineWidget.SendRequest, ha]
    · simp [InlineWidget.Start, hn]
    · simp [InlineWidget.ResolverCallback, hcls]
    · simp [InlineWidget.SendRequest, ha]
    · simp [InlineWidget.SendRequest, ha]
  · have hh : widget.check_host_throws = true := by
      rcases hforbidden with h | h
      · exact absurd h ha
      · exact h
    have ha2 : widget.check_approval = true := by
      cases h : widget.check_approval
      · exact absurd h ha
      · rfl
    refine ⟨"Untrusted host", ?_, ?_, ?_, ?_, ?_⟩
    · simp [InlineWidget.SendRequest, ha2, hh]
    · simp [InlineWidget.Start, hn]
    · simp [InlineWidget.ResolverCallback, hcls]
    · simp [InlineWidget.SendRequest, ha2, hh]
    · simp [InlineWidget.SendRequest, ha2, hh]

theorem InlineWidget_SendRequest_forbidden_witness :
    ∃ msg, InlineWidget.SendRequest widget_untrusted_host =
        (widget_untrusted_host, [.widget_cancel, .fail .FORBIDDEN msg]) :=
  (InlineWidget_SendRequest_forbidden widget_untrusted_host widget_untrusted_host
    rfl (Or.inr rfl)).imp fun _ h => h.1
/-! ## URI rewriting -/

theorem strchr_append_cons (a b : List Char) (c : Char) (h : c ∉ a) :
    strchr (a ++ c :: b) c = some a.length := by
  unfold strchr
  rw [List.indexOf_append_of_not_mem h, List.indexOf_cons_self]
  simp

theorem cstr_at_append (a b : List Char) (i : Nat) :
    cstr_at (a ++ b) (a.length + i) = cstr_at b i := by
  unfold cstr_at
  rw [List.getD_eq_getElem?_getD, List.getD_eq_getElem?_getD,
    List.getElem?_append_right (by omega)]
  simp

/-- C15: for a URI that starts with `'/'` the result of
`uri_replace_hostname` is `"http://"`, the hostname and the URI.  For an
absolute URI `scheme://rest`, however, the result is the URI itself, whatever
the hostname: the test that is meant to skip URIs without `"//"` after the
colon returns early exactly when the second character after the colon is a
slash, so the host is never replaced. -/
theorem uri_replace_hostname_keeps_absolute_uri (scheme rest hostname u : List Char)
    (hs : ':' ∉ scheme) (h0 : scheme.head? ≠ some '/') :
    uri_replace_hostname ('/' :: u) hostname = "http://".toList ++ hostname ++ '/' :: u ∧
    uri_replace_hostname (scheme ++ "://".toList ++ rest) hostname =
      scheme ++ "://".toList ++ rest := by
  constructor
  · simp [uri_replace_hostname, cstr_at]
  · have hform : scheme ++ "://".toList ++ rest = scheme ++ ':' :: ('/' :: '/' :: rest) := by
      simp
    rw [hform]
    have hfirst : cstr_at (scheme ++ ':' :: ('/' :: '/' :: rest)) 0 ≠ '/' := by
      cases scheme with
      | nil => simp [cstr_at]
      | cons c cs =>
        simp only [List.head?_cons, ne_eq, Option.some.injEq] at h0
        simpa [cstr_at] using h0
    have h2 : cstr_at (scheme ++ ':' :: ('/' :: '/' :: rest)) (scheme.length + 2) = '/' := by
      rw [cstr_at_append]
      rfl
    unfold uri_replace_hostname
    rw [if_neg hfirst, strchr_append_cons scheme _ ':' hs]
    simp only []
    rw [if_pos (Or.inr (Or.inr h2))]

theorem uri_replace_hostname_keeps_absolute_uri_witness :
    uri_replace_hostname "/foo".toList "w.example.com".toList =
      "http://".toList ++ "w.example.com".toList ++ '/' :: "foo".toList ∧
    uri_replace_hostname ("http".toList ++ "://".toList ++ "localhost:8080/foo".toList)
        "w.example.com".toList =
      "http".toList ++ "://".toList ++ "localhost:8080/foo".toList :=
  uri_replace_hostname_keeps_absolute_uri "http".toList "localhost:8080/foo".toList
    "w.example.com".toList "foo".toList (by decide) (by decide)
/-! ## Access log: the real remote host -/

theorem memrchr_none {c : Char} : ∀ {s : List Char}, memrchr c s = none → c ∉ s
  | [], _ => by simp
  | x :: xs, h => by
    unfold memrchr at h
    cases hm : memrchr c xs with
    | some i => rw [hm] at h; simp at h
    | none =>
      rw [hm] at h
      have := memrchr_none hm
      simp only [List.mem_cons, not_or]
      refine ⟨fun e => ?_, this⟩
      rw [if_pos e.symm] at h
      exact absurd h (by simp)

theorem memrchr_some {c : Char} : ∀ {s : List Char} {i : Nat}, memrchr c s = some i →
    s = s.take i ++ c :: s.drop (i + 1) ∧ c ∉ s.drop (i + 1)
  | [], i, h => by simp [memrchr] at h
  | x :: xs, i, h => by
    unfold memrchr at h
    cases hm : memrchr c xs with
    | some j =>
      rw [hm] at h
      simp only [Option.some.injEq] at h
      subst h
      have ih := memrchr_some hm
      refine ⟨?_, by simpa using ih.2⟩
      simp only [List.take_succ_cons, List.drop_succ_cons, List.cons_append, List.cons.injEq,
        true_and]
      exact ih.1
    | none =>
      rw [hm] at h
      by_cases hx : x = c
      · rw [if_pos hx] at h
        simp only [Option.some.injEq] at h
        subst h
        refine ⟨by simp [hx], ?_⟩
        simpa using memrchr_none hm
      · rw [if_neg hx] at h
        exact absurd h (by simp)

theorem comma_items_ne_nil : ∀ s : List Char, comma_items s ≠ []
  | [] => by simp [comma_items]
  | c :: cs => by
    unfold comma_items
    split_ifs
    · simp
    · split <;> simp

theorem comma_items_no_comma : ∀ {s : List Char}, ',' ∉ s → comma_items s = [s]
  | [], _ => rfl
  | c :: cs, h => by
    simp only [List.mem_cons, not_or] at h
    unfold comma_items
    rw [if_neg (fun e => h.1 e.symm), comma_items_no_comma h.2]

theorem comma_items_append (b : List Char) (hb : ',' ∉ b) :
    ∀ a : List Char, comma_items (a ++ ',' :: b) = comma_items a ++ [b]
  | [] => by
    simp [comma_items, comma_items_no_comma hb]
  | c :: a => by
    have ih := comma_items_append b hb a
    rw [List.cons_append]
    unfold comma_items
    by_cases hc : c = ','
    · rw [if_pos hc, if_pos hc, ih]
      rfl
    · rw [if_neg hc, if_neg hc, ih]
      cases hca : comma_items a with
      | nil => exact absurd hca (comma_items_ne_nil a)
      | cons h t => rfl

theorem GetRealRemoteHost_loop_nil (ws : Char → Bool) (trust : List (List Char)) (fuel : Nat)
    (result : Option (List Char)) :
    GetRealRemoteHost_loop ws trust (fuel + 1) [] result = some result := by
  simp [GetRealRemoteHost_loop, LastListItem, memrchr, StringViewStrip, StringViewIsEmpty]

theorem real_remote_host_spec_single (ws : Char → Bool) (trust : List (List Char))
    (s : List Char) (hs : ',' ∉ s) :
    real_remote_host_spec ws s trust = StringViewStrip ws s := by
  unfold real_remote_host_spec
  rw [comma_items_no_comma hs]
  simp only [List.map_cons, List.map_nil, List.reverse_cons, List.reverse_nil, List.nil_append,
    List.find?_cons, List.find?_nil, List.headD_cons]
  split <;> rename_i h
  · split at h
    · simp only [Option.some.injEq] at h
      exact h.symm
    · exact absurd h (by simp)
  · rfl

theorem real_remote_host_spec_append (ws : Char → Bool) (trust : List (List Char))
    (a b : List Char) (hb : ',' ∉ b) :
    real_remote_host_spec ws (a ++ ',' :: b) trust =
      if !trust.contains (StringViewStrip ws b) then StringViewStrip ws b
      else real_remote_host_spec ws a trust := by
  unfold real_remote_host_spec
  rw [comma_items_append b hb a]
  simp only [List.map_append, List.map_cons, List.map_nil, List.reverse_append,
    List.reverse_cons, List.reverse_nil, List.nil_append, List.singleton_append,
    List.find?_cons]
  by_cases ht : (!trust.contains (StringViewStrip ws b)) = true
  · rw [ht]
    rfl
  · rw [if_neg ht]
    have ht2 : (!trust.contains (StringViewStrip ws b)) = false := by
      cases h : (!trust.contains (StringViewStrip ws b))
      · rfl
      · exact absurd h ht
    rw [ht2]
    simp only []
    cases hca : comma_items a with
    | nil => exact absurd hca (comma_items_ne_nil a)
    | cons h t => rfl

theorem GetRealRemoteHost_loop_spec (ws : Char → Bool) (trust : List (List Char)) :
    ∀ (n : Nat) (list : List Char), list.length ≤ n →
      (∀ it ∈ comma_items list, StringViewStrip ws it ≠ []) →
      ∀ (fuel : Nat) (result : Option (List Char)), n + 2 ≤ fuel →
        GetRealRemoteHost_loop ws trust fuel list result =
          some (some (real_remote_host_spec ws list trust)) := by
  intro n
  induction n with
  | zero =>
    intro list hl hitems fuel result hf
    have hnil : list = [] := List.length_eq_zero.mp (by omega)
    subst hnil
    exact absurd rfl (hitems [] (by simp [comma_items]))
  | succ n ih =>
    intro list hl hitems fuel result hf
    obtain ⟨f, rfl⟩ : ∃ f, fuel = f + 1 := ⟨fuel - 1, by omega⟩
    cases hm : memrchr ',' list with
    | none =>
      have hno := memrchr_none hm
      have hne : StringViewStrip ws list ≠ [] :=
        hitems list (by rw [comma_items_no_comma hno]; simp)
      have hne2 : (StringViewStrip ws list).isEmpty = false := by
        cases h : StringViewStrip ws list with
        | nil => exact absurd h hne
        | cons _ _ => rfl
      rw [real_remote_host_spec_single ws trust list hno]
      unfold GetRealRemoteHost_loop
      simp only [LastListItem, hm, hne2, Bool.false_eq_true, if_false, StringViewIsEmpty,
        Option.getD_some]
      split_ifs
      · rfl
      · obtain ⟨f2, rfl⟩ : ∃ f2, f = f2 + 1 := ⟨f - 1, by omega⟩
        exact GetRealRemoteHost_loop_nil ws trust f2 _
    | some i =>
      obtain ⟨hsplit, hb⟩ := memrchr_some hm
      have hitems2 := hitems
      rw [hsplit, comma_items_append _ hb] at hitems2
      have hne : StringViewStrip ws (list.drop (i + 1)) ≠ [] :=
        hitems2 _ (by simp)
      have hne2 : (StringViewStrip ws (list.drop (i + 1))).isEmpty = false := by
        cases h : StringViewStrip ws (list.drop (i + 1)) with
        | nil => exact absurd h hne
        | cons _ _ => rfl
      have hlen : (list.take i).length ≤ n := by
        have : list.length = (list.take i).length + (1 + (list.drop (i + 1)).length) := by
          conv_lhs => rw [hsplit]
          simp only [List.length_append, List.length_cons]
          omega
        omega
      have hrec := ih (list.take i) hlen
        (fun it hit => hitems2 it (List.mem_append_left _ hit)) f
        (some (StringViewStrip ws (list.drop (i + 1)))) (by omega)
      have hspec := real_remote_host_spec_append ws trust (list.take i) (list.drop (i + 1)) hb
      rw [← hsplit] at hspec
      rw [hspec]
      unfold GetRealRemoteHost_loop
      simp only [LastListItem, hm, hne2, Bool.false_eq_true, if_false, StringViewIsEmpty,
        Option.getD_some]
      split_ifs
      · rfl
      · exact hrec

/-- C16: for an `X-Forwarded-For` value whose comma-separated items are all
non-empty after stripping, `GetRealRemoteHost` returns the right-most stripped
item that is not in the trusted set, or the left-most item when every item is
trusted; for a value that consists of white space only, the empty value
included, it returns the null `StringView`. -/
theorem GetRealRemoteHost_rightmost_untrusted (ws : Char → Bool) (xff : List Char)
    (trust : List (List Char)) :
    ((∀ it ∈ comma_items xff, StringViewStrip ws it ≠ []) →
      GetRealRemoteHost ws xff trust = some (some (real_remote_host_spec ws xff trust))) ∧
    ((∀ c ∈ xff, ws c = true ∧ c ≠ ',') → GetRealRemoteHost ws xff trust = some none) := by
  constructor
  · intro hitems
    exact GetRealRemoteHost_loop_spec ws trust xff.length xff (Nat.le_refl _) hitems _ _
      (Nat.le_refl _)
  · intro hblank
    have hno : ',' ∉ xff := fun hm => (hblank _ hm).2 rfl
    have hm : memrchr ',' xff = none := by
      cases h : memrchr ',' xff with
      | none => rfl
      | some i =>
        have := memrchr_some h
        exact absurd (by rw [this.1]; simp) hno
    have hstrip : StringViewStrip ws xff = [] := by
      unfold StringViewStrip
      have : xff.dropWhile ws = [] := by
        rw [List.dropWhile_eq_nil_iff]
        exact fun c hc => (hblank c hc).1
      rw [this]
      rfl
    unfold GetRealRemoteHost GetRealRemoteHost_loop
    simp [LastListItem, hm, hstrip, StringViewIsEmpty]

theorem GetRealRemoteHost_rightmost_untrusted_witness :
    GetRealRemoteHost (fun c => c == ' ') "192.168.1.7, 10.0.0.2, 10.0.0.1".toList
        ["10.0.0.1".toList, "10.0.0.2".toList] =
      some (some (real_remote_host_spec (fun c => c == ' ')
        "192.168.1.7, 10.0.0.2, 10.0.0.1".toList ["10.0.0.1".toList, "10.0.0.2".toList])) ∧
    real_remote_host_spec (fun c => c == ' ')
        "192.168.1.7, 10.0.0.2, 10.0.0.1".toList ["10.0.0.1".toList, "10.0.0.2".toList] =
      "192.168.1.7".toList ∧
    GetRealRemoteHost (fun c => c == ' ') "  ".toList ["10.0.0.1".toList] = some none :=
  ⟨(GetRealRemoteHost_rightmost_untrusted (fun c => c == ' ')
      "192.168.1.7, 10.0.0.2, 10.0.0.1".toList ["10.0.0.1".toList, "10.0.0.2".toList]).1
      (by decide),
    by decide,
    (GetRealRemoteHost_rightmost_untrusted (fun c => c == ' ') "  ".toList
      ["10.0.0.1".toList]).2 (by decide)⟩
/-! ## The hold istream -/

/-- C22: with the keyword `"foo"`, the input chunk `"abcdf"` of 5 bytes and
a handler that consumes at most 3 bytes of what it is offered,
`subst_source_data` passes `"abcd"`, the bytes before the partial match, to the
handler, which takes `"abc"`, and returns 6: the code after the loop adds the
3 bytes to `data` and then returns `(data - data0) + nbytes`. -/
theorem subst_source_data_returns_more_than_offered :
    (cstr "abcdf").length = 5 ∧
    (istream_subst_add_all istream_subst_new [(cstr "foo", some (cstr "X"))]).bind
      (fun s => (subst_source_data (limited_handler 3) s { bytes := [], eof := 0, aborted := 0 }
        (cstr "abcdf")).map (fun r => (r.2.1.bytes, r.2.2))) = some (cstr "abc", 6) := by
  decide

/-! ## AJPv13 client: the assertions of the abort functions -/

/-- C23: a request without response body (`no_body`, as for HEAD).  The
packet is a `SEND_HEADERS` packet with status 200, the message `"OK"` and no
headers.  The first one leaves the client in `READ_NO_BODY`; a second one
makes `ConsumeSendHeaders` call `AbortResponseBody`, whose assertion
`read_state == READ_BODY` is violated, and the abort goes to the handler of a
response body that does not exist. -/
theorem ajp_second_send_headers_violates_assertion :
    (AjpClient.FeedAll ajp_plain_env ajp_consume_all (AjpClient.start true) ()
      [[65, 66, 0, 10, 4, 0, 200, 0, 2, 79, 75, 0, 0, 0]]).map
        (fun r => (r.1.read_state, r.1.trace)) =
      some (READ_NO_BODY, []) ∧
    (AjpClient.FeedAll ajp_plain_env ajp_consume_all (AjpClient.start true) ()
      [[65, 66, 0, 10, 4, 0, 200, 0, 2, 79, 75, 0, 0, 0],
       [65, 66, 0, 10, 4, 0, 200, 0, 2, 79, 75, 0, 0, 0]]).map
        (fun r => (r.1.read_state, r.1.trace)) =
      some (READ_END,
        [.assertion "AbortResponseBody",
         .body_abort "unexpected SEND_HEADERS packet from AJP server",
         .lease_release false]) := by
  decide

/-! ## Relative URIs -/

/-- C24: when `uri` is one byte shorter than `base`, has at least 7 bytes
and no slash after the first 7, and differs from `base` somewhere in the
`base.size` bytes that `memcmp` compares, `uri_relative` returns the empty
string, not null, whatever the two have in common: the special case tests
`memcmp(...)` for a difference instead of for equality.  The result is then
neither the rest of `uri` after `base` nor the case of `base` being `uri` with
a slash appended. -/
theorem uri_relative_empty_for_unrelated (base uri : List Char) (uri_next : Char)
    (hlen : uri.length + 1 = base.length) (h7 : 7 ≤ uri.length)
    (hslash : '/' ∉ uri.drop 7)
    (hdiff : (uri ++ [uri_next]).take base.length ≠ base)
    (hother : base ≠ uri ++ ['/']) :
    uri_relative base uri uri_next = some (some []) ∧
    base ++ [] ≠ uri ∧ base ≠ uri ++ ['/'] := by
  have hb : base ≠ [] := by
    intro h
    rw [h] at hlen
    simp at hlen
  have hu : uri ≠ [] := by
    intro h
    rw [h] at h7
    simp at h7
  refine ⟨?_, ?_, hother⟩
  · unfold uri_relative
    have h1 : (base.isEmpty || uri.isEmpty) = false := by
      cases base with
      | nil => exact absurd rfl hb
      | cons _ _ =>
        cases uri with
        | nil => exact absurd rfl hu
        | cons _ _ => rfl
    have h2 : ¬ (uri.length ≥ base.length ∧ uri.take base.length = base) := by
      intro h
      omega
    have h3 : uri.length = base.length - 1 ∧ (uri ++ [uri_next]).take base.length ≠ base :=
      ⟨by omega, hdiff⟩
    have h4 : ¬ uri.length < 7 := by omega
    have h5 : (!(uri.drop 7).contains '/') = true := by
      simpa using hslash
    rw [h1, if_neg (by decide), if_neg h2, if_pos h3, if_neg h4, h5, if_pos rfl]
  · intro h
    rw [List.append_nil] at h
    rw [h] at hlen
    omega

theorem uri_relative_empty_for_unrelated_witness :
    uri_relative "xyzxyzxyz".toList "abcdefgh".toList '\x00' = some (some []) ∧
    "xyzxyzxyz".toList ++ [] ≠ "abcdefgh".toList ∧
    "xyzxyzxyz".toList ≠ "abcdefgh".toList ++ ['/'] :=
  uri_relative_empty_for_unrelated "xyzxyzxyz".toList "abcdefgh".toList '\x00'
    (by decide) (by decide) (by decide) (by decide) (by decide)
/-! ## HTTP addresses -/

theorem http_address_parse2_host_path (verify : List Char → Bool) (scheme : uri_scheme)
    (ssl : Bool) (h p : List Char) (hne : h ≠ []) (hslash : '/' ∉ h)
    (hv : verify ('/' :: p) = true) :
    http_address_parse2 verify scheme ssl (h ++ '/' :: p) =
      some (http_address_new scheme ssl (some h) ('/' :: p)) := by
  unfold http_address_parse2
  rw [strchr_append_cons h p '/' hslash]
  have h0 : h.length ≠ 0 := fun e => hne (List.length_eq_zero.mp e)
  simp [h0, hv]

/-- C25: for a non-empty host `h` without slash and a path `'/' :: p` that
passes `uri_path_verify_quick`, parsing `"http://" ++ h ++ path` or
`"ajp://" ++ h ++ path` succeeds and `GetAbsoluteURI` gives the URI back.
Parsing `"https://" ++ h ++ path` succeeds too, with the scheme
`URI_SCHEME_HTTP` and the flag `ssl`, but `GetAbsoluteURI` of the result is
`"http://" ++ h ++ path`, which is not the URI parsed: `uri_scheme_prefix`
does not look at `ssl`. -/
theorem http_address_https_absolute_uri (verify : List Char → Bool) (h p : List Char)
    (hne : h ≠ []) (hslash : '/' ∉ h) (hv : verify ('/' :: p) = true) :
    (http_address_parse verify ("http://".toList ++ h ++ '/' :: p)).map
        HttpAddress.GetAbsoluteURI = some ("http://".toList ++ h ++ '/' :: p) ∧
    (http_address_parse verify ("ajp://".toList ++ h ++ '/' :: p)).map
        HttpAddress.GetAbsoluteURI = some ("ajp://".toList ++ h ++ '/' :: p) ∧
    http_address_parse verify ("https://".toList ++ h ++ '/' :: p) =
      some { scheme := .URI_SCHEME_HTTP, ssl := true, host_and_port := some h,
             path := '/' :: p } ∧
    (http_address_parse verify ("https://".toList ++ h ++ '/' :: p)).map
        HttpAddress.GetAbsoluteURI = some ("http://".toList ++ h ++ '/' :: p) ∧
    "http://".toList ++ h ++ '/' :: p ≠ "https://".toList ++ h ++ '/' :: p := by
  have e1 : "http://".toList = ['h', 't', 't', 'p', ':', '/', '/'] := rfl
  have e2 : "https://".toList = ['h', 't', 't', 'p', 's', ':', '/', '/'] := rfl
  have e3 : "ajp://".toList = ['a', 'j', 'p', ':', '/', '/'] := rfl
  have k := fun scheme ssl => http_address_parse2_host_path verify scheme ssl h p hne hslash hv
  refine ⟨?_, ?_, ?_, ?_, ?_⟩
  · unfold http_address_parse
    simp only [e1, List.cons_append, List.nil_append, List.isPrefixOf, beq_self_eq_true,
      Bool.and_self, Bool.true_and, if_true, List.drop_succ_cons, List.drop_zero]
    rw [k]
    simp [HttpAddress.GetAbsoluteURI, HttpAddress.GetAbsoluteURI_with, http_address_new,
      uri_scheme_text, e1]
  · unfold http_address_parse
    simp only [e1, e2, e3, List.cons_append, List.nil_append, List.isPrefixOf,
      beq_self_eq_true, Bool.and_self, Bool.true_and, if_true, List.drop_succ_cons,
      List.drop_zero]
    have hd : ('h' == 'a') = false := by decide
    simp only [hd, Bool.false_and, Bool.false_eq_true, if_false]
    rw [k]
    simp [HttpAddress.GetAbsoluteURI, HttpAddress.GetAbsoluteURI_with, http_address_new,
      uri_scheme_text, e3]
  · unfold http_address_parse
    simp only [e1, e2, List.cons_append, List.nil_append, List.isPrefixOf,
      beq_self_eq_true, Bool.and_self, Bool.true_and, if_true, List.drop_succ_cons,
      List.drop_zero]
    have hd : (':' == 's') = false := by decide
    simp only [hd, Bool.false_and, Bool.and_false, Bool.false_eq_true, if_false]
    rw [k]
    rfl
  · unfold http_address_parse
    simp only [e1, e2, List.cons_append, List.nil_append, List.isPrefixOf,
      beq_self_eq_true, Bool.and_self, Bool.true_and, if_true, List.drop_succ_cons,
      List.drop_zero]
    have hd : (':' == 's') = false := by decide
    simp only [hd, Bool.false_and, Bool.and_false, Bool.false_eq_true, if_false]
    rw [k]
    simp [HttpAddress.GetAbsoluteURI, HttpAddress.GetAbsoluteURI_with, http_address_new,
      uri_scheme_text, e1]
  · rw [e1, e2]
    simp

theorem http_address_https_absolute_uri_witness :
    (http_address_parse (fun _ => true)
        ("https://".toList ++ "example.com".toList ++ '/' :: "index.html".toList)).map
        HttpAddress.GetAbsoluteURI =
      some ("http://".toList ++ "example.com".toList ++ '/' :: "index.html".toList) ∧
    "http://".toList ++ "example.com".toList ++ '/' :: "index.html".toList ≠
      "https://".toList ++ "example.com".toList ++ '/' :: "index.html".toList :=
  ⟨(http_address_https_absolute_uri (fun _ => true) "example.com".toList "index.html".toList
      (by decide) (by decide) rfl).2.2.2.1,
   (http_address_https_absolute_uri (fun _ => true) "example.com".toList "index.html".toList
      (by decide) (by decide) rfl).2.2.2.2⟩

/-! ## Local HTTP addresses -/

theorem uri_relative_ne_self (base uri : List Char) (uri_next : Char) (hb : base ≠ [])
    (hu : uri ≠ []) : uri_relative base uri uri_next ≠ some (some uri) := by
  have hbl : 0 < base.length := List.length_pos.mpr hb
  have hul : 0 < uri.length := List.length_pos.mpr hu
  unfold uri_relative
  split_ifs
  all_goals intro h
  all_goals first
    | (simp only [Option.some.injEq, reduceCtorEq] at h
       done)
    | (simp only [Option.some.injEq] at h
       exact hu h.symm)
    | (simp only [Option.some.injEq] at h
       have hl := congrArg List.length h
       simp only [List.length_drop] at hl
       omega)

/-- C26: when the two addresses are the same program and `ApplyUri` yields
a URI, `LhttpAddress::RelativeToApplied` returns that URI itself.  It is not
the URI expressed relative to the URI of the address, which `uri_relative`
would give and which `CgiAddress::RelativeToApplied` returns for its path
info: for non-empty URIs the two always differ. -/
theorem LhttpAddress_RelativeToApplied_returns_applied_uri (env : uri_env)
    (a apply_base : LhttpAddress) (relative new_uri : List Char) (uri_next : Char)
    (hsame : a.IsSameProgram apply_base = true)
    (happly : ApplyUri env apply_base.uri relative = some new_uri)
    (ha : a.uri ≠ []) (hn : new_uri ≠ []) :
    a.RelativeToApplied env apply_base relative = some (some new_uri) ∧
    a.RelativeToApplied_spec env apply_base relative uri_next =
      uri_relative a.uri new_uri uri_next ∧
    a.RelativeToApplied env apply_base relative ≠
      a.RelativeToApplied_spec env apply_base relative uri_next := by
  have h1 : a.RelativeToApplied env apply_base relative = some (some new_uri) := by
    simp [LhttpAddress.RelativeToApplied, hsame, happly]
  have h2 : a.RelativeToApplied_spec env apply_base relative uri_next =
      uri_relative a.uri new_uri uri_next := by
    simp [LhttpAddress.RelativeToApplied_spec, hsame, happly]
  refine ⟨h1, h2, ?_⟩
  rw [h1, h2]
  exact fun h => uri_relative_ne_self a.uri new_uri uri_next ha hn h.symm

theorem LhttpAddress_RelativeToApplied_returns_applied_uri_witness :
    LhttpAddress.RelativeToApplied uri_append_env
        { path := "/usr/bin/app".toList, uri := "/foo/".toList }
        { path := "/usr/bin/app".toList, uri := "/foo/".toList } "bar".toList =
      some (some "/foo/bar".toList) ∧
    LhttpAddress.RelativeToApplied_spec uri_append_env
        { path := "/usr/bin/app".toList, uri := "/foo/".toList }
        { path := "/usr/bin/app".toList, uri := "/foo/".toList } "bar".toList '\x00' =
      some (some "bar".toList) ∧
    CgiAddress.RelativeToApplied uri_append_env true
        { path := "/usr/bin/app".toList, path_info := some "/foo/".toList }
        { path := "/usr/bin/app".toList, path_info := some "/foo/".toList } "bar".toList '\x00' =
      some (some "bar".toList) :=
  ⟨(LhttpAddress_RelativeToApplied_returns_applied_uri uri_append_env
      { path := "/usr/bin/app".toList, uri := "/foo/".toList }
      { path := "/usr/bin/app".toList, uri := "/foo/".toList } "bar".toList "/foo/bar".toList
      '\x00' (by decide) (by decide) (by decide) (by decide)).1,
   by decide, by decide⟩

/-! ## Child options -/

/-- C27: the object built by the copy constructor has the fields of the
source except the environment list, which is empty; `CopyFrom` on a fresh
object copies the list as well.  The two are equal only if the source has no
environment, and for a source with the environment `FOO=bar` the copy lacks
`$FOO=bar` in its id. -/
theorem ChildOptions_copy_constructor_drops_env (src : spawn.ChildOptions)
    (djb_hash_string : String → Nat) :
    (spawn.ChildOptions.copy src).env = [] ∧
    (spawn.ChildOptions.CopyFrom spawn.ChildOptions.fresh src) = src ∧
    (spawn.ChildOptions.copy src = spawn.ChildOptions.CopyFrom spawn.ChildOptions.fresh src ↔
      src.env = []) ∧
    spawn.ChildOptions.MakeId djb_hash_string
        (spawn.ChildOptions.copy { spawn.ChildOptions.fresh with env := ["FOO=bar"] }) = "" ∧
    spawn.ChildOptions.MakeId djb_hash_string
        { spawn.ChildOptions.fresh with env := ["FOO=bar"] } = "$FOO=bar" := by
  refine ⟨rfl, rfl, ?_, rfl, rfl⟩
  constructor
  · intro h
    have := congrArg spawn.ChildOptions.env h
    exact this.symm
  · intro h
    simp [spawn.ChildOptions.copy, spawn.ChildOptions.CopyFrom, h]

/-! ## Namespace options -/

/-- C28: the identifier written by `namespace_options_id` does not depend
on `mount_tmp_tmpfs`: `";tmpfs"` is written under the same condition as
`";proc"`, namely `enable_mount` and `mount_proc`.  With `enable_mount` and
`mount_tmp_tmpfs` alone the identifier is `";mns"`, the same as without
`mount_tmp_tmpfs`, and with `enable_mount` and `mount_proc` alone it is
`";mns;proc;tmpfs"`. -/
theorem namespace_options_id_ignores_mount_tmp_tmpfs (options : namespace_options)
    (b : Bool) :
    namespace_options_id { options with mount_tmp_tmpfs := b } = namespace_options_id options ∧
    namespace_options_id
        { namespace_options_init with enable_mount := true, mount_tmp_tmpfs := true } =
      ";mns" ∧
    namespace_options_id { namespace_options_init with enable_mount := true } = ";mns" ∧
    namespace_options_id
        { namespace_options_init with enable_mount := true, mount_proc := true } =
      ";mns;proc;tmpfs" := by
  exact ⟨rfl, by decide, by decide, by decide⟩

/-! ## Resource loader -/

/-- C29: without an `X-Forwarded-For` header `extract_remote_addr` returns
the empty string.  With a value that contains a comma the result starts at the
last comma, not after it: it begins with a comma, and for `"a, b"` it is
`", b"`. -/
theorem extract_remote_addr_keeps_comma (headers : Option strmap) (xff : String)
    (hget : strmap_get_checked headers "x-forwarded-for" = some xff)
    (hcomma : ',' ∈ xff.toList) :
    (extract_remote_addr headers).head? = some ',' ∧
    ',' ∈ extract_remote_addr headers ∧
    extract_remote_addr none = [] ∧
    extract_remote_addr (some [("x-forwarded-for", "a, b")]) = ", b".toList := by
  have key : ∃ rest, extract_remote_addr headers = ',' :: rest := by
    unfold extract_remote_addr strrchr
    rw [hget]
    simp only []
    cases hm : memrchr ',' xff.toList with
    | none => exact absurd hcomma (memrchr_none hm)
    | some i =>
      have hs := (memrchr_some hm).1
      have hd : xff.toList.drop i = ',' :: xff.toList.drop (i + 1) := by
        have hl : (xff.toList.take i).length = i := by
          rw [List.length_take]
          have : i < xff.toList.length := by
            by_contra hge
            have h1 : xff.toList.drop (i + 1) = [] := List.drop_eq_nil_of_le (by omega)
            have h2 : xff.toList.take i = xff.toList := List.take_of_length_le (by omega)
            rw [h1, h2] at hs
            have := congrArg List.length hs
            simp at this
          omega
        conv_lhs => rw [hs]
        rw [List.drop_left' hl]
      refine ⟨xff.toList.drop (i + 1), ?_⟩
      rw [Option.getD_some, hd, List.dropWhile_cons_of_neg (by decide)]
  obtain ⟨rest, hr⟩ := key
  refine ⟨by rw [hr]; rfl, by rw [hr]; exact List.mem_cons_self _ _, rfl, by decide⟩

theorem extract_remote_addr_keeps_comma_witness :
    (extract_remote_addr (some [("x-forwarded-for", "a, b")])).head? = some ',' ∧
    ',' ∈ extract_remote_addr (some [("x-forwarded-for", "a, b")]) ∧
    extract_remote_addr none = [] ∧
    extract_remote_addr (some [("x-forwarded-for", "a, b")]) = ", b".toList :=
  extract_remote_addr_keeps_comma (some [("x-forwarded-for", "a, b")]) "a, b" (by decide)
    (by decide)
/-! ## Session manager: purging -/

theorem purge_collect_step_spec (pre : List Session) (l : List Session × Nat) (x : Session)
    (h0 : pre = [] → l.2 = 0) (h1 : pre ≠ [] → l.1 ≠ [])
    (h2 : ∀ s ∈ l.1, s.purge_score = l.2 ∧ s ∈ pre)
    (h3 : ∀ t ∈ pre, t.purge_score ≤ l.2) :
    (purge_collect_step l x).1 ≠ [] ∧
    (∀ s ∈ (purge_collect_step l x).1,
      s.purge_score = (purge_collect_step l x).2 ∧ s ∈ pre ++ [x]) ∧
    (∀ t ∈ pre ++ [x], t.purge_score ≤ (purge_collect_step l x).2) := by
  unfold purge_collect_step checked_append Session.GetPurgeScore
  simp only []
  by_cases hgt : x.purge_score > l.2
  · simp only [hgt, if_true, List.length_nil, Nat.zero_lt_succ, List.nil_append]
    refine ⟨by simp, ?_, ?_⟩
    · intro s hs
      simp only [List.mem_singleton] at hs
      subst hs
      exact ⟨rfl, by simp⟩
    · intro t ht
      rcases List.mem_append.mp ht with ht | ht
      · exact Nat.le_of_lt (Nat.lt_of_le_of_lt (h3 t ht) hgt)
      · simp only [List.mem_singleton] at ht
        subst ht
        exact Nat.le_refl _
  · simp only [hgt, if_false]
    have h3x : ∀ t ∈ pre ++ [x], t.purge_score ≤ l.2 := by
      intro t ht
      rcases List.mem_append.mp ht with ht | ht
      · exact h3 t ht
      · simp only [List.mem_singleton] at ht
        subst ht
        omega
    have h2x : ∀ s ∈ l.1, s.purge_score = l.2 ∧ s ∈ pre ++ [x] :=
      fun s hs => ⟨(h2 s hs).1, List.mem_append_left _ (h2 s hs).2⟩
    by_cases heq : x.purge_score = l.2
    · simp only [heq, if_true]
      by_cases hfull : l.1.length < 256
      · simp only [hfull, if_true]
        refine ⟨by simp, ?_, h3x⟩
        intro s hs
        rcases List.mem_append.mp hs with hs | hs
        · exact h2x s hs
        · simp only [List.mem_singleton] at hs
          subst hs
          exact ⟨heq, by simp⟩
      · simp only [hfull, if_false]
        refine ⟨?_, h2x, h3x⟩
        intro hnil
        rw [hnil] at hfull
        exact hfull (by decide)
    · simp only [heq, if_false]
      refine ⟨?_, h2x, h3x⟩
      apply h1
      intro hpre
      have hz := h0 hpre
      omega

theorem purge_collect_foldl_spec (xs : List Session) :
    ∀ (pre : List Session) (l : List Session × Nat),
      (pre = [] → l.2 = 0) → (pre ≠ [] → l.1 ≠ []) →
      (∀ s ∈ l.1, s.purge_score = l.2 ∧ s ∈ pre) →
      (∀ t ∈ pre, t.purge_score ≤ l.2) →
      (pre ++ xs ≠ [] → (xs.foldl purge_collect_step l).1 ≠ []) ∧
      (∀ s ∈ (xs.foldl purge_collect_step l).1,
        s.purge_score = (xs.foldl purge_collect_step l).2 ∧ s ∈ pre ++ xs) ∧
      (∀ t ∈ pre ++ xs, t.purge_score ≤ (xs.foldl purge_collect_step l).2) := by
  induction xs with
  | nil =>
    intro pre l _ h1 h2 h3
    simp only [List.append_nil, List.foldl_nil]
    exact ⟨h1, h2, h3⟩
  | cons x rest ih =>
    intro pre l h0 h1 h2 h3
    have sp := purge_collect_step_spec pre l x h0 h1 h2 h3
    have r := ih (pre ++ [x]) (purge_collect_step l x) (fun h => absurd h (by simp))
      (fun _ => sp.1) sp.2.1 sp.2.2
    simp only [List.append_assoc, List.singleton_append] at r
    rw [List.foldl_cons]
    exact r

/-- The sessions collected by the first loop of `Purge`: there is one if the
container is not empty, all of them are sessions of the container, and none
of the container has a higher score. -/
theorem purge_collect_spec (sessions : List Session) :
    (sessions ≠ [] → (purge_collect sessions).1 ≠ []) ∧
    (∀ s ∈ (purge_collect sessions).1,
      s ∈ sessions ∧ ∀ t ∈ sessions, t.purge_score ≤ s.purge_score) := by
  have r := purge_collect_foldl_spec sessions [] ([], 0) (fun _ => rfl)
    (fun h => absurd rfl h) (fun s hs => by simp at hs) (fun t ht => by simp at ht)
  simp only [List.nil_append] at r
  refine ⟨r.1, fun s hs => ⟨(r.2.1 s hs).2, fun t ht => ?_⟩⟩
  rw [(r.2.1 s hs).1]
  exact r.2.2 t ht

theorem purge_erase_length_le (ps : List Session) :
    ∀ c : List Session, (purge_erase c ps).length ≤ c.length := by
  induction ps with
  | nil => intro c; exact Nat.le_refl _
  | cons s rest ih =>
    intro c
    unfold purge_erase at ih ⊢
    rw [List.foldl_cons]
    have h1 := ih (c.erase s)
    have h2 : (c.erase s).length ≤ c.length := by
      rw [List.length_erase]
      split_ifs <;> omega
    omega

theorem purge_erase_length_lt (c ps : List Session) (hne : ps ≠ []) (hmem : ∀ s ∈ ps, s ∈ c) :
    (purge_erase c ps).length < c.length := by
  cases ps with
  | nil => exact absurd rfl hne
  | cons s rest =>
    have hs : s ∈ c := hmem s (by simp)
    have h1 := purge_erase_length_le rest (c.erase s)
    have h2 : (c.erase s).length + 1 = c.length := by
      rw [List.length_erase_of_mem hs]
      have : 0 < c.length := List.length_pos_of_mem hs
      omega
    unfold purge_erase at h1 ⊢
    rw [List.foldl_cons]
    omega

theorem SessionContainer.Purge_spec :
    ∀ (n : Nat) (sessions : List Session) (fuel : Nat), sessions.length ≤ n → n < fuel →
      ∃ r, SessionContainer.Purge fuel sessions = some r ∧
        r.1 = !sessions.isEmpty ∧
        r.2.1.length ≤ sessions.length ∧
        (sessions ≠ [] → r.2.1.length < sessions.length ∧ r.2.2 ≠ []) ∧
        (sessions = [] → r.2.1 = [] ∧ r.2.2 = []) ∧
        purge_passes_ok sessions r.2.2 ∧
        r.2.1 = r.2.2.foldl purge_erase sessions := by
  intro n
  induction n with
  | zero =>
    intro sessions fuel hl hf
    obtain ⟨f, rfl⟩ : ∃ f, fuel = f + 1 := ⟨fuel - 1, by omega⟩
    have hnil : sessions = [] := List.length_eq_zero.mp (by omega)
    subst hnil
    exact ⟨(false, [], []), rfl, rfl, Nat.le_refl _, fun h => absurd rfl h,
      fun _ => ⟨rfl, rfl⟩, trivial, rfl⟩
  | succ n ih =>
    intro sessions fuel hl hf
    obtain ⟨f, rfl⟩ : ∃ f, fuel = f + 1 := ⟨fuel - 1, by omega⟩
    have sp := purge_collect_spec sessions
    by_cases hempty : sessions = []
    · subst hempty
      exact ⟨(false, [], []), rfl, rfl, Nat.le_refl _, fun h => absurd rfl h,
        fun _ => ⟨rfl, rfl⟩, trivial, rfl⟩
    · have hne := sp.1 hempty
      have hlt := purge_erase_length_lt sessions (purge_collect sessions).1 hne
        (fun s hs => (sp.2 s hs).1)
      have hiso : (purge_collect sessions).1.isEmpty = false := by
        cases h : (purge_collect sessions).1 with
        | nil => exact absurd h hne
        | cons _ _ => rfl
      have hse : (!sessions.isEmpty) = true := by
        cases sessions with
        | nil => exact absurd rfl hempty
        | cons _ _ => rfl
      unfold SessionContainer.Purge
      simp only [hiso, Bool.false_eq_true, if_false]
      split_ifs with hagain
      · obtain ⟨r, hr, _, h2, _, _, h5, h6⟩ :=
          ih (purge_erase sessions (purge_collect sessions).1) f (by omega) (by omega)
        rw [hr]
        refine ⟨_, rfl, hse.symm, by simp only []; omega,
          fun _ => ⟨by simp only []; omega, by simp⟩, fun h => absurd h hempty,
          ⟨hne, sp.2, h5⟩, ?_⟩
        simp only [List.foldl_cons]
        exact h6
      · exact ⟨_, rfl, hse.symm, Nat.le_of_lt hlt, fun _ => ⟨hlt, by simp⟩,
          fun h => absurd h hempty, ⟨hne, sp.2, trivial⟩, rfl⟩

/-- C21: `SessionContainer::Purge` ends, whatever the order in which the
container is iterated.  On an empty container it returns false and removes
nothing.  On a non-empty container it returns true and leaves fewer sessions
than there were; in every pass at least one session is removed, every session
removed is a session of the container at the start of the pass, and no session
of the container at that time has a higher purge score. -/
theorem SessionContainer_Purge_removes_highest_score (sessions : List Session) :
    ∃ r, SessionContainer.Purge (sessions.length + 1) sessions = some r ∧
      r.1 = !sessions.isEmpty ∧
      (sessions ≠ [] → r.2.1.length < sessions.length ∧ r.2.2 ≠ []) ∧
      (sessions = [] → r.2.1 = [] ∧ r.2.2 = []) ∧
      purge_passes_ok sessions r.2.2 ∧
      r.2.1 = r.2.2.foldl purge_erase sessions := by
  obtain ⟨r, h1, h2, _, h4, h5, h6, h7⟩ :=
    SessionContainer.Purge_spec sessions.length sessions (sessions.length + 1) (Nat.le_refl _)
      (Nat.lt_succ_self _)
  exact ⟨r, h1, h2, h4, h5, h6, h7⟩

theorem SessionContainer_Purge_removes_highest_score_witness :
    SessionContainer.Purge 4
        [{ id := 1, purge_score := 2 }, { id := 2, purge_score := 5 },
         { id := 3, purge_score := 5 }] =
      some (true, [{ id := 1, purge_score := 2 }],
        [[{ id := 2, purge_score := 5 }, { id := 3, purge_score := 5 }]]) ∧
    ∃ r, SessionContainer.Purge (0 + 1) [] = some r ∧ r.1 = false := by
  refine ⟨by decide, ?_⟩
  obtain ⟨r, h1, h2, _⟩ := SessionContainer_Purge_removes_highest_score []
  exact ⟨r, h1, h2⟩
/-! ## HTML parser: termination -/

theorem parser_rank_le (env : parser_env) (p : parser) (buffer : List Char) :
    parser_rank env p buffer ≤ 3 := by
  unfold parser_rank
  split <;> try omega
  split
  · omega
  · split_ifs <;> omega

theorem parser_element_name_le (env : parser_env) (b : List Char) :
    ∀ p : parser, (parser_element_name env p b).2.length ≤ b.length := by
  induction b with
  | nil => intro p; simp [parser_element_name]
  | cons c cs ih =>
    intro p
    simp only [parser_element_name]
    split_ifs
    all_goals first
      | exact Nat.le_refl _
      | exact Nat.le_succ_of_le (ih _)
      | exact Nat.le_succ _

theorem parser_element_tag_le (env : parser_env) (total : Nat) (b : List Char) :
    ∀ p : parser, (parser_element_tag env total p b).2.length ≤ b.length := by
  induction b with
  | nil => intro p; simp [parser_element_tag]
  | cons c cs ih =>
    intro p
    simp only [parser_element_tag]
    split_ifs
    all_goals first
      | exact Nat.le_refl _
      | exact Nat.le_succ_of_le (ih _)
      | exact Nat.le_succ _

theorem parser_attr_name_le (env : parser_env) (b : List Char) :
    ∀ p : parser, (parser_attr_name env p b).2.length ≤ b.length := by
  induction b with
  | nil => intro p; simp [parser_attr_name]
  | cons c cs ih =>
    intro p
    simp only [parser_attr_name]
    split_ifs
    all_goals first
      | exact Nat.le_refl _
      | exact Nat.le_succ_of_le (ih _)

theorem parser_after_attr_name_le (env : parser_env) (b : List Char) :
    ∀ p : parser, (parser_after_attr_name env p b).2.length ≤ b.length := by
  induction b with
  | nil => intro p; simp [parser_after_attr_name]
  | cons c cs ih =>
    intro p
    simp only [parser_after_attr_name]
    split_ifs
    all_goals first
      | exact Nat.le_refl _
      | exact Nat.le_succ_of_le (ih _)
      | exact Nat.le_succ _

theorem parser_before_attr_value_le (env : parser_env) (total : Nat) (b : List Char) :
    ∀ p : parser, (parser_before_attr_value env total p b).2.length ≤ b.length := by
  induction b with
  | nil => intro p; simp [parser_before_attr_value]
  | cons c cs ih =>
    intro p
    simp only [parser_before_attr_value]
    split_ifs
    all_goals first
      | exact Nat.le_refl _
      | exact Nat.le_succ_of_le (ih _)
      | exact Nat.le_succ _

theorem parser_attr_value_le (env : parser_env) (total : Nat) (b : List Char) :
    ∀ p : parser, (parser_attr_value env total p b).2.length ≤ b.length := by
  induction b with
  | nil => intro p; simp [parser_attr_value]
  | cons c cs ih =>
    intro p
    simp only [parser_attr_value]
    split_ifs
    all_goals first
      | exact Nat.le_refl _
      | exact Nat.le_succ_of_le (ih _)
      | exact Nat.le_succ _

theorem parser_attr_value_compat_le (env : parser_env) (total : Nat) (b : List Char) :
    ∀ p : parser, (parser_attr_value_compat env total p b).2.length ≤ b.length := by
  induction b with
  | nil => intro p; simp [parser_attr_value_compat]
  | cons c cs ih =>
    intro p
    simp only [parser_attr_value_compat]
    split_ifs
    all_goals first
      | exact Nat.le_refl _
      | exact Nat.le_succ_of_le (ih _)

theorem parser_short_le (env : parser_env) (total : Nat) (b : List Char) :
    ∀ p : parser, (parser_short env total p b).2.length ≤ b.length := by
  induction b with
  | nil => intro p; simp [parser_short]
  | cons c cs ih =>
    intro p
    simp only [parser_short]
    split_ifs
    all_goals first
      | exact Nat.le_refl _
      | exact Nat.le_succ_of_le (ih _)
      | exact Nat.le_succ _

theorem parser_declaration_name_le (env : parser_env) (b : List Char) :
    ∀ p : parser, (parser_declaration_name env p b).2.length ≤ b.length := by
  induction b with
  | nil => intro p; simp [parser_declaration_name]
  | cons c cs ih =>
    intro p
    simp only [parser_declaration_name]
    split_ifs
    all_goals first
      | exact Nat.le_refl _
      | exact Nat.le_succ_of_le (ih _)
      | exact Nat.le_succ _

theorem parser_cdata_section_le (b : List Char) :
    ∀ (p : parser) (pending : List Char),
      (parser_cdata_section p pending b).2.length ≤ b.length := by
  induction b with
  | nil => intro p pending; simp [parser_cdata_section]
  | cons c cs ih =>
    intro p pending
    simp only [parser_cdata_section]
    split_ifs
    all_goals first
      | exact Nat.le_succ_of_le (ih _ _)
      | exact Nat.le_succ _

theorem parser_none_progress (total : Nat) (p : parser) (c : Char) (cs : List Char) :
    if (parser_none total p (c :: cs)).2.2 then (parser_none total p (c :: cs)).2.1 = []
    else (parser_none total p (c :: cs)).2.1.length < (c :: cs).length := by
  unfold parser_none
  simp only []
  by_cases h : (c :: cs).indexOf '<' ≥ (c :: cs).length
  · rw [if_pos h]
    simp
  · rw [if_neg h]
    simp only [Bool.false_eq_true, if_false, List.length_drop]
    omega

theorem parser_element_name_progress (env : parser_env) (p : parser) (c : Char) (cs : List Char)
    (hs : p.state = PARSER_ELEMENT_NAME) :
    parser_progress env p (c :: cs) (parser_element_name env p (c :: cs)) := by
  have hr : parser_rank env p (c :: cs) = 2 := by simp [parser_rank, hs]
  unfold parser_progress
  rw [hr]
  simp only [parser_element_name]
  split_ifs
  all_goals first
    | (left
       exact Nat.lt_succ_of_le (parser_element_name_le env cs _))
    | (left
       exact Nat.lt_succ_self _)
    | (right
       exact ⟨rfl, by simp [parser_rank, parser.emit]⟩)

theorem parser_element_tag_progress (env : parser_env) (total : Nat) (p : parser) (c : Char)
    (cs : List Char) (hsize : 0 < env.attr_name_size)
    (hletter : ∀ c, env.char_is_letter c = true → env.char_is_alphanumeric c = true)
    (hs : p.state = PARSER_ELEMENT_TAG) :
    parser_progress env p (c :: cs) (parser_element_tag env total p (c :: cs)) := by
  have hr : parser_rank env p (c :: cs) = 1 := by simp [parser_rank, hs]
  unfold parser_progress
  rw [hr]
  simp only [parser_element_tag]
  split_ifs with h1 h2 h3 h4
  · left
    exact Nat.lt_succ_of_le (parser_element_tag_le env total cs _)
  · left
    exact Nat.lt_succ_self _
  · left
    exact Nat.lt_succ_self _
  · right
    refine ⟨rfl, ?_⟩
    have ha := hletter c h4
    have hne : (0 : Nat) ≠ env.attr_name_size := by omega
    simp [parser_rank, ha, hne]
  · right
    exact ⟨rfl, by simp [parser_rank]⟩

theorem parser_attr_name_progress (env : parser_env) (p : parser) (c : Char) (cs : List Char)
    (hs : p.state = PARSER_ATTR_NAME) :
    parser_progress env p (c :: cs) (parser_attr_name env p (c :: cs)) := by
  unfold parser_progress
  simp only [parser_attr_name]
  split_ifs with h1 h2 h3
  · right
    refine ⟨rfl, ?_⟩
    have hr : parser_rank env p (c :: cs) = 3 := by
      simp only [parser_rank, hs, h2, ne_eq, not_true_eq_false, and_false, if_false]
    rw [hr]
    simp [parser_rank]
  · left
    exact Nat.lt_succ_of_le (parser_attr_name_le env cs _)
  · right
    refine ⟨rfl, ?_⟩
    have hr : parser_rank env p (c :: cs) = 3 := by
      simp only [parser_rank, hs, h1, false_and, if_false]
    rw [hr]
    simp [parser_rank]
  · right
    refine ⟨rfl, ?_⟩
    have hr : parser_rank env p (c :: cs) = 3 := by
      simp only [parser_rank, hs, h1, false_and, if_false]
    rw [hr]
    simp [parser_rank, parser.emit]

theorem parser_after_attr_name_progress (env : parser_env) (p : parser) (c : Char)
    (cs : List Char) (hs : p.state = PARSER_AFTER_ATTR_NAME) :
    parser_progress env p (c :: cs) (parser_after_attr_name env p (c :: cs)) := by
  have hr : parser_rank env p (c :: cs) = 2 := by simp [parser_rank, hs]
  unfold parser_progress
  rw [hr]
  simp only [parser_after_attr_name]
  split_ifs
  all_goals first
    | (left
       exact Nat.lt_succ_of_le (parser_after_attr_name_le env cs _))
    | (left
       exact Nat.lt_succ_self _)
    | (right
       exact ⟨rfl, by simp [parser_rank, parser.emit]⟩)

theorem parser_before_attr_value_progress (env : parser_env) (total : Nat) (p : parser)
    (c : Char) (cs : List Char) (hs : p.state = PARSER_BEFORE_ATTR_VALUE) :
    parser_progress env p (c :: cs) (parser_before_attr_value env total p (c :: cs)) := by
  have hr : parser_rank env p (c :: cs) = 3 := by simp [parser_rank, hs]
  unfold parser_progress
  rw [hr]
  simp only [parser_before_attr_value]
  split_ifs
  all_goals first
    | (left
       exact Nat.lt_succ_of_le (parser_before_attr_value_le env total cs _))
    | (left
       exact Nat.lt_succ_self _)
    | (right
       exact ⟨rfl, by simp [parser_rank, parser.emit]⟩)

theorem parser_attr_value_progress (env : parser_env) (total : Nat) (p : parser)
    (c : Char) (cs : List Char) (hs : p.state = PARSER_ATTR_VALUE) :
    parser_progress env p (c :: cs) (parser_attr_value env total p (c :: cs)) := by
  have hr : parser_rank env p (c :: cs) = 2 := by simp [parser_rank, hs]
  unfold parser_progress
  rw [hr]
  simp only [parser_attr_value]
  split_ifs
  all_goals first
    | (left
       exact Nat.lt_succ_of_le (parser_attr_value_le env total cs _))
    | (left
       exact Nat.lt_succ_self _)
    | (right
       exact ⟨rfl, by simp [parser_rank, parser.emit]⟩)

theorem parser_attr_value_compat_progress (env : parser_env) (total : Nat) (p : parser)
    (c : Char) (cs : List Char) (hs : p.state = PARSER_ATTR_VALUE_COMPAT) :
    parser_progress env p (c :: cs) (parser_attr_value_compat env total p (c :: cs)) := by
  have hr : parser_rank env p (c :: cs) = 2 := by simp [parser_rank, hs]
  unfold parser_progress
  rw [hr]
  simp only [parser_attr_value_compat]
  split_ifs
  all_goals first
    | (left
       exact Nat.lt_succ_of_le (parser_attr_value_compat_le env total cs _))
    | (right
       exact ⟨rfl, by simp [parser_rank, parser.emit]⟩)

theorem parser_short_progress (env : parser_env) (total : Nat) (p : parser)
    (c : Char) (cs : List Char) (hs : p.state = PARSER_SHORT) :
    parser_progress env p (c :: cs) (parser_short env total p (c :: cs)) := by
  have hr : parser_rank env p (c :: cs) = 1 := by simp [parser_rank, hs]
  unfold parser_progress
  rw [hr]
  simp only [parser_short]
  split_ifs
  all_goals first
    | (left
       exact Nat.lt_succ_of_le (parser_short_le env total cs _))
    | (left
       exact Nat.lt_succ_self _)
    | (right
       exact ⟨rfl, by simp [parser_rank, parser.emit]⟩)

theorem parser_declaration_name_progress (env : parser_env) (p : parser)
    (c : Char) (cs : List Char) (hs : p.state = PARSER_DECLARATION_NAME) :
    parser_progress env p (c :: cs) (parser_declaration_name env p (c :: cs)) := by
  have hr : parser_rank env p (c :: cs) = 1 := by simp [parser_rank, hs]
  unfold parser_progress
  rw [hr]
  simp only [parser_declaration_name]
  split_ifs
  all_goals first
    | (left
       exact Nat.lt_succ_of_le (parser_declaration_name_le env cs _))
    | (left
       exact Nat.lt_succ_self _)
    | (right
       exact ⟨rfl, by simp [parser_rank, parser.emit]⟩)

theorem parser_cdata_section_progress (p : parser) (c : Char) (cs : List Char) :
    (parser_cdata_section p [] (c :: cs)).2.length < (c :: cs).length := by
  simp only [parser_cdata_section]
  split_ifs
  all_goals first
    | exact Nat.lt_succ_of_le (parser_cdata_section_le cs _ _)
    | exact Nat.lt_succ_self _

/-- One pass through the outer loop of `parser_feed` on a non-empty buffer
returns with nothing left, or consumes a byte, or leaves the buffer as it is
and lowers the number of passes that may follow without a byte consumed. -/
theorem parser_pass_progress (env : parser_env) (total : Nat) (p : parser) (c : Char)
    (cs : List Char) (hsize : 0 < env.attr_name_size)
    (hletter : ∀ c, env.char_is_letter c = true → env.char_is_alphanumeric c = true) :
    if (parser_pass env total p (c :: cs)).2.2 then (parser_pass env total p (c :: cs)).2.1 = []
    else parser_progress env p (c :: cs)
      ((parser_pass env total p (c :: cs)).1, (parser_pass env total p (c :: cs)).2.1) := by
  unfold parser_pass
  cases hs : p.state
  · simp only []
    have h := parser_none_progress total p c cs
    split_ifs at h ⊢ with hr
    · exact h
    · exact Or.inl h
  all_goals simp only [Bool.false_eq_true, if_false]
  · exact parser_element_name_progress env p c cs hs
  · exact parser_element_tag_progress env total p c cs hsize hletter hs
  · exact parser_attr_name_progress env p c cs hs
  · exact parser_after_attr_name_progress env p c cs hs
  · exact parser_before_attr_value_progress env total p c cs hs
  · exact parser_attr_value_progress env total p c cs hs
  · exact parser_attr_value_compat_progress env total p c cs hs
  · exact parser_short_progress env total p c cs hs
  · right
    exact ⟨rfl, by simp [parser_rank, hs]⟩
  · exact parser_declaration_name_progress env p c cs hs
  · exact Or.inl (parser_cdata_section_progress p c cs)

theorem parser_feed_loop_total (env : parser_env) (total : Nat)
    (hsize : 0 < env.attr_name_size)
    (hletter : ∀ c, env.char_is_letter c = true → env.char_is_alphanumeric c = true) :
    ∀ (n : Nat) (p : parser) (buffer : List Char) (fuel : Nat),
      4 * buffer.length + parser_rank env p buffer ≤ n → n < fuel →
      ∃ q, parser_feed_loop env total fuel p buffer = some (q, []) := by
  intro n
  induction n with
  | zero =>
    intro p buffer fuel hm hf
    obtain ⟨f, rfl⟩ : ∃ f, fuel = f + 1 := ⟨fuel - 1, by omega⟩
    have hnil : buffer = [] := List.length_eq_zero.mp (by omega)
    subst hnil
    exact ⟨p, by simp [parser_feed_loop]⟩
  | succ n ih =>
    intro p buffer fuel hm hf
    obtain ⟨f, rfl⟩ : ∃ f, fuel = f + 1 := ⟨fuel - 1, by omega⟩
    cases buffer with
    | nil => exact ⟨p, by simp [parser_feed_loop]⟩
    | cons c cs =>
      have h := parser_pass_progress env total p c cs hsize hletter
      unfold parser_feed_loop
      rw [if_neg (by simp)]
      simp only []
      by_cases hret : (parser_pass env total p (c :: cs)).2.2 = true
      · rw [if_pos hret] at h ⊢
        rw [h]
        exact ⟨_, rfl⟩
      · rw [if_neg hret] at h ⊢
        have hr := parser_rank_le env (parser_pass env total p (c :: cs)).1
          (parser_pass env total p (c :: cs)).2.1
        apply ih _ _ f _ (by omega)
        rcases h with h | ⟨h1, h2⟩
        · simp only [List.length_cons] at h hm ⊢
          omega
        · simp only [] at h1 h2
          rw [h1] at h2 ⊢
          omega

/-- C30: with an attribute name buffer of positive size and character
functions for which every letter is alphanumeric, `parser_feed` returns for
every parser state and every non-empty buffer, and nothing of the buffer is
left when it does.  Each pass through its outer loop returns, or consumes at
least one byte, or consumes none and lowers a number that is at most 3: after
at most three passes without a byte consumed the next pass consumes one or
returns. -/
theorem parser_feed_terminates (env : parser_env) (p : parser) (data : List Char)
    (q : parser) (c : Char) (cs : List Char)
    (hsize : 0 < env.attr_name_size)
    (hletter : ∀ c, env.char_is_letter c = true → env.char_is_alphanumeric c = true)
    (hdata : data ≠ []) :
    (∃ r, parser_feed env p data = some (r, [])) ∧
    (if (parser_pass env data.length q (c :: cs)).2.2 then
      (parser_pass env data.length q (c :: cs)).2.1 = []
    else parser_progress env q (c :: cs)
      ((parser_pass env data.length q (c :: cs)).1,
        (parser_pass env data.length q (c :: cs)).2.1)) ∧
    parser_rank env q (c :: cs) ≤ 3 ∧ 0 < data.length := by
  refine ⟨?_, parser_pass_progress env data.length q c cs hsize hletter,
    parser_rank_le env q _, List.length_pos.mpr hdata⟩
  unfold parser_feed
  have hr := parser_rank_le env p data
  exact parser_feed_loop_total env data.length hsize hletter (4 * data.length + 3) p data _
    (by omega) (by omega)

theorem parser_feed_terminates_witness :
    (∃ r, parser_feed parser_ascii_env parser_init "<a href=x>".toList = some (r, [])) ∧
    (parser_feed parser_ascii_env parser_init "<a href=x>".toList).map (fun r => r.1.trace) =
      some [.element_start ['a'], .attr_finished, .element_finished 10] :=
  ⟨(parser_feed_terminates parser_ascii_env parser_init "<a href=x>".toList parser_init 'a' []
      (by decide) (fun c h => by
        simp only [parser_ascii_env, Char.isAlphanum] at h ⊢
        rw [h]
        rfl) (by decide)).1,
   by decide⟩
end BengProxy
